import Mathlib

/-!
# Gossip admission filter: message schedule and validator pipeline

Shallow embedding of `network/topics/msg_schedule.go` and
`network/topics/msg_validator.go`.

Modelling conventions
* `time.Time` is an integer count of nanoseconds since the zero value
  `time.Time{}` (so the zero value is `0`); the clock reading `time.Now()` of an
  operation is an explicit argument `now`.
* `time.Duration` is an integer count of nanoseconds; `Time.Sub` saturates at
  the `int64` range exactly as the Go library does.
* Go maps are association lists with unique keys; the nil map is `none`.
* A run-time panic (index out of range, write to a nil map) is the result `none`.
* Logging and metrics have no effect on results and are left out.
* `qbft.Round` and `types.OperatorID` are unsigned and only compared, so they are
  natural numbers; `qbft.Height` is signed and only compared, so it is an integer
  (the data model takes heights to be non-negative; where a statement needs that, it
  is a hypothesis).
* A signer list is a Go slice; the data model takes the signers of a message to be a
  set, so where a statement needs a list that names no signer twice, it is a hypothesis.
  The counter `MarkedDecided` is an unbounded integer (wrapping it needs `2^63`
  recorded decided messages for one signer).
-/

namespace Topics

/-! ## Time -/

abbrev Time := Int

abbrev Duration := Int

def Nanosecond : Duration := 1

def Second : Duration := 1000000000 * Nanosecond

def minDuration : Duration := -(2 : Int) ^ 63

def maxDuration : Duration := (2 : Int) ^ 63 - 1

/-- The zero value `time.Time{}`. -/
def zeroTime : Time := 0

/-- `t.Sub(u)`: the difference `t - u`, saturated to the range of `Duration`. -/
def Time.Sub (t u : Time) : Duration :=
  if t - u < minDuration then minDuration
  else if maxDuration < t - u then maxDuration
  else t - u

/-- `t.Add(d)`. -/
def Time.Add (t : Time) (d : Duration) : Time := t + d

/-- `t.After(u)`: strictly later. -/
def Time.After (t u : Time) : Bool := decide (u < t)

/-! ## Constants of `msg_schedule.go` and of the qbft library -/

abbrev Byte := Fin 256

abbrev Round := Nat

abbrev Height := Int

abbrev OperatorID := Nat

abbrev MessageType := Nat

def NoRound : Round := 0

def FirstRound : Round := 1

def ProposalMsgType : MessageType := 0

def PrepareMsgType : MessageType := 1

def CommitMsgType : MessageType := 2

def RoundChangeMsgType : MessageType := 3

def DecidedBeatDuration : Duration := Second * 2

def DecidedCountThreshold : Int := 2

/-- `RoundTimeout` returns the timeout duration for a round. -/
def RoundTimeout (_round : Round) : Duration := Second * 2

/-! ## Maps -/

/-- `Get` of a map held as an association list. -/
def mapGet {κ ν : Type} [DecidableEq κ] (k : κ) : List (κ × ν) → Option ν
  | [] => none
  | e :: rest => if e.1 = k then some e.2 else mapGet k rest

/-- `Set` of a map held as an association list: overwrite the entry of `k`, or add one. -/
def mapSet {κ ν : Type} [DecidableEq κ] (k : κ) (v : ν) : List (κ × ν) → List (κ × ν)
  | [] => [(k, v)]
  | e :: rest => if e.1 = k then (k, v) :: rest else e :: mapSet k v rest

/-! ## mark -/

structure mark where
  HighestRound : Round
  FirstMsgInRound : Time
  MsgTypesInRound : Option (List MessageType)
  HighestDecided : Height
  Last2DecidedTimes : Time × Time
  MarkedDecided : Int
  numOfSignatures : Int
deriving DecidableEq, Repr

/-- The Go zero value `&mark{}`. -/
def mark.zero : mark :=
  { HighestRound := 0, FirstMsgInRound := zeroTime, MsgTypesInRound := none,
    HighestDecided := 0, Last2DecidedTimes := (zeroTime, zeroTime),
    MarkedDecided := 0, numOfSignatures := 0 }

/-- `fmt.Sprintf("%x", id)`: two lower-case hexadecimal digits per byte. -/
def markID (id : List Byte) : String :=
  String.mk (id.flatMap fun b => [Nat.digitChar (b.val / 16), Nat.digitChar (b.val % 16)])

def mark.DurationFromLast2Decided (m : mark) (now : Time) : Duration :=
  Time.Sub now m.Last2DecidedTimes.2

def mark.AddDecidedMark (m : mark) (now : Time) : mark :=
  { m with
    Last2DecidedTimes := (now, m.Last2DecidedTimes.1)
    MarkedDecided := m.MarkedDecided + 1 }

def mark.ResetForNewRound (m : mark) (round : Round) (msgType : MessageType) (now : Time) : mark :=
  { m with
    HighestRound := round
    FirstMsgInRound := now
    MsgTypesInRound := some [msgType] }

def mark.updateDecidedMark (m : mark) (height : Height) (signers : List OperatorID)
    (now : Time) : mark :=
  if m.HighestDecided > height then m
  else
    let m1 : mark :=
      if m.HighestDecided < height then { m with HighestDecided := height, MarkedDecided := 1 }
      else m
    let m2 := m1.AddDecidedMark now
    if m2.numOfSignatures < (signers.length : Int) then
      { m2 with numOfSignatures := (signers.length : Int) }
    else m2

/-! ## MessageSchedule -/

abbrev SignerMap := List (OperatorID × mark)

structure MessageSchedule where
  Marks : List (String × SignerMap)
deriving DecidableEq, Repr

def NewMessageSchedule : MessageSchedule := { Marks := [] }

def MessageSchedule.getMark (schedule : MessageSchedule) (id : String) (signer : OperatorID) :
    Option mark :=
  match mapGet id schedule.Marks with
  | none => none
  | some marksBySigner => mapGet signer marksBySigner

def MessageSchedule.setMark (schedule : MessageSchedule) (id : String) (signer : OperatorID)
    (newMark : mark) : MessageSchedule :=
  match mapGet id schedule.Marks with
  | none => { Marks := mapSet id (mapSet signer newMark []) schedule.Marks }
  | some marksBySigner => { Marks := mapSet id (mapSet signer newMark marksBySigner) schedule.Marks }

/-- `MarkConsensusMessage`; `none` is the panic of a write to a nil `MsgTypesInRound`. -/
def MessageSchedule.MarkConsensusMessage (schedule : MessageSchedule) (id : List Byte)
    (signer : OperatorID) (round : Round) (msgType : MessageType) (now : Time) :
    Option MessageSchedule :=
  let idStr := markID id
  let found := schedule.getMark idStr signer
  let signerMark : mark := found.getD mark.zero
  let schedule1 : MessageSchedule :=
    if found.isSome then schedule else schedule.setMark idStr signer mark.zero
  if signerMark.HighestRound < round then
    some (schedule1.setMark idStr signer (signerMark.ResetForNewRound round msgType now))
  else
    match signerMark.MsgTypesInRound with
    | none => none
    | some types =>
      some (schedule1.setMark idStr signer
        { signerMark with MsgTypesInRound := some (types.insert msgType) })

def MessageSchedule.isConsensusMessageTimely (schedule : MessageSchedule) (id : List Byte)
    (signer : OperatorID) (round : Round) (msgType : MessageType) (now : Time) : Bool :=
  let idStr := markID id
  match schedule.getMark idStr signer with
  | none => true
  | some signerMark =>
    if signerMark.HighestRound < round then
      if Time.After now (Time.Add signerMark.FirstMsgInRound (RoundTimeout signerMark.HighestRound))
      then true else false
    else if signerMark.HighestRound = round then
      match signerMark.MsgTypesInRound with
      | none => true
      | some types => !(decide (msgType ∈ types))
    else false

/-- One iteration of the loop of `markDecidedMessage`. -/
def MessageSchedule.markDecidedStep (id : List Byte) (signers : List OperatorID)
    (height : Height) (now : Time) (schedule : MessageSchedule) (signer : OperatorID) :
    MessageSchedule :=
  let idStr := markID id
  let found := schedule.getMark idStr signer
  let signerMark : mark := found.getD mark.zero
  let schedule1 : MessageSchedule :=
    if found.isSome then schedule else schedule.setMark idStr signer mark.zero
  schedule1.setMark idStr signer (signerMark.updateDecidedMark height signers now)

def MessageSchedule.markDecidedMessage (schedule : MessageSchedule) (id : List Byte)
    (signers : List OperatorID) (height : Height) (now : Time) : MessageSchedule :=
  signers.foldl (MessageSchedule.markDecidedStep id signers height now) schedule

/-- The loop of `isTimelyDecidedMessage` over the remaining signers, `ret` being the
loop-carried variable. -/
def MessageSchedule.isTimelyDecidedLoop (schedule : MessageSchedule) (idStr : String)
    (height : Height) (now : Time) : List OperatorID → Bool → Bool
  | [], ret => ret
  | signer :: rest, _ret =>
    match schedule.getMark idStr signer with
    | none => MessageSchedule.isTimelyDecidedLoop schedule idStr height now rest true
    | some signerMark =>
      if signerMark.HighestDecided > height then false
      else if signerMark.MarkedDecided ≥ DecidedCountThreshold then
        decide (signerMark.DurationFromLast2Decided now ≥ DecidedBeatDuration)
      else MessageSchedule.isTimelyDecidedLoop schedule idStr height now rest true

def MessageSchedule.isTimelyDecidedMessage (schedule : MessageSchedule) (id : List Byte)
    (signers : List OperatorID) (height : Height) (now : Time) : Bool :=
  schedule.isTimelyDecidedLoop (markID id) height now signers false

/-- `hasBetterMsg` on the fields of the commit it reads: the identifier, the height and
the signer list. `Range` visits every entry of the signer map. -/
def MessageSchedule.hasBetterMsgAt (schedule : MessageSchedule) (id : List Byte)
    (height : Height) (signers : List OperatorID) : Bool :=
  let idStr := markID id
  match mapGet idStr schedule.Marks with
  | none => false
  | some signerMap =>
    signerMap.any fun e =>
      decide (e.2.HighestDecided = height) && decide ((signers.length : Int) < e.2.numOfSignatures)

/-! ## Messages and the external collaborators of the validator -/

structure Message where
  MsgType : MessageType
  Height : Topics.Height
  Round : Topics.Round
  Identifier : List Byte
  Data : List Byte
deriving DecidableEq, Repr

structure SignedMessage where
  Signature : List Byte
  Signers : List OperatorID
  Message : Topics.Message
deriving DecidableEq, Repr

structure SSVShare where
  Committee : List OperatorID
  Quorum : Nat
  DomainType : List Byte
deriving DecidableEq, Repr

structure SSVMessage where
  MsgType : Nat
  MsgID : List Byte
  Data : List Byte
deriving DecidableEq, Repr

def SSVConsensusMsgType : Nat := 0

def SSVPartialSignatureMsgType : Nat := 1

inductive ValidationResult where
  | ValidationAccept
  | ValidationReject
  | ValidationIgnore
deriving DecidableEq, Repr

/-- The functions the validator calls that live outside `network/topics`: the share
store, the decoder and checks of the qbft library, the decided classification and the
signature verifier. Each is an arbitrary function of what the call site passes. -/
structure Collaborators where
  /-- `valController.GetShare(msg.MsgID.GetPubKey())`: the share pointer and `err != nil`. -/
  GetShare : List Byte → Option SSVShare × Bool
  /-- `signedMsg.Decode(data)`: `none` when it returns an error. -/
  Decode : List Byte → Option SignedMessage
  /-- `signedMsg.Validate() == nil`. -/
  Validate : SignedMessage → Bool
  /-- `controller.IsDecidedMsg(&share.Share, signedMsg)`. -/
  IsDecidedMsg : SSVShare → SignedMessage → Bool
  /-- `controller.ValidateDecidedSyntactically(signedCommit, &share.Share) == nil`. -/
  ValidateDecidedSyntactically : SignedMessage → SSVShare → Bool
  /-- `signedMsg.Signature.VerifyByOperators(...) == nil`. -/
  VerifyByOperators : SignedMessage → SSVShare → Bool

def MessageSchedule.hasBetterMsg (schedule : MessageSchedule) (commit : SignedMessage) : Bool :=
  schedule.hasBetterMsgAt commit.Message.Identifier commit.Message.Height commit.Signers

/-- `isConsensusMsgTimely`; `none` is the panic of `msg.Signers[0]` on an empty list. -/
def MessageSchedule.isConsensusMsgTimely (schedule : MessageSchedule) (msg : SignedMessage)
    (now : Time) : Option Bool :=
  match msg.Signers with
  | [] => none
  | signer0 :: _ =>
    some (schedule.isConsensusMessageTimely msg.Message.Identifier signer0 msg.Message.Round
      msg.Message.MsgType now)

def MessageSchedule.markDecidedMsg (schedule : MessageSchedule) (signedMsg : SignedMessage)
    (now : Time) : MessageSchedule :=
  schedule.markDecidedMessage signedMsg.Message.Identifier signedMsg.Signers
    signedMsg.Message.Height now

def MessageSchedule.isTimelyDecidedMsg (schedule : MessageSchedule) (msg : SignedMessage)
    (now : Time) : Bool :=
  schedule.isTimelyDecidedMessage msg.Message.Identifier msg.Signers msg.Message.Height now

/-! ## The validator pipeline

Every function returns the verdict together with the schedule it leaves behind;
`none` is a run-time panic. -/

def validateUnDecidedMsg (c : Collaborators) (schedule : MessageSchedule)
    (signedMsg : SignedMessage) (share : SSVShare) (now : Time) :
    Option (ValidationResult × MessageSchedule) :=
  match schedule.isConsensusMsgTimely signedMsg now with
  | none => none
  | some false => some (ValidationResult.ValidationReject, schedule)
  | some true =>
    if !(c.VerifyByOperators signedMsg share) then
      some (ValidationResult.ValidationReject, schedule)
    else
      match signedMsg.Signers with
      | [] => none
      | signer0 :: _ =>
        match schedule.MarkConsensusMessage signedMsg.Message.Identifier signer0
            signedMsg.Message.Round signedMsg.Message.MsgType now with
        | none => none
        | some schedule1 => some (ValidationResult.ValidationAccept, schedule1)

def validateDecideMessage (c : Collaborators) (signedCommit : SignedMessage)
    (schedule : MessageSchedule) (share : SSVShare) (now : Time) :
    Option (ValidationResult × MessageSchedule) :=
  if schedule.hasBetterMsg signedCommit then
    some (ValidationResult.ValidationIgnore, schedule)
  else if !(schedule.isTimelyDecidedMsg signedCommit now) then
    some (ValidationResult.ValidationReject, schedule)
  else if !(c.ValidateDecidedSyntactically signedCommit share) then
    some (ValidationResult.ValidationReject, schedule)
  else if !(c.VerifyByOperators signedCommit share) then
    some (ValidationResult.ValidationReject, schedule)
  else
    some (ValidationResult.ValidationAccept, schedule.markDecidedMsg signedCommit now)

def validateConsesnsusMsg (c : Collaborators) (signedMsg : SignedMessage) (share : SSVShare)
    (schedule : MessageSchedule) (now : Time) : Option (ValidationResult × MessageSchedule) :=
  if !(c.Validate signedMsg) then
    some (ValidationResult.ValidationReject, schedule)
  else if signedMsg.Signers.length > share.Committee.length then
    some (ValidationResult.ValidationReject, schedule)
  else if c.IsDecidedMsg share signedMsg then
    validateDecideMessage c signedMsg schedule share now
  else
    validateUnDecidedMsg c schedule signedMsg share now

def ValidateSSVMsg (c : Collaborators) (msg : SSVMessage) (schedule : MessageSchedule)
    (now : Time) : Option (ValidationResult × MessageSchedule) :=
  if msg.MsgType = SSVConsensusMsgType then
    match c.GetShare msg.MsgID with
    | (_, true) => some (ValidationResult.ValidationReject, schedule)
    | (none, false) => some (ValidationResult.ValidationReject, schedule)
    | (some share, false) =>
      match c.Decode msg.Data with
      | none => some (ValidationResult.ValidationReject, schedule)
      | some signedMsg => validateConsesnsusMsg c signedMsg share schedule now
  else
    some (ValidationResult.ValidationAccept, schedule)

/-! ## A concrete set of collaborators, for evaluating the pipeline on examples -/

/-- An example decoder: the payload bytes are the message type, the height, the round and
then the signers; the identifier is `[1, 2, 3, 4]`. -/
def exampleDecode : List Byte → Option SignedMessage
  | msgType :: height :: round :: signers =>
    some
      { Signature := []
        Signers := signers.map fun b => b.val
        Message :=
          { MsgType := msgType.val, Height := (height.val : Int), Round := round.val,
            Identifier := [1, 2, 3, 4], Data := [] } }
  | _ => none

/-- Example collaborators: every validator has the committee `[1, 2, 3, 4]` with quorum 3;
`Validate` accepts a message with a non-empty, repetition-free signer list, a non-empty
identifier and a known message type (it does not look at the round); a message is decided
when it is a commit with a quorum of signers; a signature verifies when every signer is in
the committee. -/
def exampleCollaborators : Collaborators :=
  { GetShare := fun _ => (some { Committee := [1, 2, 3, 4], Quorum := 3, DomainType := [] }, false)
    Decode := exampleDecode
    Validate := fun m =>
      !m.Signers.isEmpty && decide m.Signers.Nodup && !m.Message.Identifier.isEmpty &&
        decide (m.Message.MsgType ≤ RoundChangeMsgType)
    IsDecidedMsg := fun share m =>
      decide (share.Quorum ≤ m.Signers.length) && decide (m.Message.MsgType = CommitMsgType)
    ValidateDecidedSyntactically := fun _ _ => true
    VerifyByOperators := fun m share => m.Signers.all fun signer => decide (signer ∈ share.Committee) }

/-! ## Sequences of schedule operations and reachable states -/

/-- One call of a mutator of the schedule, with the clock reading it sees. -/
inductive Op where
  | consensus (id : List Byte) (signer : OperatorID) (round : Round) (msgType : MessageType)
      (now : Time)
  | decided (id : List Byte) (signers : List OperatorID) (height : Height) (now : Time)
deriving DecidableEq, Repr

def Op.apply : Op → MessageSchedule → Option MessageSchedule
  | Op.consensus id signer round msgType now, schedule =>
    schedule.MarkConsensusMessage id signer round msgType now
  | Op.decided id signers height now, schedule =>
    some (schedule.markDecidedMessage id signers height now)

/-- Run the calls in order; a panic ends the run with `none`. -/
def runOps : List Op → MessageSchedule → Option MessageSchedule
  | [], schedule => some schedule
  | op :: rest, schedule =>
    match op.apply schedule with
    | none => none
    | some schedule1 => runOps rest schedule1

/-- A schedule state that some sequence of calls builds from `NewMessageSchedule()`. -/
def Reachable (schedule : MessageSchedule) : Prop :=
  ∃ ops : List Op, runOps ops NewMessageSchedule = some schedule

/-! ## The decided check as the specification words it -/

/-- The per-signer verdict of the specification: no mark gives true; a height below
`HighestDecided` gives false; a count at the threshold gives the beat test; otherwise true. -/
def specPerSignerVerdict (o : Option mark) (height : Height) (now : Time) : Bool :=
  match o with
  | none => true
  | some m =>
    if height < m.HighestDecided then false
    else if m.MarkedDecided ≥ DecidedCountThreshold then
      decide (now - m.Last2DecidedTimes.2 ≥ DecidedBeatDuration)
    else true

/-- The specification's `is_decided_timely`: true if any signer's verdict is true. -/
def specIsDecidedTimelyAny (schedule : MessageSchedule) (id : List Byte)
    (signers : List OperatorID) (height : Height) (now : Time) : Bool :=
  signers.any fun signer => specPerSignerVerdict (schedule.getMark (markID id) signer) height now

/-- A signer at which the loop of `isTimelyDecidedMessage` returns: it has a mark that is
either above the height or at the count threshold. -/
def loopReturnsAt (o : Option mark) (height : Height) : Bool :=
  match o with
  | none => false
  | some m => decide (height < m.HighestDecided) || decide (m.MarkedDecided ≥ DecidedCountThreshold)

/-! ## Runs of `markDecidedMessage` calls -/

/-- One call `markDecidedMessage(id, signers, height)` and the clock reading it sees. -/
structure DecidedCall where
  id : List Byte
  signers : List OperatorID
  height : Height
  now : Time
deriving DecidableEq, Repr

/-- The schedule after the calls, made in order. -/
def runDecided (calls : List DecidedCall) (schedule : MessageSchedule) : MessageSchedule :=
  calls.foldl (fun s c => s.markDecidedMessage c.id c.signers c.height c.now) schedule

/-- The signer map stored under a key of the outer map (empty when there is none). -/
def MessageSchedule.signerMap (schedule : MessageSchedule) (id : String) : SignerMap :=
  (mapGet id schedule.Marks).getD []

/-! ## The stages of the pipeline, as the claims name them -/

/-- The message is a consensus message that passed the share lookup (giving `share`), the
signed-message decode (giving `commit`), the syntactic check and the signer-count bound, and
is classified as decided. -/
def ReachesDecidedPath (c : Collaborators) (msg : SSVMessage) (share : SSVShare)
    (commit : SignedMessage) : Prop :=
  msg.MsgType = SSVConsensusMsgType ∧ c.GetShare msg.MsgID = (some share, false) ∧
    c.Decode msg.Data = some commit ∧ c.Validate commit = true ∧
    commit.Signers.length ≤ share.Committee.length ∧ c.IsDecidedMsg share commit = true

/-- A consensus message fails one of the checks that the pipeline applies to it before the
signature verification: the share lookup, the signed-message decode, the syntactic check,
the signer-count bound and, for a message classified as decided, the better-message check,
the decided timeliness check or the decided syntactic check, for any other message the
consensus timeliness check. -/
def failsCheapCheck (c : Collaborators) (msg : SSVMessage) (schedule : MessageSchedule)
    (now : Time) : Bool :=
  match c.GetShare msg.MsgID with
  | (_, true) => true
  | (none, false) => true
  | (some share, false) =>
    match c.Decode msg.Data with
    | none => true
    | some signedMsg =>
      !(c.Validate signedMsg) || decide (signedMsg.Signers.length > share.Committee.length) ||
        (if c.IsDecidedMsg share signedMsg then
          schedule.hasBetterMsg signedMsg || !(schedule.isTimelyDecidedMsg signedMsg now) ||
            !(c.ValidateDecidedSyntactically signedMsg share)
        else
          decide (schedule.isConsensusMsgTimely signedMsg now = some false))

/-! ## Clock readings, rounds and addressed marks of a run -/

/-- The clock reading that a call sees. -/
def Op.now : Op → Time
  | Op.consensus _ _ _ _ now => now
  | Op.decided _ _ _ now => now

/-- The identifier that a call is for. -/
def Op.identifier : Op → List Byte
  | Op.consensus id _ _ _ _ => id
  | Op.decided id _ _ _ => id

/-- The marks that a call addresses: the mark of `(id, signer)` for `MarkConsensusMessage`,
the marks of `id` and the listed signers for `markDecidedMessage`. -/
def Op.addresses : Op → List Byte → OperatorID → Bool
  | Op.consensus id signer _ _ _, id1, signer1 => decide (id1 = id) && decide (signer1 = signer)
  | Op.decided id signers _ _, id1, signer1 => decide (id1 = id) && decide (signer1 ∈ signers)

/-- The round of a `MarkConsensusMessage` call is at least one. -/
def Op.roundPositive : Op → Bool
  | Op.consensus _ _ round _ _ => decide (1 ≤ round)
  | Op.decided _ _ _ _ => true

/-- Every round passed to `MarkConsensusMessage` in the run is at least one. -/
def RoundsPositive (ops : List Op) : Prop :=
  ∀ op ∈ ops, op.roundPositive = true

/-- The clock readings of the calls, in order, never go back and start at or after `start`. -/
def clockNonDecreasing (start : Time) : List Op → Bool
  | [] => true
  | op :: rest => decide (start ≤ op.now) && clockNonDecreasing op.now rest

/-- The clock of the run is non-decreasing and never reads before the zero time. -/
def MonotoneClock (ops : List Op) : Prop :=
  clockNonDecreasing zeroTime ops = true

/-- One step of `roundOpener`: a `MarkConsensusMessage` call for the pair whose round is above
every round passed for the pair so far opens a new round. -/
def openerStep (key : String) (signer : OperatorID) (g : Option (Round × MessageType)) :
    Op → Option (Round × MessageType)
  | Op.consensus id s round msgType _ =>
    if markID id = key ∧ s = signer then
      if (g.map Prod.fst).getD 0 < round then some (round, msgType) else g
    else g
  | Op.decided _ _ _ _ => g

/-- The round that the pair `(key, signer)` is in after the run and the type of the message
that opened it, read off the calls alone; `none` when no call has opened a round. -/
def roundOpener (ops : List Op) (key : String) (signer : OperatorID) :
    Option (Round × MessageType) :=
  ops.foldl (openerStep key signer) none

/-! ## Invariants and auxiliary predicates of the proofs -/

/-- The mark that `MarkConsensusMessage` writes, given the mark it starts from. -/
def mark.consensusUpdate (m : mark) (round : Round) (msgType : MessageType) (now : Time) :
    Option mark :=
  if m.HighestRound < round then some (m.ResetForNewRound round msgType now)
  else
    match m.MsgTypesInRound with
    | none => none
    | some types => some { m with MsgTypesInRound := some (types.insert msgType) }

/-- In a reachable state a mark that has seen a round has its type set allocated. -/
def TypesAllocated (schedule : MessageSchedule) : Prop :=
  ∀ id signer m, schedule.getMark id signer = some m → 1 ≤ m.HighestRound →
    m.MsgTypesInRound ≠ none

/-- The mark exists and either is past round `r` or is in round `r` and has seen type `t`. -/
def RoundTypeSeen (r : Round) (t : MessageType) (o : Option mark) : Prop :=
  ∃ m, o = some m ∧
    (r < m.HighestRound ∨
      (m.HighestRound = r ∧ ∃ types, m.MsgTypesInRound = some types ∧ t ∈ types))

/-- Every mark of a reachable state has a non-negative decided count. -/
def CountsNonneg (schedule : MessageSchedule) : Prop :=
  ∀ id signer m, schedule.getMark id signer = some m → 0 ≤ m.MarkedDecided

/-- What the first of two calls at height `h` and time `T1` leaves in a mark that was not
above `h`: the height, the time of the call in slot 0, and a count of at least one. -/
def MarkedAt (h : Height) (T1 : Time) (m : mark) : Prop :=
  m.HighestDecided = h ∧ m.Last2DecidedTimes.1 = T1 ∧ 1 ≤ m.MarkedDecided

/-- Either the mark records no signatures, or some call for the key carried as many signers
as the mark records, at a height no greater than the mark's. -/
def CountFromCall (calls : List DecidedCall) (key : String) (m : mark) : Prop :=
  m.numOfSignatures ≤ 0 ∨
    ∃ c ∈ calls, markID c.id = key ∧ c.height ≤ m.HighestDecided ∧
      m.numOfSignatures = (c.signers.length : Int)

/-- Either the mark records no signatures, or some call for the key was at exactly the
height that the mark records. -/
def HeightFromCall (calls : List DecidedCall) (key : String) (m : mark) : Prop :=
  m.numOfSignatures ≤ 0 ∨ ∃ c ∈ calls, markID c.id = key ∧ c.height = m.HighestDecided

/-- The mark is at or above the height of the call, and when it is at that height it
records at least as many signatures as the call carried. -/
def HeightCovered (c : DecidedCall) (m : mark) : Prop :=
  c.height ≤ m.HighestDecided ∧
    (c.height = m.HighestDecided → (c.signers.length : Int) ≤ m.numOfSignatures)

/-- The mark exists and its highest round is at least `r`. -/
def RoundReached (r : Round) (o : Option mark) : Prop :=
  ∃ m, o = some m ∧ r ≤ m.HighestRound

/-- The mark agrees with the opener read off the calls: without an opener the mark, if any,
is in round 0; with an opener `(r, t)` the mark is in round `r ≥ 1` and its type set has `t`. -/
def OpenerRecorded (g : Option (Round × MessageType)) (o : Option mark) : Prop :=
  match g with
  | none => ∀ m, o = some m → m.HighestRound = 0
  | some (r, t) =>
    ∃ m types, o = some m ∧ m.HighestRound = r ∧ 1 ≤ r ∧ m.MsgTypesInRound = some types ∧
      t ∈ types

/-- Every mark has its two decided times in order, the later one not after `bound`. -/
def TimesOrdered (bound : Time) (schedule : MessageSchedule) : Prop :=
  ∀ id signer m, schedule.getMark id signer = some m →
    m.Last2DecidedTimes.2 ≤ m.Last2DecidedTimes.1 ∧ m.Last2DecidedTimes.1 ≤ bound

/-! # Theorems -/

/-! ## Lemmas on maps and marks -/

theorem timeSub_ge_beat (now u : Time) :
    Time.Sub now u ≥ DecidedBeatDuration ↔ now - u ≥ DecidedBeatDuration := by
  unfold Time.Sub DecidedBeatDuration minDuration maxDuration Second Nanosecond
  simp only [Time, Duration] at *
  split_ifs <;> constructor <;> intro h <;> omega

theorem mapGet_mapSet_self {κ ν : Type} [DecidableEq κ] (k : κ) (v : ν) (l : List (κ × ν)) :
    mapGet k (mapSet k v l) = some v := by
  induction l with
  | nil => simp [mapSet, mapGet]
  | cons e rest ih =>
    by_cases h : e.1 = k
    · simp [mapSet, mapGet, h]
    · simp [mapSet, mapGet, h, ih]

theorem mapGet_mapSet_ne {κ ν : Type} [DecidableEq κ] (k k1 : κ) (v : ν) (l : List (κ × ν))
    (hne : k1 ≠ k) : mapGet k1 (mapSet k v l) = mapGet k1 l := by
  induction l with
  | nil => simp [mapSet, mapGet, Ne.symm hne]
  | cons e rest ih =>
    by_cases h : e.1 = k
    · have h1 : ¬ e.1 = k1 := fun h2 => hne (h2.symm.trans h)
      simp [mapSet, mapGet, h, h1, Ne.symm hne]
    · by_cases h1 : e.1 = k1
      · simp [mapSet, mapGet, h, h1, hne]
      · simp [mapSet, mapGet, h, h1, ih]

theorem getMark_setMark (schedule : MessageSchedule) (id : String) (signer : OperatorID)
    (m : mark) (id1 : String) (signer1 : OperatorID) :
    (schedule.setMark id signer m).getMark id1 signer1 =
      if id1 = id ∧ signer1 = signer then some m else schedule.getMark id1 signer1 := by
  unfold MessageSchedule.setMark MessageSchedule.getMark
  by_cases hid : id1 = id
  · subst hid
    by_cases hs : signer1 = signer
    · subst hs
      cases hg : mapGet id1 schedule.Marks <;> simp [mapGet_mapSet_self]
    · cases hg : mapGet id1 schedule.Marks <;>
        simp [mapGet_mapSet_self, mapGet_mapSet_ne, hs, mapGet, Ne.symm hs]
  · cases hg : mapGet id schedule.Marks <;> simp [mapGet_mapSet_ne, hid]

theorem getMark_MarkConsensusMessage (schedule schedule1 : MessageSchedule) (id : List Byte)
    (signer : OperatorID) (round : Round) (msgType : MessageType) (now : Time)
    (h : schedule.MarkConsensusMessage id signer round msgType now = some schedule1) :
    ∃ m1, ((schedule.getMark (markID id) signer).getD mark.zero).consensusUpdate round msgType now
        = some m1 ∧
      ∀ id1 signer1, schedule1.getMark id1 signer1 =
        if id1 = markID id ∧ signer1 = signer then some m1 else schedule.getMark id1 signer1 := by
  unfold MessageSchedule.MarkConsensusMessage at h
  unfold mark.consensusUpdate
  simp only at h
  split at h
  · rename_i hlt
    simp only [Option.some.injEq] at h
    refine ⟨((schedule.getMark (markID id) signer).getD mark.zero).ResetForNewRound
      round msgType now, by simp [hlt], ?_⟩
    intro id1 signer1
    subst h
    rw [getMark_setMark]
    by_cases hk : id1 = markID id ∧ signer1 = signer
    · simp [hk]
    · simp only [hk, if_false]
      split
      · rfl
      · rw [getMark_setMark]; simp [hk]
  · rename_i hlt
    split at h
    · exact absurd h (by simp)
    · rename_i types htypes
      simp only [Option.some.injEq] at h
      refine ⟨{ ((schedule.getMark (markID id) signer).getD mark.zero) with
        MsgTypesInRound := some (types.insert msgType) }, by simp [hlt, htypes], ?_⟩
      intro id1 signer1
      subst h
      rw [getMark_setMark]
      by_cases hk : id1 = markID id ∧ signer1 = signer
      · simp [hk]
      · simp only [hk, if_false]
        split
        · rfl
        · rw [getMark_setMark]; simp [hk]

theorem MarkConsensusMessage_isSome (schedule : MessageSchedule) (id : List Byte)
    (signer : OperatorID) (round : Round) (msgType : MessageType) (now : Time) (m1 : mark)
    (h : ((schedule.getMark (markID id) signer).getD mark.zero).consensusUpdate round msgType now
        = some m1) :
    ∃ schedule1, schedule.MarkConsensusMessage id signer round msgType now = some schedule1 := by
  unfold MessageSchedule.MarkConsensusMessage
  unfold mark.consensusUpdate at h
  simp only
  split
  · exact ⟨_, rfl⟩
  · rename_i hlt
    simp only [hlt, if_false] at h
    split
    · rename_i hnone
      simp [hnone] at h
    · exact ⟨_, rfl⟩

theorem getMark_markDecidedStep (schedule : MessageSchedule) (id : List Byte)
    (signers : List OperatorID) (height : Height) (now : Time) (signer : OperatorID)
    (id1 : String) (signer1 : OperatorID) :
    (MessageSchedule.markDecidedStep id signers height now schedule signer).getMark id1 signer1 =
      if id1 = markID id ∧ signer1 = signer then
        some (((schedule.getMark (markID id) signer).getD mark.zero).updateDecidedMark
          height signers now)
      else schedule.getMark id1 signer1 := by
  unfold MessageSchedule.markDecidedStep
  simp only
  rw [getMark_setMark]
  by_cases hk : id1 = markID id ∧ signer1 = signer
  · simp [hk]
  · simp only [hk, if_false]
    split
    · rfl
    · rw [getMark_setMark]; simp [hk]

@[simp] theorem updateDecidedMark_HighestRound (m : mark) (height : Height)
    (signers : List OperatorID) (now : Time) :
    (m.updateDecidedMark height signers now).HighestRound = m.HighestRound := by
  unfold mark.updateDecidedMark mark.AddDecidedMark
  simp only
  split_ifs <;> rfl

@[simp] theorem updateDecidedMark_MsgTypesInRound (m : mark) (height : Height)
    (signers : List OperatorID) (now : Time) :
    (m.updateDecidedMark height signers now).MsgTypesInRound = m.MsgTypesInRound := by
  unfold mark.updateDecidedMark mark.AddDecidedMark
  simp only
  split_ifs <;> rfl

@[simp] theorem updateDecidedMark_FirstMsgInRound (m : mark) (height : Height)
    (signers : List OperatorID) (now : Time) :
    (m.updateDecidedMark height signers now).FirstMsgInRound = m.FirstMsgInRound := by
  unfold mark.updateDecidedMark mark.AddDecidedMark
  simp only
  split_ifs <;> rfl

theorem updateDecidedMark_HighestDecided_ge (m : mark) (height : Height)
    (signers : List OperatorID) (now : Time) :
    height ≤ (m.updateDecidedMark height signers now).HighestDecided ∧
      m.HighestDecided ≤ (m.updateDecidedMark height signers now).HighestDecided := by
  unfold mark.updateDecidedMark mark.AddDecidedMark
  simp only
  split_ifs <;> refine ⟨?_, ?_⟩ <;> dsimp only <;> simp only [Height] at * <;> omega

/-- A property of the mark of `(id1, signer1)` that every `updateDecidedMark` keeps is kept
by the loop of `markDecidedMessage`. -/
theorem markDecided_foldl_preserves (P : Option mark → Prop) (id : List Byte)
    (signers : List OperatorID) (height : Height) (now : Time)
    (hP : ∀ o, P o → P (some ((o.getD mark.zero).updateDecidedMark height signers now)))
    (id1 : String) (signer1 : OperatorID) :
    ∀ (l : List OperatorID) (schedule : MessageSchedule), P (schedule.getMark id1 signer1) →
      P ((l.foldl (MessageSchedule.markDecidedStep id signers height now) schedule).getMark
        id1 signer1) := by
  intro l
  induction l with
  | nil => intro schedule h; exact h
  | cons a rest ih =>
    intro schedule h
    rw [List.foldl_cons]
    apply ih
    rw [getMark_markDecidedStep]
    by_cases hk : id1 = markID id ∧ signer1 = a
    · simp only [hk, and_self, if_true]
      have := hP _ h
      rw [hk.1, hk.2] at this
      exact this
    · simp only [hk, if_false]
      exact h

theorem markDecidedMessage_preserves (P : Option mark → Prop) (id : List Byte)
    (signers : List OperatorID) (height : Height) (now : Time)
    (hP : ∀ o, P o → P (some ((o.getD mark.zero).updateDecidedMark height signers now)))
    (id1 : String) (signer1 : OperatorID) (schedule : MessageSchedule)
    (h : P (schedule.getMark id1 signer1)) :
    P ((schedule.markDecidedMessage id signers height now).getMark id1 signer1) :=
  markDecided_foldl_preserves P id signers height now hP id1 signer1 signers schedule h

/-- Marks that the loop does not address are left as they were. -/
theorem markDecided_foldl_frame (id : List Byte) (signers : List OperatorID) (height : Height)
    (now : Time) (id1 : String) (signer1 : OperatorID) :
    ∀ (l : List OperatorID) (schedule : MessageSchedule),
      (id1 ≠ markID id ∨ signer1 ∉ l) →
      (l.foldl (MessageSchedule.markDecidedStep id signers height now) schedule).getMark
        id1 signer1 = schedule.getMark id1 signer1 := by
  intro l
  induction l with
  | nil => intro schedule _; rfl
  | cons a rest ih =>
    intro schedule h
    rw [List.foldl_cons, ih, getMark_markDecidedStep]
    · have hk : ¬ (id1 = markID id ∧ signer1 = a) := by
        rintro ⟨h1, h2⟩
        rcases h with h | h
        · exact h h1
        · exact h (by simp [h2])
      simp [hk]
    · rcases h with h | h
      · exact Or.inl h
      · exact Or.inr (fun hm => h (List.mem_cons_of_mem _ hm))

/-- Every signer of the loop has a mark afterwards, and a property that each
`updateDecidedMark` establishes and keeps holds of it. -/
theorem markDecided_foldl_mem (Q : mark → Prop) (id : List Byte) (signers : List OperatorID)
    (height : Height) (now : Time)
    (hQ : ∀ m : mark, Q (m.updateDecidedMark height signers now)) (signer1 : OperatorID) :
    ∀ (l : List OperatorID) (schedule : MessageSchedule), signer1 ∈ l →
      ∃ m, (l.foldl (MessageSchedule.markDecidedStep id signers height now) schedule).getMark
        (markID id) signer1 = some m ∧ Q m := by
  intro l
  induction l with
  | nil => intro schedule h; exact absurd h (List.not_mem_nil _)
  | cons a rest ih =>
    intro schedule h
    rw [List.foldl_cons]
    by_cases hr : signer1 ∈ rest
    · exact ih _ hr
    · have ha : signer1 = a := by
        rcases List.mem_cons.mp h with h | h
        · exact h
        · exact absurd h hr
      rw [markDecided_foldl_frame id signers height now (markID id) signer1 rest _ (Or.inr hr),
        getMark_markDecidedStep]
      exact ⟨_, by rw [if_pos ⟨rfl, ha⟩], hQ _⟩

/-- With a duplicate-free signer list every signer of the loop gets exactly one
`updateDecidedMark`. -/
theorem markDecided_foldl_nodup (id : List Byte) (signers : List OperatorID) (height : Height)
    (now : Time) (signer1 : OperatorID) :
    ∀ (l : List OperatorID) (schedule : MessageSchedule), l.Nodup → signer1 ∈ l →
      (l.foldl (MessageSchedule.markDecidedStep id signers height now) schedule).getMark
        (markID id) signer1 =
      some (((schedule.getMark (markID id) signer1).getD mark.zero).updateDecidedMark
        height signers now) := by
  intro l
  induction l with
  | nil => intro schedule _ h; exact absurd h (List.not_mem_nil _)
  | cons a rest ih =>
    intro schedule hnd h
    rw [List.foldl_cons]
    have hnd1 := List.nodup_cons.mp hnd
    by_cases hr : signer1 ∈ rest
    · have hne : signer1 ≠ a := fun e => hnd1.1 (e ▸ hr)
      rw [ih _ hnd1.2 hr, getMark_markDecidedStep]
      simp [hne]
    · have ha : signer1 = a := by
        rcases List.mem_cons.mp h with h | h
        · exact h
        · exact absurd h hr
      rw [markDecided_foldl_frame id signers height now (markID id) signer1 rest _ (Or.inr hr),
        getMark_markDecidedStep]
      simp [ha]

/-- A property of schedules kept by every successful call holds along every run. -/
theorem runOps_preserves (Inv : MessageSchedule → Prop)
    (hstep : ∀ op s s1, Inv s → Op.apply op s = some s1 → Inv s1) :
    ∀ (ops : List Op) (s s1 : MessageSchedule), Inv s → runOps ops s = some s1 → Inv s1 := by
  intro ops
  induction ops with
  | nil =>
    intro s s1 h hr
    simp only [runOps, Option.some.injEq] at hr
    exact hr ▸ h
  | cons op rest ih =>
    intro s s1 h hr
    simp only [runOps] at hr
    cases hop : Op.apply op s with
    | none => simp [hop] at hr
    | some s2 =>
      simp only [hop] at hr
      exact ih s2 s1 (hstep op s s2 h hop) hr

theorem consensusUpdate_allocated (m m1 : mark) (round : Round) (msgType : MessageType)
    (now : Time) (h : m.consensusUpdate round msgType now = some m1) :
    m1.MsgTypesInRound ≠ none := by
  unfold mark.consensusUpdate at h
  split at h
  · simp only [Option.some.injEq] at h
    subst h
    simp [mark.ResetForNewRound]
  · split at h
    · exact absurd h (by simp)
    · simp only [Option.some.injEq] at h
      subst h
      simp

theorem typesAllocated_step (op : Op) (s s1 : MessageSchedule) (hs : TypesAllocated s)
    (h : Op.apply op s = some s1) : TypesAllocated s1 := by
  cases op with
  | consensus id signer round msgType now =>
    obtain ⟨m1, hm1, hget⟩ := getMark_MarkConsensusMessage s s1 id signer round msgType now h
    intro id1 signer1 m hm
    rw [hget] at hm
    by_cases hk : id1 = markID id ∧ signer1 = signer
    · simp only [hk, and_self, if_true, Option.some.injEq] at hm
      subst hm
      exact fun _ => consensusUpdate_allocated _ _ _ _ _ hm1
    · simp only [hk, if_false] at hm
      exact hs id1 signer1 m hm
  | decided id signers height now =>
    simp only [Op.apply, Option.some.injEq] at h
    subst h
    intro id1 signer1
    refine markDecidedMessage_preserves
      (fun o => ∀ m, o = some m → 1 ≤ m.HighestRound → m.MsgTypesInRound ≠ none)
      id signers height now ?_ id1 signer1 s (hs id1 signer1)
    intro o ho m hm
    simp only [Option.some.injEq] at hm
    subst hm
    cases o with
    | none => simp [mark.zero]
    | some m0 => simpa using ho m0 rfl

theorem typesAllocated_of_reachable (schedule : MessageSchedule) (h : Reachable schedule) :
    TypesAllocated schedule := by
  obtain ⟨ops, hops⟩ := h
  refine runOps_preserves TypesAllocated typesAllocated_step ops NewMessageSchedule schedule ?_ hops
  intro id signer m hm
  simp [NewMessageSchedule, MessageSchedule.getMark, mapGet] at hm

theorem consensusUpdate_seen (m m1 : mark) (r : Round) (t : MessageType) (now : Time)
    (h : m.consensusUpdate r t now = some m1) : RoundTypeSeen r t (some m1) := by
  unfold mark.consensusUpdate at h
  split at h
  · simp only [Option.some.injEq] at h
    subst h
    exact ⟨_, rfl, Or.inr ⟨rfl, [t], rfl, by simp⟩⟩
  · rename_i hlt
    split at h
    · exact absurd h (by simp)
    · rename_i types htypes
      simp only [Option.some.injEq] at h
      subst h
      refine ⟨_, rfl, ?_⟩
      by_cases he : m.HighestRound = r
      · exact Or.inr ⟨he, types.insert t, rfl, by simp⟩
      · left
        show r < m.HighestRound
        simp only [Round] at *
        omega

theorem consensusUpdate_keeps_seen (m m1 : mark) (r r1 : Round) (t t1 : MessageType) (now : Time)
    (hm : RoundTypeSeen r t (some m)) (h : m.consensusUpdate r1 t1 now = some m1) :
    RoundTypeSeen r t (some m1) := by
  obtain ⟨m0, hm0, hseen⟩ := hm
  simp only [Option.some.injEq] at hm0
  subst hm0
  unfold mark.consensusUpdate at h
  split at h
  · rename_i hlt
    simp only [Option.some.injEq] at h
    subst h
    refine ⟨_, rfl, Or.inl ?_⟩
    show r < r1
    rcases hseen with h1 | h1
    · exact lt_trans h1 hlt
    · exact h1.1 ▸ hlt
  · split at h
    · exact absurd h (by simp)
    · rename_i types htypes
      simp only [Option.some.injEq] at h
      subst h
      refine ⟨_, rfl, ?_⟩
      rcases hseen with h1 | ⟨h1, types1, h2, h3⟩
      · exact Or.inl h1
      · refine Or.inr ⟨h1, types.insert t1, rfl, ?_⟩
        rw [htypes] at h2
        simp only [Option.some.injEq] at h2
        subst h2
        simp [h3]

theorem updateDecidedMark_keeps_seen (r : Round) (t : MessageType) (height : Height)
    (signers : List OperatorID) (now : Time) (o : Option mark) (h : RoundTypeSeen r t o) :
    RoundTypeSeen r t (some ((o.getD mark.zero).updateDecidedMark height signers now)) := by
  obtain ⟨m, hm, hseen⟩ := h
  subst hm
  refine ⟨_, rfl, ?_⟩
  simpa using hseen

theorem seen_step (id : String) (signer : OperatorID) (r : Round) (t : MessageType) (op : Op)
    (s s1 : MessageSchedule) (hs : RoundTypeSeen r t (s.getMark id signer))
    (h : Op.apply op s = some s1) : RoundTypeSeen r t (s1.getMark id signer) := by
  cases op with
  | consensus id1 signer1 round1 msgType1 now1 =>
    obtain ⟨m1, hm1, hget⟩ := getMark_MarkConsensusMessage s s1 id1 signer1 round1 msgType1 now1 h
    rw [hget]
    by_cases hk : id = markID id1 ∧ signer = signer1
    · simp only [hk, and_self, if_true]
      rw [hk.1, hk.2] at hs
      obtain ⟨m, hm, hseen⟩ := hs
      rw [hm] at hm1
      exact consensusUpdate_keeps_seen m m1 r round1 t msgType1 now1 ⟨m, rfl, hseen⟩ hm1
    · simp only [hk, if_false]
      exact hs
  | decided id1 signers1 height1 now1 =>
    simp only [Op.apply, Option.some.injEq] at h
    subst h
    exact markDecidedMessage_preserves (RoundTypeSeen r t) id1 signers1 height1 now1
      (updateDecidedMark_keeps_seen r t height1 signers1 now1) id signer s hs

theorem not_timely_of_seen (schedule : MessageSchedule) (id : List Byte) (signer : OperatorID)
    (r : Round) (t : MessageType) (now : Time)
    (h : RoundTypeSeen r t (schedule.getMark (markID id) signer)) :
    schedule.isConsensusMessageTimely id signer r t now = false := by
  obtain ⟨m, hm, hseen⟩ := h
  unfold MessageSchedule.isConsensusMessageTimely
  simp only [hm]
  rcases hseen with h1 | ⟨h1, types, h2, h3⟩
  · have h4 : ¬ m.HighestRound < r := not_lt.mpr (le_of_lt h1)
    have h5 : ¬ m.HighestRound = r := fun e => absurd h1 (by rw [e]; exact lt_irrefl _)
    simp [h4, h5]
  · have h4 : ¬ m.HighestRound < r := by rw [h1]; exact lt_irrefl _
    simp [h4, h1, h2, h3]

/-- After a round of at least one, a reachable state lets `MarkConsensusMessage` finish. -/
theorem consensusUpdate_isSome_of_allocated (schedule : MessageSchedule)
    (hs : TypesAllocated schedule) (id : String) (signer : OperatorID) (r : Round)
    (t : MessageType) (now : Time) (hr : 1 ≤ r) :
    ∃ m1, ((schedule.getMark id signer).getD mark.zero).consensusUpdate r t now = some m1 := by
  unfold mark.consensusUpdate
  split
  · exact ⟨_, rfl⟩
  · rename_i hlt
    cases hg : schedule.getMark id signer with
    | none =>
      rw [hg] at hlt
      simp only [Option.getD_none, mark.zero] at hlt
      simp only [Round] at *
      omega
    | some m =>
      rw [hg] at hlt
      simp only [Option.getD_some] at hlt ⊢
      have h1 : 1 ≤ m.HighestRound := by
        simp only [Round] at *
        omega
      have h2 := hs id signer m hg h1
      cases hty : m.MsgTypesInRound with
      | none => exact absurd hty h2
      | some types => exact ⟨_, rfl⟩

/-! ## Consensus marks and the first decided message: claims C1 to C4 -/

/-- C1: in every reachable schedule state, for a round `r ≥ 1`, the call
`MarkConsensusMessage(id, s, r, t)` completes, and afterwards
`isConsensusMessageTimely(id, s, r, t)` is false at every clock reading, also after any
further sequence of schedule operations. -/
theorem C1_marked_type_never_timely_again (schedule : MessageSchedule)
    (hreach : Reachable schedule) (id : List Byte) (s : OperatorID) (r : Round)
    (t : MessageType) (T : Time) (hr : 1 ≤ r) :
    ∃ schedule1, schedule.MarkConsensusMessage id s r t T = some schedule1 ∧
      ∀ (later : List Op) (schedule2 : MessageSchedule),
        runOps later schedule1 = some schedule2 →
        ∀ now : Time, schedule2.isConsensusMessageTimely id s r t now = false := by
  obtain ⟨m1, hm1⟩ := consensusUpdate_isSome_of_allocated schedule
    (typesAllocated_of_reachable schedule hreach) (markID id) s r t T hr
  obtain ⟨schedule1, h1⟩ := MarkConsensusMessage_isSome schedule id s r t T m1 hm1
  refine ⟨schedule1, h1, ?_⟩
  obtain ⟨m2, hm2, hget⟩ := getMark_MarkConsensusMessage schedule schedule1 id s r t T h1
  have hseen1 : RoundTypeSeen r t (schedule1.getMark (markID id) s) := by
    rw [hget]
    simp only [and_self, if_true]
    exact consensusUpdate_seen _ _ r t T hm2
  intro later schedule2 hrun now
  exact not_timely_of_seen schedule2 id s r t now
    (runOps_preserves (fun σ => RoundTypeSeen r t (σ.getMark (markID id) s))
      (fun op σ σ1 => seen_step (markID id) s r t op σ σ1) later schedule1 schedule2 hseen1 hrun)

/-- Witness of C1: the state after `markDecidedMessage([1 2 3 4], [0, 1, 2], 1)`, where the
mark of signer 0 was created with a nil type set, and a Prepare of the first round. -/
theorem C1_marked_type_never_timely_again_witness :
    Reachable (NewMessageSchedule.markDecidedMessage [1, 2, 3, 4] [0, 1, 2] 1 63900000000000000000) ∧
    1 ≤ FirstRound ∧
    ∃ schedule1,
      (NewMessageSchedule.markDecidedMessage [1, 2, 3, 4] [0, 1, 2] 1
        63900000000000000000).MarkConsensusMessage [1, 2, 3, 4] 0 FirstRound PrepareMsgType
        63900000001000000000 = some schedule1 ∧
      ∀ (later : List Op) (schedule2 : MessageSchedule),
        runOps later schedule1 = some schedule2 →
        ∀ now : Time,
          schedule2.isConsensusMessageTimely [1, 2, 3, 4] 0 FirstRound PrepareMsgType now = false :=
  ⟨⟨[Op.decided [1, 2, 3, 4] [0, 1, 2] 1 63900000000000000000], rfl⟩, by decide,
    C1_marked_type_never_timely_again _
      ⟨[Op.decided [1, 2, 3, 4] [0, 1, 2] 1 63900000000000000000], rfl⟩
      [1, 2, 3, 4] 0 FirstRound PrepareMsgType 63900000001000000000 (by decide)⟩

/-- C2: for a pair `(id, s)` without a mark and a round `r ≥ 1`, after
`MarkConsensusMessage(id, s, r, t)` at time `T` the check
`isConsensusMessageTimely(id, s, r+1, t1)` at time `now` is true if and only if `now` is
strictly later than `T + RoundTimeout(r)`. At exactly `now = T + RoundTimeout(r)` the check
is false, where the claim and the comment above the test in the code (`check at least round
timeout has passed`) say true; at every other instant the code and the claim agree. -/
theorem C2_round_advance_needs_strictly_more_than_timeout (schedule : MessageSchedule)
    (id : List Byte) (s : OperatorID) (r : Round) (t t1 : MessageType) (T now : Time)
    (hfresh : schedule.getMark (markID id) s = none) (hr : 1 ≤ r) :
    ∃ schedule1, schedule.MarkConsensusMessage id s r t T = some schedule1 ∧
      (schedule1.isConsensusMessageTimely id s (r + 1) t1 now = true ↔ T + RoundTimeout r < now) ∧
      schedule1.isConsensusMessageTimely id s (r + 1) t1 (T + RoundTimeout r) = false := by
  have hlt : (mark.zero).HighestRound < r := by
    simp only [mark.zero, Round] at *
    omega
  have hupd : ((schedule.getMark (markID id) s).getD mark.zero).consensusUpdate r t T =
      some (mark.zero.ResetForNewRound r t T) := by
    rw [hfresh]
    simp [mark.consensusUpdate, hlt]
  obtain ⟨schedule1, h1⟩ := MarkConsensusMessage_isSome schedule id s r t T _ hupd
  obtain ⟨m2, hm2, hget⟩ := getMark_MarkConsensusMessage schedule schedule1 id s r t T h1
  rw [hupd] at hm2
  simp only [Option.some.injEq] at hm2
  subst hm2
  have hg : schedule1.getMark (markID id) s = some (mark.zero.ResetForNewRound r t T) := by
    rw [hget]; simp
  refine ⟨schedule1, h1, ?_, ?_⟩
  · unfold MessageSchedule.isConsensusMessageTimely
    simp only [hg]
    simp [mark.ResetForNewRound, Time.After, Time.Add, RoundTimeout]
  · unfold MessageSchedule.isConsensusMessageTimely
    simp only [hg]
    simp [mark.ResetForNewRound, Time.After, Time.Add, RoundTimeout]

/-- Witness of C2: a fresh schedule, a Prepare of round 1 marked at `T`, and a Prepare of
round 2 checked three seconds later and at exactly `T + RoundTimeout(1)`. -/
theorem C2_round_advance_needs_strictly_more_than_timeout_witness :
    NewMessageSchedule.getMark (markID [1, 2, 3, 4]) 0 = none ∧ 1 ≤ FirstRound ∧
    ∃ schedule1,
      NewMessageSchedule.MarkConsensusMessage [1, 2, 3, 4] 0 FirstRound PrepareMsgType
        63900000000000000000 = some schedule1 ∧
      (schedule1.isConsensusMessageTimely [1, 2, 3, 4] 0 (FirstRound + 1) PrepareMsgType
          63900000003000000000 = true ↔
        63900000000000000000 + RoundTimeout FirstRound < 63900000003000000000) ∧
      schedule1.isConsensusMessageTimely [1, 2, 3, 4] 0 (FirstRound + 1) PrepareMsgType
        (63900000000000000000 + RoundTimeout FirstRound) = false :=
  ⟨by decide, by decide,
    C2_round_advance_needs_strictly_more_than_timeout NewMessageSchedule [1, 2, 3, 4] 0
      FirstRound PrepareMsgType PrepareMsgType 63900000000000000000
      63900000003000000000 (by decide) (by decide)⟩

/-- The failing input of C2, evaluated: on a fresh schedule a Prepare of round 1 is marked at
`T`; at exactly `now = T + RoundTimeout(1)`, where the round timeout has passed in full, the
check for a Prepare of round 2 is false. -/
theorem isConsensusMessageTimely_false_at_exact_timeout :
    ∃ schedule1 : MessageSchedule,
      NewMessageSchedule.MarkConsensusMessage [1, 2, 3, 4] 0 FirstRound PrepareMsgType
        63900000000000000000 = some schedule1 ∧
      (63900000002000000000 : Time) ≥ 63900000000000000000 + RoundTimeout FirstRound ∧
      schedule1.isConsensusMessageTimely [1, 2, 3, 4] 0 (FirstRound + 1) PrepareMsgType
        63900000002000000000 = false :=
  ⟨_, rfl, by decide, by decide⟩

/-- C3: in every reachable schedule state, after
`MarkConsensusMessage(id, s, FirstRound, Prepare)` and a later
`markDecidedMessage(id, signers, h)`, whatever the signer list and the height, the check
`isConsensusMessageTimely(id, s, FirstRound, Prepare)` is false at every clock reading: a
decided message with a larger height does not reset the round bookkeeping, where the claim
says the check is true again. -/
theorem C3_decided_height_advance_keeps_round_bookkeeping (schedule : MessageSchedule)
    (hreach : Reachable schedule) (id : List Byte) (s : OperatorID) (T1 : Time) :
    ∃ schedule1, schedule.MarkConsensusMessage id s FirstRound PrepareMsgType T1 = some schedule1 ∧
      ∀ (signers : List OperatorID) (h : Height) (T2 now : Time),
        (schedule1.markDecidedMessage id signers h T2).isConsensusMessageTimely id s FirstRound
          PrepareMsgType now = false := by
  obtain ⟨m1, hm1⟩ := consensusUpdate_isSome_of_allocated schedule
    (typesAllocated_of_reachable schedule hreach) (markID id) s FirstRound PrepareMsgType T1
    (le_refl _)
  obtain ⟨schedule1, h1⟩ :=
    MarkConsensusMessage_isSome schedule id s FirstRound PrepareMsgType T1 m1 hm1
  refine ⟨schedule1, h1, ?_⟩
  obtain ⟨m2, hm2, hget⟩ :=
    getMark_MarkConsensusMessage schedule schedule1 id s FirstRound PrepareMsgType T1 h1
  have hseen1 : RoundTypeSeen FirstRound PrepareMsgType (schedule1.getMark (markID id) s) := by
    rw [hget]
    simp only [and_self, if_true]
    exact consensusUpdate_seen _ _ FirstRound PrepareMsgType T1 hm2
  intro signers h T2 now
  exact not_timely_of_seen _ id s FirstRound PrepareMsgType now
    (markDecidedMessage_preserves (RoundTypeSeen FirstRound PrepareMsgType) id signers h T2
      (updateDecidedMark_keeps_seen FirstRound PrepareMsgType h signers T2) (markID id) s
      schedule1 hseen1)

/-- Evaluation of C3 on the run of `TestMessageSchedule_MarkConsensusMessage`: the empty
schedule, a Prepare of the first round from signer 0, then
`markDecidedMessage(id, [0, 1, 2], 1)`, whose height exceeds signer 0's highest decided
height 0; the check for the same Prepare is false, where the test expects true. -/
theorem C3_decided_height_advance_keeps_round_bookkeeping_witness :
    Reachable NewMessageSchedule ∧
    ∃ schedule1 : MessageSchedule,
      NewMessageSchedule.MarkConsensusMessage [1, 2, 3, 4] 0 FirstRound PrepareMsgType
        63900000000000000000 = some schedule1 ∧
      (schedule1.markDecidedMessage [1, 2, 3, 4] [0, 1, 2] 1
          63900000002000000001).isConsensusMessageTimely [1, 2, 3, 4] 0 FirstRound
        PrepareMsgType 63900000002000000002 = false :=
  ⟨⟨[], rfl⟩,
    (C3_decided_height_advance_keeps_round_bookkeeping NewMessageSchedule ⟨[], rfl⟩
      [1, 2, 3, 4] 0 63900000000000000000).elim
      fun schedule1 hs =>
        ⟨schedule1, hs.1, hs.2 [0, 1, 2] 1 63900000002000000001 63900000002000000002⟩⟩

/-- C4: on a schedule with no marks for the identifier, after one
`markDecidedMessage(id, signers, h)` with a non-empty signer list free of repetitions and
`h ≥ 1`, the check `isTimelyDecidedMessage(id, signers, h)` is true at every clock reading
that is at least `DecidedBeatDuration` after the zero time, however soon after the call:
the mark of the first signer has `MarkedDecided = 2` and `Last2DecidedTimes[1]` still the
zero time. The claim says the check is false shortly after the call. -/
theorem C4_immediate_repeat_of_first_decided_is_timely (schedule : MessageSchedule)
    (id : List Byte) (signers : List OperatorID) (h : Height) (T now : Time)
    (hnone : mapGet (markID id) schedule.Marks = none) (hne : signers ≠ [])
    (hnd : signers.Nodup) (hh : 1 ≤ h) (hnow : DecidedBeatDuration ≤ now - zeroTime) :
    (schedule.markDecidedMessage id signers h T).isTimelyDecidedMessage id signers h now
      = true := by
  cases signers with
  | nil => exact absurd rfl hne
  | cons s rest =>
    have hg0 : schedule.getMark (markID id) s = none := by
      simp [MessageSchedule.getMark, hnone]
    have hm := markDecided_foldl_nodup id (s :: rest) h T s (s :: rest) schedule hnd
      (List.mem_cons_self _ _)
    rw [hg0] at hm
    simp only [Option.getD_none] at hm
    have hlt : (mark.zero).HighestDecided < h := by
      simp only [mark.zero, Height] at *
      omega
    have hupd : (mark.zero).updateDecidedMark h (s :: rest) T =
        { (mark.zero) with
          HighestDecided := h, MarkedDecided := 2, Last2DecidedTimes := (T, zeroTime),
          numOfSignatures := ((s :: rest).length : Int) } := by
      have hn : ¬ (mark.zero).HighestDecided > h := not_lt.mpr (le_of_lt hlt)
      have hlen : (0 : Int) < ((s :: rest).length : Int) := by
        simp only [List.length_cons]
        omega
      unfold mark.updateDecidedMark mark.AddDecidedMark
      simp only [hn, hlt, if_true, if_false]
      simp [mark.zero] at hlen ⊢
    rw [hupd] at hm
    unfold MessageSchedule.isTimelyDecidedMessage MessageSchedule.isTimelyDecidedLoop
    unfold MessageSchedule.markDecidedMessage
    rw [hm]
    have hb := (timeSub_ge_beat now zeroTime).mpr hnow
    simp [DecidedCountThreshold, mark.DurationFromLast2Decided, hb]

/-- Evaluation of C4 on the run of `TestMessageSchedule_MarkDecidedMessage` up to its second
assertion: the empty schedule, `markDecidedMessage(id, [0, 1, 2], 1)` at time `T` and the
check at the same instant, which is true where the test expects false. -/
theorem C4_immediate_repeat_of_first_decided_is_timely_witness :
    mapGet (markID [1, 2, 3, 4]) NewMessageSchedule.Marks = none ∧
    ([0, 1, 2] : List OperatorID) ≠ [] ∧ ([0, 1, 2] : List OperatorID).Nodup ∧
    (1 : Height) ≤ 1 ∧ DecidedBeatDuration ≤ (63900000000000000000 : Time) - zeroTime ∧
    (63900000000000000000 : Time) - 63900000000000000000 < DecidedBeatDuration ∧
    ((NewMessageSchedule.markDecidedMessage [1, 2, 3, 4] [0, 1, 2] 1
        63900000000000000000).getMark (markID [1, 2, 3, 4]) 0).map
      (fun m => (m.MarkedDecided, m.Last2DecidedTimes)) =
      some (2, (63900000000000000000, zeroTime)) ∧
    (NewMessageSchedule.markDecidedMessage [1, 2, 3, 4] [0, 1, 2] 1
        63900000000000000000).isTimelyDecidedMessage [1, 2, 3, 4] [0, 1, 2] 1
      63900000000000000000 = true :=
  ⟨by decide, by decide, by decide, by decide, by decide, by decide, by decide,
    C4_immediate_repeat_of_first_decided_is_timely NewMessageSchedule [1, 2, 3, 4] [0, 1, 2] 1
      63900000000000000000 63900000000000000000 (by decide) (by decide) (by decide)
      (by decide) (by decide)⟩

/-! ## The decided check: claims C5, C7 and C8 -/

theorem isTimelyDecidedLoop_eq (schedule : MessageSchedule) (id : String) (height : Height)
    (now : Time) :
    ∀ (l : List OperatorID) (ret : Bool),
      schedule.isTimelyDecidedLoop id height now l ret =
        match l.find? (fun signer => loopReturnsAt (schedule.getMark id signer) height) with
        | some signer => specPerSignerVerdict (schedule.getMark id signer) height now
        | none => ret || !l.isEmpty := by
  intro l
  induction l with
  | nil => intro ret; simp [MessageSchedule.isTimelyDecidedLoop]
  | cons a rest ih =>
    intro ret
    unfold MessageSchedule.isTimelyDecidedLoop
    cases hg : schedule.getMark id a with
    | none =>
      have hhead : loopReturnsAt (schedule.getMark id a) height = false := by
        rw [hg]; rfl
      simp only [List.find?_cons, hhead]
      rw [ih true]
      cases hf : List.find? (fun signer => loopReturnsAt (schedule.getMark id signer) height) rest
        <;> simp
    | some m =>
      by_cases h1 : m.HighestDecided > height
      · have h1a : height < m.HighestDecided := h1
        have hhead : loopReturnsAt (schedule.getMark id a) height = true := by
          rw [hg]; simp [loopReturnsAt, h1a]
        simp only [List.find?_cons, hhead]
        simp [h1, h1a, specPerSignerVerdict, hg]
      · have h1a : ¬ height < m.HighestDecided := h1
        by_cases h2 : m.MarkedDecided ≥ DecidedCountThreshold
        · have h3 := timeSub_ge_beat now m.Last2DecidedTimes.2
          have hhead : loopReturnsAt (schedule.getMark id a) height = true := by
            rw [hg]; simp only [loopReturnsAt, h2, decide_True, Bool.or_true]
          simp only [List.find?_cons, hhead]
          simp only [h1, h1a, h2, if_false, if_true, specPerSignerVerdict, hg,
            mark.DurationFromLast2Decided]
          exact decide_eq_decide.mpr h3
        · have hhead : loopReturnsAt (schedule.getMark id a) height = false := by
            rw [hg]; simp only [loopReturnsAt, h1a, h2, decide_False, Bool.or_false]
          simp only [List.find?_cons, hhead]
          simp only [h1, h2, if_false]
          rw [ih true]
          cases hf : List.find? (fun signer => loopReturnsAt (schedule.getMark id signer) height)
            rest <;> simp

/-- When the decided check is true, some signer of the list has a true verdict. -/
theorem isTimelyDecidedLoop_any (schedule : MessageSchedule) (id : String) (height : Height)
    (now : Time) :
    ∀ (l : List OperatorID),
      schedule.isTimelyDecidedLoop id height now l false = true →
      (l.any fun signer => specPerSignerVerdict (schedule.getMark id signer) height now) = true := by
  intro l h
  rw [isTimelyDecidedLoop_eq] at h
  cases hf : List.find? (fun signer => loopReturnsAt (schedule.getMark id signer) height) l with
  | some signer =>
    rw [hf] at h
    simp only at h
    exact List.any_eq_true.mpr ⟨signer, List.mem_of_find?_eq_some hf, h⟩
  | none =>
    rw [hf] at h
    simp only [Bool.false_or, Bool.not_eq_true', List.isEmpty_eq_false] at h
    cases l with
    | nil => simp at h
    | cons a rest =>
      refine List.any_eq_true.mpr ⟨a, List.mem_cons_self _ _, ?_⟩
      have hnot := List.find?_eq_none.mp hf a (List.mem_cons_self _ _)
      cases hg : schedule.getMark id a with
      | none => rfl
      | some m =>
        rw [hg] at hnot
        simp only [loopReturnsAt, Bool.or_eq_true, decide_eq_true_eq, not_or] at hnot
        simp [specPerSignerVerdict, hnot.1, hnot.2]

/-- C5, as amended: `isTimelyDecidedMessage` returns the per-signer verdict of the first
signer of the list at which its loop returns (a signer with a mark whose `HighestDecided` is
above the height or whose `MarkedDecided` is at the threshold); when the list has no such
signer it returns true iff the list is non-empty. So a true result implies that some
signer of the list has a true per-signer verdict; the converse does not hold. -/
theorem C5_decided_check_is_first_returning_signer (schedule : MessageSchedule)
    (id : List Byte) (signers : List OperatorID) (height : Height) (now : Time) :
    (schedule.isTimelyDecidedMessage id signers height now =
      match signers.find?
          (fun signer => loopReturnsAt (schedule.getMark (markID id) signer) height) with
      | some signer => specPerSignerVerdict (schedule.getMark (markID id) signer) height now
      | none => !signers.isEmpty) ∧
    (schedule.isTimelyDecidedMessage id signers height now = true →
      specIsDecidedTimelyAny schedule id signers height now = true) := by
  constructor
  · unfold MessageSchedule.isTimelyDecidedMessage
    rw [isTimelyDecidedLoop_eq]
    simp
  · exact isTimelyDecidedLoop_any schedule (markID id) height now signers

/-- Counterexample to C5 as stated: signer 1 has a mark with `HighestDecided = 5` and signer
0 has none. For height 1 and the list `[0, 1]` the verdict of signer 0 is true, so the ANY
fold is true, while `isTimelyDecidedMessage` returns false at signer 1. -/
theorem C5_counterexample_any_fold :
    (NewMessageSchedule.markDecidedMessage [1, 2, 3, 4] [1] 5
        63900000000000000000).isTimelyDecidedMessage [1, 2, 3, 4] [0, 1] 1
      63900000001000000000 = false ∧
    specPerSignerVerdict
      ((NewMessageSchedule.markDecidedMessage [1, 2, 3, 4] [1] 5
        63900000000000000000).getMark (markID [1, 2, 3, 4]) 0) 1 63900000001000000000 = true ∧
    specIsDecidedTimelyAny
      (NewMessageSchedule.markDecidedMessage [1, 2, 3, 4] [1] 5 63900000000000000000)
      [1, 2, 3, 4] [0, 1] 1 63900000001000000000 = true := by
  decide

/-- A signer addressed by the loop of `markDecidedMessage` has a mark afterwards; a property
that the first `updateDecidedMark` establishes from the starting mark and later ones keep
holds of it. -/
theorem markDecided_foldl_mem_from (P : Option mark → Prop) (Q : mark → Prop) (id : List Byte)
    (signers : List OperatorID) (height : Height) (now : Time)
    (hPQ : ∀ o, P o → Q ((o.getD mark.zero).updateDecidedMark height signers now))
    (hQQ : ∀ m, Q m → Q (m.updateDecidedMark height signers now)) (signer1 : OperatorID) :
    ∀ (l : List OperatorID) (schedule : MessageSchedule),
      P (schedule.getMark (markID id) signer1) → signer1 ∈ l →
      ∃ m, (l.foldl (MessageSchedule.markDecidedStep id signers height now) schedule).getMark
        (markID id) signer1 = some m ∧ Q m := by
  intro l
  induction l with
  | nil => intro schedule _ h; exact absurd h (List.not_mem_nil _)
  | cons a rest ih =>
    intro schedule hP h
    rw [List.foldl_cons]
    by_cases ha : signer1 = a
    · refine markDecided_foldl_preserves (fun o => ∃ m, o = some m ∧ Q m) id signers height now
        ?_ (markID id) signer1 rest _ ?_
      · rintro o ⟨m, hm, hq⟩
        subst hm
        exact ⟨_, rfl, hQQ m hq⟩
      · rw [getMark_markDecidedStep, if_pos ⟨rfl, ha⟩]
        exact ⟨_, rfl, ha ▸ hPQ _ hP⟩
    · have hr : signer1 ∈ rest := by
        rcases List.mem_cons.mp h with h | h
        · exact absurd h ha
        · exact h
      refine ih _ ?_ hr
      rw [getMark_markDecidedStep]
      simpa [ha] using hP

/-- C7: for every schedule state (reachable or not), identifier, signer list `S`, heights
`h1 < h` and clock readings: after `markDecidedMessage(id, S, h)` the check
`isTimelyDecidedMessage(id, S, h1)` returns false. -/
theorem C7_decided_below_marked_height_not_timely (schedule : MessageSchedule) (id : List Byte)
    (S : List OperatorID) (h h1 : Height) (T now : Time) (hlt : h1 < h) :
    (schedule.markDecidedMessage id S h T).isTimelyDecidedMessage id S h1 now = false := by
  unfold MessageSchedule.isTimelyDecidedMessage
  cases S with
  | nil => rfl
  | cons a rest =>
    obtain ⟨m, hm, hq⟩ := markDecided_foldl_mem (fun m => h ≤ m.HighestDecided) id (a :: rest) h T
      (fun m => (updateDecidedMark_HighestDecided_ge m h (a :: rest) T).1) a (a :: rest) schedule
      (List.mem_cons_self _ _)
    unfold MessageSchedule.isTimelyDecidedLoop
    unfold MessageSchedule.markDecidedMessage
    rw [hm]
    have hgt : m.HighestDecided > h1 := lt_of_lt_of_le hlt hq
    simp [hgt]

/-- Witness of C7: the empty schedule, signers `[0, 1, 2]`, marked height 2, checked height 1. -/
theorem C7_decided_below_marked_height_not_timely_witness :
    (1 : Height) < 2 ∧
    (NewMessageSchedule.markDecidedMessage [1, 2, 3, 4] [0, 1, 2] 2
        63900000000000000000).isTimelyDecidedMessage [1, 2, 3, 4] [0, 1, 2] 1
      63900000005000000000 = false :=
  ⟨by decide, C7_decided_below_marked_height_not_timely NewMessageSchedule [1, 2, 3, 4]
    [0, 1, 2] 2 1 63900000000000000000 63900000005000000000 (by decide)⟩

theorem consensusUpdate_MarkedDecided (m m1 : mark) (round : Round) (msgType : MessageType)
    (now : Time) (h : m.consensusUpdate round msgType now = some m1) :
    m1.MarkedDecided = m.MarkedDecided := by
  unfold mark.consensusUpdate at h
  split at h
  · simp only [Option.some.injEq] at h
    subst h
    rfl
  · split at h
    · exact absurd h (by simp)
    · simp only [Option.some.injEq] at h
      subst h
      rfl

theorem updateDecidedMark_MarkedDecided_nonneg (m : mark) (height : Height)
    (signers : List OperatorID) (now : Time) (h : 0 ≤ m.MarkedDecided) :
    0 ≤ (m.updateDecidedMark height signers now).MarkedDecided := by
  unfold mark.updateDecidedMark mark.AddDecidedMark
  simp only
  split_ifs <;> (try dsimp only) <;> omega

theorem countsNonneg_step (op : Op) (s s1 : MessageSchedule) (hs : CountsNonneg s)
    (h : Op.apply op s = some s1) : CountsNonneg s1 := by
  cases op with
  | consensus id signer round msgType now =>
    obtain ⟨m1, hm1, hget⟩ := getMark_MarkConsensusMessage s s1 id signer round msgType now h
    intro id1 signer1 m hm
    rw [hget] at hm
    by_cases hk : id1 = markID id ∧ signer1 = signer
    · simp only [hk, and_self, if_true, Option.some.injEq] at hm
      subst hm
      rw [consensusUpdate_MarkedDecided _ _ _ _ _ hm1]
      cases hg : s.getMark (markID id) signer with
      | none => simp [mark.zero]
      | some m0 => exact hs _ _ m0 hg
    · simp only [hk, if_false] at hm
      exact hs id1 signer1 m hm
  | decided id signers height now =>
    simp only [Op.apply, Option.some.injEq] at h
    subst h
    intro id1 signer1
    refine markDecidedMessage_preserves (fun o => ∀ m, o = some m → 0 ≤ m.MarkedDecided)
      id signers height now ?_ id1 signer1 s (hs id1 signer1)
    intro o ho m hm
    simp only [Option.some.injEq] at hm
    subst hm
    apply updateDecidedMark_MarkedDecided_nonneg
    cases o with
    | none => simp [mark.zero]
    | some m0 => exact ho m0 rfl

theorem countsNonneg_of_reachable (schedule : MessageSchedule) (h : Reachable schedule) :
    CountsNonneg schedule := by
  obtain ⟨ops, hops⟩ := h
  refine runOps_preserves CountsNonneg countsNonneg_step ops NewMessageSchedule schedule ?_ hops
  intro id signer m hm
  simp [NewMessageSchedule, MessageSchedule.getMark, mapGet] at hm

theorem updateDecidedMark_markedAt_first (m : mark) (h : Height) (signers : List OperatorID)
    (T1 : Time) (hle : m.HighestDecided ≤ h) (hc : 0 ≤ m.MarkedDecided) :
    MarkedAt h T1 (m.updateDecidedMark h signers T1) := by
  unfold MarkedAt mark.updateDecidedMark mark.AddDecidedMark
  simp only [Height] at *
  split_ifs <;> (try dsimp only) <;> refine ⟨?_, ?_, ?_⟩ <;> first | rfl | omega

theorem updateDecidedMark_markedAt_again (m : mark) (h : Height) (signers : List OperatorID)
    (T1 : Time) (hm : MarkedAt h T1 m) : MarkedAt h T1 (m.updateDecidedMark h signers T1) := by
  obtain ⟨h1, _, h3⟩ := hm
  unfold MarkedAt mark.updateDecidedMark mark.AddDecidedMark
  simp only [Height] at *
  split_ifs <;> (try dsimp only) <;> refine ⟨?_, ?_, ?_⟩ <;> first | rfl | omega

theorem updateDecidedMark_second (m : mark) (h : Height) (signers : List OperatorID)
    (T1 T2 : Time) (hm : MarkedAt h T1 m) :
    (m.updateDecidedMark h signers T2).HighestDecided = h ∧
      (m.updateDecidedMark h signers T2).Last2DecidedTimes.2 = T1 ∧
      2 ≤ (m.updateDecidedMark h signers T2).MarkedDecided := by
  obtain ⟨h1, h2, h3⟩ := hm
  unfold mark.updateDecidedMark mark.AddDecidedMark
  simp only [Height] at *
  split_ifs <;> (try dsimp only) <;> refine ⟨?_, ?_, ?_⟩ <;> first | assumption | omega

/-- C8: in a reachable state where no signer of `S` has a highest decided height above `h`
(a signer without a mark counting as height 0), after two consecutive `markDecidedMessage`
calls for `id` at height `h`, at times `T1 ≤ T2`, the check
`isTimelyDecidedMessage(id, S, h)` for a non-empty list `S` of signers common to both calls
is true iff `now - T1 ≥ DecidedBeatDuration`. The signers of the second call are a set: its
list names no signer twice. -/
theorem C8_decided_throttle_after_two_marks (schedule : MessageSchedule)
    (hreach : Reachable schedule) (id : List Byte) (S1 S2 S : List OperatorID) (h : Height)
    (T1 T2 now : Time) (_hT : T1 ≤ T2) (hS : S ≠ [])
    (hcommon : ∀ s ∈ S, s ∈ S1 ∧ s ∈ S2) (hnodup : S2.Nodup)
    (hbelow : ∀ s ∈ S,
      ((schedule.getMark (markID id) s).getD mark.zero).HighestDecided ≤ h) :
    (((schedule.markDecidedMessage id S1 h T1).markDecidedMessage id S2 h T2).isTimelyDecidedMessage
        id S h now = true ↔ now - T1 ≥ DecidedBeatDuration) := by
  cases S with
  | nil => exact absurd rfl hS
  | cons s rest =>
    have hs := hcommon s (List.mem_cons_self _ _)
    have hcount : 0 ≤ ((schedule.getMark (markID id) s).getD mark.zero).MarkedDecided := by
      cases hg : schedule.getMark (markID id) s with
      | none => simp [mark.zero]
      | some m0 => exact countsNonneg_of_reachable schedule hreach _ _ m0 hg
    obtain ⟨m1, hm1, hq⟩ := markDecided_foldl_mem_from
      (fun o => (o.getD mark.zero).HighestDecided ≤ h ∧ 0 ≤ (o.getD mark.zero).MarkedDecided)
      (MarkedAt h T1) id S1 h T1
      (fun o ho => updateDecidedMark_markedAt_first _ h S1 T1 ho.1 ho.2)
      (fun m hm => updateDecidedMark_markedAt_again m h S1 T1 hm) s S1 schedule
      ⟨hbelow s (List.mem_cons_self _ _), hcount⟩ hs.1
    have hm2 := markDecided_foldl_nodup id S2 h T2 s S2
      (schedule.markDecidedMessage id S1 h T1) hnodup hs.2
    unfold MessageSchedule.markDecidedMessage at hm2 ⊢
    rw [hm1] at hm2
    simp only [Option.getD_some] at hm2
    obtain ⟨k1, k2, k3⟩ := updateDecidedMark_second m1 h S2 T1 T2 hq
    unfold MessageSchedule.isTimelyDecidedMessage MessageSchedule.isTimelyDecidedLoop
    rw [hm2]
    have hgt : ¬ (m1.updateDecidedMark h S2 T2).HighestDecided > h := by
      rw [k1]; exact lt_irrefl _
    have hthr : (m1.updateDecidedMark h S2 T2).MarkedDecided ≥ DecidedCountThreshold := k3
    simp only [hgt, hthr, if_false, if_true, mark.DurationFromLast2Decided, k2,
      decide_eq_true_eq]
    exact timeSub_ge_beat now T1

/-- Witness of C8: the empty schedule, calls with `[0, 1, 2]` and `[2, 1, 0]` at height 1,
one second apart, and the check for `[1, 2]` two seconds after the first call. -/
theorem C8_decided_throttle_after_two_marks_witness :
    Reachable NewMessageSchedule ∧
    (63900000000000000000 : Time) ≤ 63900000001000000000 ∧
    ([1, 2] : List OperatorID) ≠ [] ∧
    (∀ s ∈ ([1, 2] : List OperatorID), s ∈ ([0, 1, 2] : List OperatorID) ∧
      s ∈ ([2, 1, 0] : List OperatorID)) ∧
    ([2, 1, 0] : List OperatorID).Nodup ∧
    (((NewMessageSchedule.markDecidedMessage [1, 2, 3, 4] [0, 1, 2] 1
        63900000000000000000).markDecidedMessage [1, 2, 3, 4] [2, 1, 0] 1
        63900000001000000000).isTimelyDecidedMessage [1, 2, 3, 4] [1, 2] 1
        63900000002000000000 = true ↔
      (63900000002000000000 : Time) - 63900000000000000000 ≥ DecidedBeatDuration) :=
  ⟨⟨[], rfl⟩, by decide, by decide, by decide, by decide,
    C8_decided_throttle_after_two_marks NewMessageSchedule ⟨[], rfl⟩ [1, 2, 3, 4]
      [0, 1, 2] [2, 1, 0] [1, 2] 1 63900000000000000000 63900000001000000000
      63900000002000000000 (by decide) (by decide) (by decide) (by decide) (by decide)⟩

/-- Why the signer list of a call is taken to be a set: the loop of `markDecidedMessage` runs
`updateDecidedMark` once per list element, so a list that named signer 0 twice would record
the time of the call in both slots of the signer. -/
theorem markDecidedMessage_once_per_list_element :
    (((NewMessageSchedule.markDecidedMessage [1, 2, 3, 4] [0] 1
        63900000000000000000).markDecidedMessage [1, 2, 3, 4] [0, 0] 1
        63900000001000000000).getMark (markID [1, 2, 3, 4]) 0).map
      (fun m => m.Last2DecidedTimes) = some (63900000001000000000, 63900000001000000000) ∧
    ((NewMessageSchedule.markDecidedMessage [1, 2, 3, 4] [0] 1
        63900000000000000000).markDecidedMessage [1, 2, 3, 4] [0, 0] 1
        63900000001000000000).isTimelyDecidedMessage [1, 2, 3, 4] [0] 1
        63900000002000000000 = false ∧
    (63900000002000000000 : Time) - 63900000000000000000 ≥ DecidedBeatDuration := by
  decide

/-! ## The pipeline: claims C9 and C10 -/

theorem validateUnDecidedMsg_frame (c : Collaborators) (schedule schedule1 : MessageSchedule)
    (signedMsg : SignedMessage) (share : SSVShare) (now : Time) (v : ValidationResult)
    (h : validateUnDecidedMsg c schedule signedMsg share now = some (v, schedule1))
    (hv : v ≠ ValidationResult.ValidationAccept) : schedule1 = schedule := by
  unfold validateUnDecidedMsg at h
  split at h
  · exact absurd h (by simp)
  · simp only [Option.some.injEq, Prod.mk.injEq] at h
    exact h.2.symm
  · split at h
    · simp only [Option.some.injEq, Prod.mk.injEq] at h
      exact h.2.symm
    · split at h
      · exact absurd h (by simp)
      · split at h
        · exact absurd h (by simp)
        · simp only [Option.some.injEq, Prod.mk.injEq] at h
          exact absurd h.1.symm hv

theorem validateDecideMessage_frame (c : Collaborators) (schedule schedule1 : MessageSchedule)
    (signedCommit : SignedMessage) (share : SSVShare) (now : Time) (v : ValidationResult)
    (h : validateDecideMessage c signedCommit schedule share now = some (v, schedule1))
    (hv : v ≠ ValidationResult.ValidationAccept) : schedule1 = schedule := by
  unfold validateDecideMessage at h
  split_ifs at h <;> simp only [Option.some.injEq, Prod.mk.injEq] at h
  · exact h.2.symm
  · exact h.2.symm
  · exact h.2.symm
  · exact h.2.symm
  · exact absurd h.1.symm hv

theorem validateConsesnsusMsg_frame (c : Collaborators) (schedule schedule1 : MessageSchedule)
    (signedMsg : SignedMessage) (share : SSVShare) (now : Time) (v : ValidationResult)
    (h : validateConsesnsusMsg c signedMsg share schedule now = some (v, schedule1))
    (hv : v ≠ ValidationResult.ValidationAccept) : schedule1 = schedule := by
  unfold validateConsesnsusMsg at h
  split_ifs at h
  · simp only [Option.some.injEq, Prod.mk.injEq] at h
    exact h.2.symm
  · simp only [Option.some.injEq, Prod.mk.injEq] at h
    exact h.2.symm
  · exact validateDecideMessage_frame c schedule schedule1 signedMsg share now v h hv
  · exact validateUnDecidedMsg_frame c schedule schedule1 signedMsg share now v h hv

/-- C9: for every message, schedule state, clock reading and behaviour of the share store,
decoder, checks and signature verifier, if `ValidateSSVMsg` returns Reject or Ignore then
the schedule after the call equals the schedule before it. -/
theorem C9_schedule_changes_only_on_accept (c : Collaborators) (msg : SSVMessage)
    (schedule schedule1 : MessageSchedule) (now : Time) (v : ValidationResult)
    (h : ValidateSSVMsg c msg schedule now = some (v, schedule1))
    (hv : v = ValidationResult.ValidationReject ∨ v = ValidationResult.ValidationIgnore) :
    schedule1 = schedule := by
  have hv1 : v ≠ ValidationResult.ValidationAccept := by
    rcases hv with hv | hv <;> rw [hv] <;> decide
  unfold ValidateSSVMsg at h
  split_ifs at h
  · split at h
    · simp only [Option.some.injEq, Prod.mk.injEq] at h
      exact h.2.symm
    · simp only [Option.some.injEq, Prod.mk.injEq] at h
      exact h.2.symm
    · split at h
      · simp only [Option.some.injEq, Prod.mk.injEq] at h
        exact h.2.symm
      · exact validateConsesnsusMsg_frame c schedule schedule1 _ _ now v h hv1
  · simp only [Option.some.injEq, Prod.mk.injEq] at h
    exact absurd h.1.symm hv1

/-- Witness of C9: with the example collaborators, a Prepare of round 1 from signer 1 is
accepted on the empty schedule, and the same message sent again is rejected as not timely,
leaving the schedule as it was. -/
theorem C9_schedule_changes_only_on_accept_witness :
    ∃ schedule1 : MessageSchedule,
      ValidateSSVMsg exampleCollaborators
        { MsgType := SSVConsensusMsgType, MsgID := [1, 2, 3, 4], Data := [1, 0, 1, 1] }
        NewMessageSchedule 63900000000000000000 =
        some (ValidationResult.ValidationAccept, schedule1) ∧
      schedule1 ≠ NewMessageSchedule ∧
      ValidateSSVMsg exampleCollaborators
        { MsgType := SSVConsensusMsgType, MsgID := [1, 2, 3, 4], Data := [1, 0, 1, 1] }
        schedule1 63900000001000000000 =
        some (ValidationResult.ValidationReject, schedule1) ∧
      schedule1 = schedule1 :=
  ⟨_, rfl, by decide, by decide,
    C9_schedule_changes_only_on_accept exampleCollaborators
      { MsgType := SSVConsensusMsgType, MsgID := [1, 2, 3, 4], Data := [1, 0, 1, 1] }
      _ _ 63900000001000000000 ValidationResult.ValidationReject (by decide) (Or.inl rfl)⟩

/-- C10: with the example collaborators, a Prepare with round 0 from committee member 1,
arriving on the empty schedule, passes every check and the signature verification, and
`MarkConsensusMessage` then writes into the nil `MsgTypesInRound` of the mark it has just
created: the pipeline panics and returns no verdict. -/
theorem C10_round_zero_message_panics :
    exampleCollaborators.Decode [1, 0, 0, 1] =
      some { Signature := [], Signers := [1],
             Message := { MsgType := PrepareMsgType, Height := 0, Round := NoRound,
                          Identifier := [1, 2, 3, 4], Data := [] } } ∧
    NewMessageSchedule.MarkConsensusMessage [1, 2, 3, 4] 1 NoRound PrepareMsgType
      63900000000000000000 = none ∧
    ValidateSSVMsg exampleCollaborators
      { MsgType := SSVConsensusMsgType, MsgID := [1, 2, 3, 4], Data := [1, 0, 0, 1] }
      NewMessageSchedule 63900000000000000000 = none := by
  decide

/-! ## The hexadecimal key -/

theorem digitChar_inj :
    ∀ i j : Fin 16, Nat.digitChar i.val = Nat.digitChar j.val → i = j := by
  decide

theorem hexPair_inj (x y : Byte)
    (h1 : Nat.digitChar (x.val / 16) = Nat.digitChar (y.val / 16))
    (h2 : Nat.digitChar (x.val % 16) = Nat.digitChar (y.val % 16)) : x = y := by
  have hx := x.isLt
  have hy := y.isLt
  have e1 := digitChar_inj ⟨x.val / 16, by omega⟩ ⟨y.val / 16, by omega⟩ h1
  have e2 := digitChar_inj ⟨x.val % 16, by omega⟩ ⟨y.val % 16, by omega⟩ h2
  simp only [Fin.mk.injEq] at e1 e2
  apply Fin.ext
  omega

theorem hexChars_injective : ∀ a b : List Byte,
    (a.flatMap fun b => [Nat.digitChar (b.val / 16), Nat.digitChar (b.val % 16)]) =
      (b.flatMap fun b => [Nat.digitChar (b.val / 16), Nat.digitChar (b.val % 16)]) → a = b := by
  intro a
  induction a with
  | nil =>
    intro b h
    cases b with
    | nil => rfl
    | cons y ys =>
      simp only [List.flatMap_nil, List.flatMap_cons, List.cons_append, List.nil_append] at h
      exact absurd h (List.cons_ne_nil _ _).symm
  | cons x xs ih =>
    intro b h
    cases b with
    | nil =>
      simp only [List.flatMap_nil, List.flatMap_cons, List.cons_append, List.nil_append] at h
      exact absurd h (List.cons_ne_nil _ _)
    | cons y ys =>
      simp only [List.flatMap_cons, List.cons_append, List.nil_append, List.cons.injEq] at h
      rw [hexPair_inj x y h.1 h.2.1, ih ys h.2.2]

theorem markID_eq_imp (a b : List Byte) (h : markID a = markID b) : a = b :=
  hexChars_injective a b (congrArg String.data h)

/-! ## Entries of the signer maps -/

theorem mem_mapSet {κ ν : Type} [DecidableEq κ] (k : κ) (v : ν) (l : List (κ × ν))
    (e : κ × ν) (h : e ∈ mapSet k v l) : e = (k, v) ∨ e ∈ l := by
  induction l with
  | nil =>
    simp only [mapSet, List.mem_singleton] at h
    exact Or.inl h
  | cons x rest ih =>
    by_cases hx : x.1 = k
    · simp only [mapSet, hx, if_true, List.mem_cons] at h
      rcases h with h | h
      · exact Or.inl h
      · exact Or.inr (List.mem_cons_of_mem _ h)
    · simp only [mapSet, hx, if_false, List.mem_cons] at h
      rcases h with h | h
      · exact Or.inr (h ▸ List.mem_cons_self _ _)
      · rcases ih h with h1 | h1
        · exact Or.inl h1
        · exact Or.inr (List.mem_cons_of_mem _ h1)

theorem mapGet_mem {κ ν : Type} [DecidableEq κ] (k : κ) (v : ν) (l : List (κ × ν))
    (h : mapGet k l = some v) : (k, v) ∈ l := by
  induction l with
  | nil => simp [mapGet] at h
  | cons x rest ih =>
    by_cases hx : x.1 = k
    · simp only [mapGet, hx, if_true, Option.some.injEq] at h
      have : x = (k, v) := Prod.ext hx h
      rw [this]
      exact List.mem_cons_self _ _
    · simp only [mapGet, hx, if_false] at h
      exact List.mem_cons_of_mem _ (ih h)

theorem getMark_mem_signerMap (schedule : MessageSchedule) (id : String) (signer : OperatorID)
    (m : mark) (h : schedule.getMark id signer = some m) :
    (signer, m) ∈ schedule.signerMap id := by
  unfold MessageSchedule.getMark at h
  unfold MessageSchedule.signerMap
  cases hg : mapGet id schedule.Marks with
  | none => simp [hg] at h
  | some inner =>
    simp only [hg] at h
    exact mapGet_mem signer m inner h

theorem signerMap_setMark (schedule : MessageSchedule) (id : String) (signer : OperatorID)
    (m : mark) (id1 : String) (e : OperatorID × mark)
    (h : e ∈ (schedule.setMark id signer m).signerMap id1) :
    (id1 = id ∧ e = (signer, m)) ∨ e ∈ schedule.signerMap id1 := by
  unfold MessageSchedule.setMark MessageSchedule.signerMap at *
  by_cases hid : id1 = id
  · subst hid
    cases hg : mapGet id1 schedule.Marks with
    | none =>
      simp only [hg, mapGet_mapSet_self, Option.getD_some, mapSet, List.mem_singleton] at h
      exact Or.inl ⟨rfl, h⟩
    | some inner =>
      simp only [hg, mapGet_mapSet_self, Option.getD_some] at h
      rcases mem_mapSet signer m inner e h with h1 | h1
      · exact Or.inl ⟨rfl, h1⟩
      · exact Or.inr (by simpa using h1)
  · right
    cases hg : mapGet id schedule.Marks with
    | none =>
      simp only [hg, mapGet_mapSet_ne _ _ _ _ hid] at h
      exact h
    | some inner =>
      simp only [hg, mapGet_mapSet_ne _ _ _ _ hid] at h
      exact h

/-- A property of marks that holds of the zero mark and is kept by `updateDecidedMark`
holds of every entry of a signer map after the loop of `markDecidedMessage`. -/
theorem signerMap_markDecided_foldl (I : mark → Prop) (id : List Byte)
    (signers : List OperatorID) (height : Height) (now : Time) (hzero : I mark.zero)
    (hupd : ∀ m, I m → I (m.updateDecidedMark height signers now)) (id1 : String) :
    ∀ (l : List OperatorID) (schedule : MessageSchedule),
      (∀ e ∈ schedule.signerMap id1, I e.2) →
      ∀ e ∈ (l.foldl (MessageSchedule.markDecidedStep id signers height now)
        schedule).signerMap id1, I e.2 := by
  intro l
  induction l with
  | nil => intro schedule h; exact h
  | cons a rest ih =>
    intro schedule h
    rw [List.foldl_cons]
    apply ih
    intro e he
    unfold MessageSchedule.markDecidedStep at he
    simp only at he
    rcases signerMap_setMark _ _ _ _ _ _ he with ⟨hk, h1⟩ | h1
    · have hfound : I ((schedule.getMark (markID id) a).getD mark.zero) := by
        cases hg : schedule.getMark (markID id) a with
        | none => exact hzero
        | some m0 =>
          have hmem := getMark_mem_signerMap schedule _ _ _ hg
          rw [← hk] at hmem
          exact h (a, m0) hmem
      rw [h1]
      exact hupd _ hfound
    · split at h1
      · exact h e h1
      · rcases signerMap_setMark _ _ _ _ _ _ h1 with ⟨_, h2⟩ | h2
        · rw [h2]; exact hzero
        · exact h e h2

theorem signerMap_markDecided_ne (schedule : MessageSchedule) (id : List Byte)
    (signers : List OperatorID) (height : Height) (now : Time) (id1 : String)
    (hne : id1 ≠ markID id) :
    (schedule.markDecidedMessage id signers height now).signerMap id1 =
      schedule.signerMap id1 := by
  unfold MessageSchedule.markDecidedMessage
  generalize signers = all at *
  have hset : ∀ (s : MessageSchedule) (signer : OperatorID) (m : mark),
      (s.setMark (markID id) signer m).signerMap id1 = s.signerMap id1 := by
    intro s signer m
    unfold MessageSchedule.setMark MessageSchedule.signerMap
    cases hg : mapGet (markID id) s.Marks <;> simp [mapGet_mapSet_ne _ _ _ _ hne]
  have : ∀ (l : List OperatorID) (s : MessageSchedule),
      (l.foldl (MessageSchedule.markDecidedStep id all height now) s).signerMap id1 =
        s.signerMap id1 := by
    intro l
    induction l with
    | nil => intro s; rfl
    | cons a rest ih =>
      intro s
      rw [List.foldl_cons, ih]
      unfold MessageSchedule.markDecidedStep
      simp only
      rw [hset]
      split
      · rfl
      · rw [hset]
  exact this all schedule

/-! ## The better-message check: claim C6 -/

theorem updateDecidedMark_stale (m : mark) (height : Height) (signers : List OperatorID)
    (now : Time) (h : m.HighestDecided > height) : m.updateDecidedMark height signers now = m := by
  simp [mark.updateDecidedMark, h]

theorem updateDecidedMark_numOfSignatures (m : mark) (height : Height)
    (signers : List OperatorID) (now : Time) (h : ¬ m.HighestDecided > height) :
    (m.updateDecidedMark height signers now).numOfSignatures =
      if m.numOfSignatures < (signers.length : Int) then (signers.length : Int)
      else m.numOfSignatures := by
  unfold mark.updateDecidedMark mark.AddDecidedMark
  simp only [h, if_false]
  split_ifs <;> rfl

theorem updateDecidedMark_covers (m : mark) (height : Height) (signers : List OperatorID)
    (now : Time) (hle : m.HighestDecided ≤ height) :
    (m.updateDecidedMark height signers now).HighestDecided = height ∧
      (signers.length : Int) ≤ (m.updateDecidedMark height signers now).numOfSignatures := by
  have hst : ¬ m.HighestDecided > height := not_lt.mpr hle
  have hnum := updateDecidedMark_numOfSignatures m height signers now hst
  constructor
  · unfold mark.updateDecidedMark mark.AddDecidedMark
    simp only [hst, if_false]
    by_cases hlt : m.HighestDecided < height
    · simp only [hlt, if_true]
      split_ifs <;> rfl
    · simp only [hlt, if_false]
      have : m.HighestDecided = height := le_antisymm hle (not_lt.mp hlt)
      split_ifs <;> exact this
  · rw [hnum]
    split_ifs with hlt
    · exact le_refl _
    · exact not_lt.mp hlt

theorem updateDecidedMark_count_kept (m : mark) (height : Height) (signers : List OperatorID)
    (now : Time) :
    m.numOfSignatures ≤ (m.updateDecidedMark height signers now).numOfSignatures := by
  by_cases hst : m.HighestDecided > height
  · rw [updateDecidedMark_stale m _ _ _ hst]
  · rw [updateDecidedMark_numOfSignatures m height signers now hst]
    split_ifs with hlt
    · exact le_of_lt hlt
    · exact le_refl _

theorem countFromCall_mono (calls calls1 : List DecidedCall) (key : String) (m : mark)
    (hsub : ∀ c ∈ calls, c ∈ calls1) (h : CountFromCall calls key m) :
    CountFromCall calls1 key m := by
  rcases h with h | ⟨c, hc, h1⟩
  · exact Or.inl h
  · exact Or.inr ⟨c, hsub c hc, h1⟩

theorem countFromCall_update (calls : List DecidedCall) (key : String) (m : mark)
    (c : DecidedCall) (hc : c ∈ calls) (hk : markID c.id = key)
    (h : CountFromCall calls key m) :
    CountFromCall calls key (m.updateDecidedMark c.height c.signers c.now) := by
  by_cases hst : m.HighestDecided > c.height
  · rw [updateDecidedMark_stale m _ _ _ hst]
    exact h
  · have hge := updateDecidedMark_HighestDecided_ge m c.height c.signers c.now
    have hnum := updateDecidedMark_numOfSignatures m c.height c.signers c.now hst
    by_cases hlt : m.numOfSignatures < (c.signers.length : Int)
    · rw [if_pos hlt] at hnum
      exact Or.inr ⟨c, hc, hk, hge.1, hnum⟩
    · rw [if_neg hlt] at hnum
      rcases h with h | ⟨c0, hc0, h1, h2, h3⟩
      · exact Or.inl (by rw [hnum]; exact h)
      · exact Or.inr ⟨c0, hc0, h1, le_trans h2 hge.2, by rw [hnum]; exact h3⟩

theorem runDecided_append (init : List DecidedCall) (c : DecidedCall)
    (schedule : MessageSchedule) :
    runDecided (init ++ [c]) schedule =
      (runDecided init schedule).markDecidedMessage c.id c.signers c.height c.now := by
  simp [runDecided, List.foldl_append]

theorem signerMap_runDecided (calls : List DecidedCall) :
    ∀ (key : String) (e : OperatorID × mark),
      e ∈ (runDecided calls NewMessageSchedule).signerMap key → CountFromCall calls key e.2 := by
  induction calls using List.reverseRecOn with
  | nil =>
    intro key e he
    simp [runDecided, NewMessageSchedule, MessageSchedule.signerMap, mapGet] at he
  | append_singleton init c ih =>
    intro key e he
    rw [runDecided_append] at he
    have hsub : ∀ c0 ∈ init, c0 ∈ init ++ [c] := fun c0 h0 => List.mem_append_left _ h0
    by_cases hk : key = markID c.id
    · unfold MessageSchedule.markDecidedMessage at he
      refine signerMap_markDecided_foldl (CountFromCall (init ++ [c]) key) c.id c.signers
        c.height c.now (Or.inl (by simp [mark.zero])) ?_ key c.signers
        (runDecided init NewMessageSchedule) ?_ e he
      · intro m hm
        exact countFromCall_update (init ++ [c]) key m c (by simp) hk.symm hm
      · intro e0 he0
        exact countFromCall_mono init _ key e0.2 hsub (ih key e0 he0)
    · rw [signerMap_markDecided_ne _ _ _ _ _ _ hk] at he
      exact countFromCall_mono init _ key e.2 hsub (ih key e he)

theorem heightCovered_update_self (c : DecidedCall) (m : mark) :
    HeightCovered c (m.updateDecidedMark c.height c.signers c.now) := by
  by_cases hst : m.HighestDecided > c.height
  · rw [updateDecidedMark_stale m _ _ _ hst]
    exact ⟨le_of_lt hst, fun e => absurd hst (by rw [e]; exact lt_irrefl _)⟩
  · have hge := updateDecidedMark_HighestDecided_ge m c.height c.signers c.now
    have hnum := updateDecidedMark_numOfSignatures m c.height c.signers c.now hst
    refine ⟨hge.1, fun _ => ?_⟩
    rw [hnum]
    split_ifs with hlt
    · exact le_refl _
    · exact not_lt.mp hlt

theorem heightCovered_update_keeps (c : DecidedCall) (m : mark) (height : Height)
    (signers : List OperatorID) (now : Time) (h : HeightCovered c m) :
    HeightCovered c (m.updateDecidedMark height signers now) := by
  by_cases hst : m.HighestDecided > height
  · rw [updateDecidedMark_stale m _ _ _ hst]
    exact h
  · have hge := updateDecidedMark_HighestDecided_ge m height signers now
    have hnum := updateDecidedMark_numOfSignatures m height signers now hst
    refine ⟨le_trans h.1 hge.2, fun e => ?_⟩
    have heq : c.height = m.HighestDecided := le_antisymm h.1 (e ▸ hge.2)
    have h2 := h.2 heq
    rw [hnum]
    split_ifs with hlt
    · exact le_of_lt (lt_of_le_of_lt h2 hlt)
    · exact h2

theorem covered_runDecided (calls : List DecidedCall) :
    ∀ c ∈ calls, ∀ s ∈ c.signers,
      ∃ m, (runDecided calls NewMessageSchedule).getMark (markID c.id) s = some m ∧
        HeightCovered c m := by
  induction calls using List.reverseRecOn with
  | nil => intro c hc; exact absurd hc (List.not_mem_nil _)
  | append_singleton init c1 ih =>
    intro c hc s hs
    rw [runDecided_append]
    rcases List.mem_append.mp hc with hc | hc
    · refine markDecidedMessage_preserves (fun o => ∃ m, o = some m ∧ HeightCovered c m)
        c1.id c1.signers c1.height c1.now ?_ (markID c.id) s _ (ih c hc s hs)
      rintro o ⟨m, hm, hcov⟩
      subst hm
      exact ⟨_, rfl, heightCovered_update_keeps c m _ _ _ hcov⟩
    · have hc1 : c = c1 := by simpa using hc
      subst hc1
      exact markDecided_foldl_mem (HeightCovered c) c.id c.signers c.height c.now
        (heightCovered_update_self c) s c.signers _ hs

theorem hasBetterMsgAt_iff (schedule : MessageSchedule) (id : List Byte) (height : Height)
    (signers : List OperatorID) :
    schedule.hasBetterMsgAt id height signers = true ↔
      ∃ e ∈ schedule.signerMap (markID id),
        e.2.HighestDecided = height ∧ (signers.length : Int) < e.2.numOfSignatures := by
  unfold MessageSchedule.hasBetterMsgAt MessageSchedule.signerMap
  cases hg : mapGet (markID id) schedule.Marks with
  | none => simp [hg]
  | some inner => simp [hg, List.any_eq_true]

theorem heightFromCall_mono (calls calls1 : List DecidedCall) (key : String) (m : mark)
    (hsub : ∀ c ∈ calls, c ∈ calls1) (h : HeightFromCall calls key m) :
    HeightFromCall calls1 key m := by
  rcases h with h | ⟨c, hc, h1⟩
  · exact Or.inl h
  · exact Or.inr ⟨c, hsub c hc, h1⟩

theorem heightFromCall_update (calls : List DecidedCall) (key : String) (m : mark)
    (c : DecidedCall) (hc : c ∈ calls) (hk : markID c.id = key)
    (h : HeightFromCall calls key m) :
    HeightFromCall calls key (m.updateDecidedMark c.height c.signers c.now) := by
  by_cases hst : m.HighestDecided > c.height
  · rw [updateDecidedMark_stale m _ _ _ hst]
    exact h
  · have hcov := updateDecidedMark_covers m c.height c.signers c.now (not_lt.mp hst)
    exact Or.inr ⟨c, hc, hk, hcov.1.symm⟩

theorem signerMap_runDecided_height (calls : List DecidedCall) :
    ∀ (key : String) (e : OperatorID × mark),
      e ∈ (runDecided calls NewMessageSchedule).signerMap key → HeightFromCall calls key e.2 := by
  induction calls using List.reverseRecOn with
  | nil =>
    intro key e he
    simp [runDecided, NewMessageSchedule, MessageSchedule.signerMap, mapGet] at he
  | append_singleton init c ih =>
    intro key e he
    rw [runDecided_append] at he
    have hsub : ∀ c0 ∈ init, c0 ∈ init ++ [c] := fun c0 h0 => List.mem_append_left _ h0
    by_cases hk : key = markID c.id
    · unfold MessageSchedule.markDecidedMessage at he
      refine signerMap_markDecided_foldl (HeightFromCall (init ++ [c]) key) c.id c.signers
        c.height c.now (Or.inl (by simp [mark.zero])) ?_ key c.signers
        (runDecided init NewMessageSchedule) ?_ e he
      · intro m hm
        exact heightFromCall_update (init ++ [c]) key m c (by simp) hk.symm hm
      · intro e0 he0
        exact heightFromCall_mono init _ key e0.2 hsub (ih key e0 he0)
    · rw [signerMap_markDecided_ne _ _ _ _ _ _ hk] at he
      exact heightFromCall_mono init _ key e.2 hsub (ih key e he)

/-- After a call at height `h1` with the signer list `S1` and a call at a greater height `h2`
that names a signer `s` of `S1` whose mark was not above `h1`, the mark of `s` is at height
`h2` and still records at least as many signatures as `S1` has. -/
theorem count_survives_height_advance (schedule : MessageSchedule) (id : List Byte)
    (S1 S2 : List OperatorID) (h1 h2 : Height) (T1 T2 : Time) (s : OperatorID)
    (hs1 : s ∈ S1) (hs2 : s ∈ S2)
    (hbelow : ((schedule.getMark (markID id) s).getD mark.zero).HighestDecided ≤ h1)
    (hlt : h1 < h2) :
    ∃ m, ((schedule.markDecidedMessage id S1 h1 T1).markDecidedMessage id S2 h2 T2).getMark
        (markID id) s = some m ∧
      m.HighestDecided = h2 ∧ (S1.length : Int) ≤ m.numOfSignatures := by
  obtain ⟨m1, hm1, hq1⟩ := markDecided_foldl_mem_from
    (fun o => (o.getD mark.zero).HighestDecided ≤ h1)
    (fun m => m.HighestDecided = h1 ∧ (S1.length : Int) ≤ m.numOfSignatures)
    id S1 h1 T1
    (fun o ho => updateDecidedMark_covers _ _ _ _ ho)
    (fun m hm => updateDecidedMark_covers m _ _ _ (le_of_eq hm.1))
    s S1 schedule hbelow hs1
  have hkeep : ∀ m : mark, m.HighestDecided ≤ h2 → (S1.length : Int) ≤ m.numOfSignatures →
      (m.updateDecidedMark h2 S2 T2).HighestDecided = h2 ∧
        (S1.length : Int) ≤ (m.updateDecidedMark h2 S2 T2).numOfSignatures :=
    fun m hle hn =>
      ⟨(updateDecidedMark_covers m h2 S2 T2 hle).1,
        le_trans hn (updateDecidedMark_count_kept m h2 S2 T2)⟩
  refine markDecided_foldl_mem_from
    (fun o => ∃ m, o = some m ∧ m.HighestDecided ≤ h2 ∧ (S1.length : Int) ≤ m.numOfSignatures)
    (fun m => m.HighestDecided = h2 ∧ (S1.length : Int) ≤ m.numOfSignatures)
    id S2 h2 T2 ?_ (fun m hm => hkeep m (le_of_eq hm.1) hm.2)
    s S2 (schedule.markDecidedMessage id S1 h1 T1) ?_ hs2
  · rintro o ⟨m, hm, hle, hn⟩
    subst hm
    exact hkeep m hle hn
  · refine ⟨m1, hm1, ?_, hq1.2⟩
    rw [hq1.1]
    exact le_of_lt hlt

/-- C6: the better-message check against the `markDecidedMessage` calls that built the state
from the empty schedule, for a commit for `id` at height `h` with `k` signers.
(1) If `hasBetterMsg` is true then some earlier call for `id` was at exactly height `h`, and
some earlier call for `id` at a height no greater than `h` carried strictly more than `k`
signers. (2) If some earlier call for `id` at height `h` carried strictly more than `k`
signers and `h` is still the highest decided height of one of that call's signers, then
`hasBetterMsg` is true. (3) The signature count of a mark is not reset when its height
advances: when the last two calls of the run are for `id`, the first at a height `h1 < h`
with more than `k` signers and the second at height `h`, when they share a signer whose mark
was not above `h1`, and when no call of the run for `id` at height `h` carried more than `k`
signers, then `hasBetterMsg` is true, where the claim says false. -/
theorem C6_better_message_count_not_reset (calls : List DecidedCall) (commit : SignedMessage) :
    ((runDecided calls NewMessageSchedule).hasBetterMsg commit = true →
      (∃ c ∈ calls, c.id = commit.Message.Identifier ∧ c.height = commit.Message.Height) ∧
      ∃ c ∈ calls, c.id = commit.Message.Identifier ∧ c.height ≤ commit.Message.Height ∧
        commit.Signers.length < c.signers.length) ∧
    (∀ c ∈ calls, c.id = commit.Message.Identifier → c.height = commit.Message.Height →
      commit.Signers.length < c.signers.length →
      (∃ s ∈ c.signers, ∃ m,
        (runDecided calls NewMessageSchedule).getMark (markID commit.Message.Identifier) s =
          some m ∧ m.HighestDecided = commit.Message.Height) →
      (runDecided calls NewMessageSchedule).hasBetterMsg commit = true) ∧
    (∀ (pre : List DecidedCall) (S1 S2 : List OperatorID) (h1 : Height) (T1 T2 : Time)
        (s : OperatorID),
      calls = pre ++
        [{ id := commit.Message.Identifier, signers := S1, height := h1, now := T1 },
         { id := commit.Message.Identifier, signers := S2, height := commit.Message.Height,
           now := T2 }] →
      s ∈ S1 → s ∈ S2 →
      (((runDecided pre NewMessageSchedule).getMark (markID commit.Message.Identifier) s).getD
        mark.zero).HighestDecided ≤ h1 →
      h1 < commit.Message.Height →
      commit.Signers.length < S1.length →
      (∀ c ∈ calls, c.id = commit.Message.Identifier → c.height = commit.Message.Height →
        c.signers.length ≤ commit.Signers.length) →
      (runDecided calls NewMessageSchedule).hasBetterMsg commit = true ∧
        ¬ ∃ c ∈ calls, c.id = commit.Message.Identifier ∧ c.height = commit.Message.Height ∧
          commit.Signers.length < c.signers.length) := by
  refine ⟨?_, ?_, ?_⟩
  · intro h
    unfold MessageSchedule.hasBetterMsg at h
    obtain ⟨e, he, h1, h2⟩ := (hasBetterMsgAt_iff _ _ _ _).mp h
    have hpos : ¬ e.2.numOfSignatures ≤ 0 := by
      have : (0 : Int) ≤ (commit.Signers.length : Int) := Int.natCast_nonneg _
      omega
    constructor
    · rcases signerMap_runDecided_height calls _ e he with h3 | ⟨c, hc, h4, h5⟩
      · exact absurd h3 hpos
      · exact ⟨c, hc, markID_eq_imp _ _ h4, by rw [h5, h1]⟩
    · rcases signerMap_runDecided calls _ e he with h3 | ⟨c, hc, h4, h5, h6⟩
      · exact absurd h3 hpos
      · refine ⟨c, hc, markID_eq_imp _ _ h4, ?_, ?_⟩
        · rw [← h1]; exact h5
        · rw [h6] at h2
          exact_mod_cast h2
  · intro c hc hid hh hlen ⟨s, hs, m, hm, hmh⟩
    obtain ⟨m1, hm1, hcov⟩ := covered_runDecided calls c hc s hs
    rw [hid, hm] at hm1
    simp only [Option.some.injEq] at hm1
    subst hm1
    unfold MessageSchedule.hasBetterMsg
    refine (hasBetterMsgAt_iff _ _ _ _).mpr ⟨(s, m), getMark_mem_signerMap _ _ _ _ hm, hmh, ?_⟩
    have h2 := hcov.2 (by rw [hh, hmh])
    have h3 : (commit.Signers.length : Int) < (c.signers.length : Int) := by exact_mod_cast hlen
    exact lt_of_lt_of_le h3 h2
  · intro pre S1 S2 h1 T1 T2 s hcalls hs1 hs2 hbelow hlt hk hnone
    constructor
    · obtain ⟨m, hm, hmh, hmn⟩ := count_survives_height_advance
        (runDecided pre NewMessageSchedule) commit.Message.Identifier S1 S2 h1
        commit.Message.Height T1 T2 s hs1 hs2 hbelow hlt
      have hrun : runDecided calls NewMessageSchedule =
          ((runDecided pre NewMessageSchedule).markDecidedMessage commit.Message.Identifier S1
            h1 T1).markDecidedMessage commit.Message.Identifier S2 commit.Message.Height T2 := by
        rw [hcalls]
        simp [runDecided, List.foldl_append]
      rw [hrun]
      unfold MessageSchedule.hasBetterMsg
      refine (hasBetterMsgAt_iff _ _ _ _).mpr ⟨(s, m), getMark_mem_signerMap _ _ _ _ hm, hmh, ?_⟩
      have h3 : (commit.Signers.length : Int) < (S1.length : Int) := by exact_mod_cast hk
      exact lt_of_lt_of_le h3 hmn
    · rintro ⟨c, hc, hid, hh, hlen⟩
      exact absurd hlen (not_lt.mpr (hnone c hc hid hh))

/-- Witness of C6: a call at height 1 with signers `[1, 2, 3, 4]`, then a call at height 2
with signers `[1, 2, 3]`, and a commit at height 2 with signers `[2, 3, 4]`. After the first
call alone the check is false, no call having been at height 2 (part 1). After both calls
the check is true although the only call at height 2 carried three signers (part 3). -/
theorem C6_better_message_count_not_reset_witness :
    (runDecided
        [{ id := [1, 2, 3, 4], signers := [1, 2, 3, 4], height := 1, now := 63900000000000000000 }]
        NewMessageSchedule).hasBetterMsg
      { Signature := [], Signers := [2, 3, 4],
        Message := { MsgType := CommitMsgType, Height := 2, Round := FirstRound,
                     Identifier := [1, 2, 3, 4], Data := [] } } = false ∧
    (runDecided
        [{ id := [1, 2, 3, 4], signers := [1, 2, 3, 4], height := 1, now := 63900000000000000000 },
         { id := [1, 2, 3, 4], signers := [1, 2, 3], height := 2, now := 63900000012000000000 }]
        NewMessageSchedule).hasBetterMsg
      { Signature := [], Signers := [2, 3, 4],
        Message := { MsgType := CommitMsgType, Height := 2, Round := FirstRound,
                     Identifier := [1, 2, 3, 4], Data := [] } } = true ∧
    ¬ ∃ c ∈ [({ id := [1, 2, 3, 4], signers := [1, 2, 3, 4], height := 1,
                now := 63900000000000000000 } : DecidedCall),
             { id := [1, 2, 3, 4], signers := [1, 2, 3], height := 2,
               now := 63900000012000000000 }],
        c.id = [1, 2, 3, 4] ∧ c.height = 2 ∧ ([2, 3, 4] : List OperatorID).length < c.signers.length :=
  ⟨Bool.eq_false_iff.mpr fun h =>
    absurd ((C6_better_message_count_not_reset
      [{ id := [1, 2, 3, 4], signers := [1, 2, 3, 4], height := 1, now := 63900000000000000000 }]
      { Signature := [], Signers := [2, 3, 4],
        Message := { MsgType := CommitMsgType, Height := 2, Round := FirstRound,
                     Identifier := [1, 2, 3, 4], Data := [] } }).1 h).1 (by decide),
   (C6_better_message_count_not_reset
      [{ id := [1, 2, 3, 4], signers := [1, 2, 3, 4], height := 1, now := 63900000000000000000 },
       { id := [1, 2, 3, 4], signers := [1, 2, 3], height := 2, now := 63900000012000000000 }]
      { Signature := [], Signers := [2, 3, 4],
        Message := { MsgType := CommitMsgType, Height := 2, Round := FirstRound,
                     Identifier := [1, 2, 3, 4], Data := [] } }).2.2
    [] [1, 2, 3, 4] [1, 2, 3] 1 63900000000000000000 63900000012000000000 1
    rfl (by decide) (by decide) (by decide) (by decide) (by decide) (by decide)⟩

/-- The failing input of C6 through the pipeline, with the example collaborators: a commit at
height 1 with signers `[1, 2, 3, 4]` is accepted, a commit at height 2 with signers
`[1, 2, 3]` is accepted, and a commit at height 2 with signers `[2, 3, 4]` is then ignored as
if a better message for height 2 had been seen, although none was. The mark of signer 1 is
then at height 2 and records four signatures. -/
theorem ValidateSSVMsg_ignores_commit_without_better_one :
    ∃ schedule1 schedule2 : MessageSchedule,
      ValidateSSVMsg exampleCollaborators
        { MsgType := SSVConsensusMsgType, MsgID := [1, 2, 3, 4], Data := [2, 1, 1, 1, 2, 3, 4] }
        NewMessageSchedule 63900000000000000000 =
        some (ValidationResult.ValidationAccept, schedule1) ∧
      ValidateSSVMsg exampleCollaborators
        { MsgType := SSVConsensusMsgType, MsgID := [1, 2, 3, 4], Data := [2, 2, 1, 1, 2, 3] }
        schedule1 63900000012000000000 =
        some (ValidationResult.ValidationAccept, schedule2) ∧
      ValidateSSVMsg exampleCollaborators
        { MsgType := SSVConsensusMsgType, MsgID := [1, 2, 3, 4], Data := [2, 2, 1, 2, 3, 4] }
        schedule2 63900000024000000000 =
        some (ValidationResult.ValidationIgnore, schedule2) ∧
      (schedule2.getMark (markID [1, 2, 3, 4]) 1).map
        (fun m => (m.HighestDecided, m.numOfSignatures)) = some (2, 4) :=
  ⟨_, _, rfl, rfl, by decide, by decide⟩

/-- The other direction of C6 when the height has moved on: a call at height 1 with four
signers is followed by a call at height 2. For a commit at height 1 with three signers an
earlier call at the same height carried more signers, yet `hasBetterMsg` is false: a mark
keeps the signature count of its highest decided height only, and every mark has moved on to
height 2. -/
theorem hasBetterMsg_forgets_lower_heights :
    (runDecided
        [{ id := [1, 2, 3, 4], signers := [1, 2, 3, 4], height := 1, now := 63900000000000000000 },
         { id := [1, 2, 3, 4], signers := [1, 2, 3, 4], height := 2, now := 63900000012000000000 }]
        NewMessageSchedule).hasBetterMsg
      { Signature := [], Signers := [1, 2, 3],
        Message := { MsgType := CommitMsgType, Height := 1, Round := FirstRound,
                     Identifier := [1, 2, 3, 4], Data := [] } } = false ∧
    ∃ c ∈ [({ id := [1, 2, 3, 4], signers := [1, 2, 3, 4], height := 1,
              now := 63900000000000000000 } : DecidedCall),
           { id := [1, 2, 3, 4], signers := [1, 2, 3, 4], height := 2,
             now := 63900000012000000000 }],
      c.id = [1, 2, 3, 4] ∧ c.height = 1 ∧ ([1, 2, 3] : List OperatorID).length < c.signers.length :=
  ⟨by decide,
    { id := [1, 2, 3, 4], signers := [1, 2, 3, 4], height := 1, now := 63900000000000000000 },
    List.mem_cons_self _ _, rfl, rfl, by decide⟩

/-! ## Marking and first contact: claims C11 to C16 -/

/-- C11: when the mark of `(id, s)` has `HighestRound > round` and has not yet seen
`msgType`, `MarkConsensusMessage(id, s, round, msgType)` is not a no-op: it leaves
`HighestRound` and `FirstMsgInRound` as they were but adds `msgType` to the type set of the
current round, so `isConsensusMessageTimely(id, s, HighestRound, msgType)` turns from true
to false. The claim says the mark and the answers are unchanged. -/
theorem C11_stale_round_mark_records_type (schedule : MessageSchedule) (id : List Byte)
    (s : OperatorID) (round : Round) (msgType : MessageType) (T now : Time) (m : mark)
    (types : List MessageType) (hm : schedule.getMark (markID id) s = some m)
    (hstale : round < m.HighestRound) (htypes : m.MsgTypesInRound = some types)
    (hnew : msgType ∉ types) :
    ∃ schedule1, schedule.MarkConsensusMessage id s round msgType T = some schedule1 ∧
      schedule1.getMark (markID id) s =
        some { m with MsgTypesInRound := some (msgType :: types) } ∧
      schedule.isConsensusMessageTimely id s m.HighestRound msgType now = true ∧
      schedule1.isConsensusMessageTimely id s m.HighestRound msgType now = false := by
  have hnlt : ¬ m.HighestRound < round := not_lt.mpr (le_of_lt hstale)
  have hupd : ((schedule.getMark (markID id) s).getD mark.zero).consensusUpdate round msgType T =
      some { m with MsgTypesInRound := some (msgType :: types) } := by
    rw [hm]
    simp [mark.consensusUpdate, hnlt, htypes, List.insert_of_not_mem hnew]
  obtain ⟨schedule1, h1⟩ := MarkConsensusMessage_isSome schedule id s round msgType T _ hupd
  obtain ⟨m2, hm2, hget⟩ := getMark_MarkConsensusMessage schedule schedule1 id s round msgType T h1
  rw [hupd] at hm2
  simp only [Option.some.injEq] at hm2
  subst hm2
  have hg : schedule1.getMark (markID id) s =
      some { m with MsgTypesInRound := some (msgType :: types) } := by
    rw [hget]; simp
  refine ⟨schedule1, h1, hg, ?_, ?_⟩
  · unfold MessageSchedule.isConsensusMessageTimely
    simp [hm, htypes, hnew]
  · unfold MessageSchedule.isConsensusMessageTimely
    simp [hg]

/-- Evaluation of C11 at the failing input: signer 0 is marked with a Prepare of round 3 and
then with a Commit of round 2. Before the second call a Commit of round 3 is timely;
after it, it is not. -/
theorem C11_stale_round_mark_records_type_witness :
    (MessageSchedule.mk [("01020304", [(0,
        { HighestRound := 3, FirstMsgInRound := 63900000000000000000,
          MsgTypesInRound := some [PrepareMsgType], HighestDecided := 0,
          Last2DecidedTimes := (zeroTime, zeroTime), MarkedDecided := 0,
          numOfSignatures := 0 })])]) =
      (NewMessageSchedule.setMark (markID [1, 2, 3, 4]) 0
        ((mark.zero).ResetForNewRound 3 PrepareMsgType 63900000000000000000)) ∧
    NewMessageSchedule.MarkConsensusMessage [1, 2, 3, 4] 0 3 PrepareMsgType
      63900000000000000000 =
      some (MessageSchedule.mk [("01020304", [(0,
        { HighestRound := 3, FirstMsgInRound := 63900000000000000000,
          MsgTypesInRound := some [PrepareMsgType], HighestDecided := 0,
          Last2DecidedTimes := (zeroTime, zeroTime), MarkedDecided := 0,
          numOfSignatures := 0 })])]) ∧
    (2 : Round) < 3 ∧ CommitMsgType ∉ [PrepareMsgType] ∧
    ∃ schedule1,
      (MessageSchedule.mk [("01020304", [(0,
        { HighestRound := 3, FirstMsgInRound := 63900000000000000000,
          MsgTypesInRound := some [PrepareMsgType], HighestDecided := 0,
          Last2DecidedTimes := (zeroTime, zeroTime), MarkedDecided := 0,
          numOfSignatures := 0 })])]).MarkConsensusMessage [1, 2, 3, 4] 0 2 CommitMsgType
        63900000001000000000 = some schedule1 ∧
      schedule1.getMark (markID [1, 2, 3, 4]) 0 =
        some { HighestRound := 3, FirstMsgInRound := 63900000000000000000,
               MsgTypesInRound := some [CommitMsgType, PrepareMsgType], HighestDecided := 0,
               Last2DecidedTimes := (zeroTime, zeroTime), MarkedDecided := 0,
               numOfSignatures := 0 } ∧
      (MessageSchedule.mk [("01020304", [(0,
        { HighestRound := 3, FirstMsgInRound := 63900000000000000000,
          MsgTypesInRound := some [PrepareMsgType], HighestDecided := 0,
          Last2DecidedTimes := (zeroTime, zeroTime), MarkedDecided := 0,
          numOfSignatures := 0 })])]).isConsensusMessageTimely [1, 2, 3, 4] 0 3 CommitMsgType
        63900000002000000000 = true ∧
      schedule1.isConsensusMessageTimely [1, 2, 3, 4] 0 3 CommitMsgType
        63900000002000000000 = false :=
  ⟨by decide, by decide, by decide, by decide,
    C11_stale_round_mark_records_type
      (MessageSchedule.mk [("01020304", [(0,
        { HighestRound := 3, FirstMsgInRound := 63900000000000000000,
          MsgTypesInRound := some [PrepareMsgType], HighestDecided := 0,
          Last2DecidedTimes := (zeroTime, zeroTime), MarkedDecided := 0,
          numOfSignatures := 0 })])])
      [1, 2, 3, 4] 0 2 CommitMsgType 63900000001000000000 63900000002000000000
      { HighestRound := 3, FirstMsgInRound := 63900000000000000000,
        MsgTypesInRound := some [PrepareMsgType], HighestDecided := 0,
        Last2DecidedTimes := (zeroTime, zeroTime), MarkedDecided := 0, numOfSignatures := 0 }
      [PrepareMsgType] (by decide) (by decide) rfl (by decide)⟩

/-- C12, as amended: when `height > HighestDecided` before the call, `MarkedDecided` equals 2
after `updateDecidedMark` (it is set to 1 and `AddDecidedMark` then increments it); when
`height == HighestDecided` before the call, `MarkedDecided` after the call equals its
previous value plus 1. -/
theorem C12_decided_count_after_update (m : mark) (height : Height)
    (signers : List OperatorID) (now : Time) :
    (m.HighestDecided < height →
      (m.updateDecidedMark height signers now).MarkedDecided = 2) ∧
    (m.HighestDecided = height →
      (m.updateDecidedMark height signers now).MarkedDecided = m.MarkedDecided + 1) := by
  unfold mark.updateDecidedMark mark.AddDecidedMark
  constructor
  · intro h
    have h1 : ¬ m.HighestDecided > height := not_lt.mpr (le_of_lt h)
    simp only [h1, h, if_true, if_false]
    split_ifs <;> rfl
  · intro h
    have h1 : ¬ m.HighestDecided > height := by rw [h]; exact lt_irrefl _
    have h2 : ¬ m.HighestDecided < height := by rw [h]; exact lt_irrefl _
    simp only [h1, h2, if_false]
    split_ifs <;> rfl

/-- Witness of C12: the zero mark updated at height 1, and a mark at height 1 with count 2
updated at height 1. -/
theorem C12_decided_count_after_update_witness :
    ((mark.zero).HighestDecided < 1 ∧
      ((mark.zero).updateDecidedMark 1 [0, 1, 2] 63900000000000000000).MarkedDecided = 2) ∧
    ((((mark.zero).updateDecidedMark 1 [0, 1, 2] 63900000000000000000).HighestDecided = 1) ∧
      ((((mark.zero).updateDecidedMark 1 [0, 1, 2] 63900000000000000000).updateDecidedMark 1
        [0, 1, 2] 63900000001000000000).MarkedDecided =
        ((mark.zero).updateDecidedMark 1 [0, 1, 2] 63900000000000000000).MarkedDecided + 1)) :=
  ⟨⟨by decide,
    (C12_decided_count_after_update mark.zero 1 [0, 1, 2] 63900000000000000000).1 (by decide)⟩,
   ⟨by decide,
    (C12_decided_count_after_update
      ((mark.zero).updateDecidedMark 1 [0, 1, 2] 63900000000000000000) 1 [0, 1, 2]
      63900000001000000000).2 (by decide)⟩⟩

/-- Counterexample to C12 as stated: the zero mark has `HighestDecided = 0 < 1`, and after
`updateDecidedMark(1, [0, 1, 2])` its `MarkedDecided` is 2, not 1. -/
theorem C12_counterexample_count_two_on_new_height :
    (mark.zero).HighestDecided < 1 ∧
    ((mark.zero).updateDecidedMark 1 [0, 1, 2] 63900000000000000000).MarkedDecided = 2 ∧
    ((mark.zero).updateDecidedMark 1 [0, 1, 2] 63900000000000000000).MarkedDecided ≠ 1 := by
  decide

/-- C13: for a pair `(id, s)` without a mark, a round `r ≥ 1` and a type `t`, after
`MarkConsensusMessage(id, s, r, t)` the check `isConsensusMessageTimely(id, s, r, t1)` is
true for every type `t1` different from `t`, at every clock reading. -/
theorem C13_other_types_timely_in_marked_round (schedule : MessageSchedule) (id : List Byte)
    (s : OperatorID) (r : Round) (t t1 : MessageType) (T now : Time)
    (hfresh : schedule.getMark (markID id) s = none) (hr : 1 ≤ r) (hne : t1 ≠ t) :
    ∃ schedule1, schedule.MarkConsensusMessage id s r t T = some schedule1 ∧
      schedule1.isConsensusMessageTimely id s r t1 now = true := by
  have hlt : (mark.zero).HighestRound < r := by
    simp only [mark.zero, Round] at *
    omega
  have hupd : ((schedule.getMark (markID id) s).getD mark.zero).consensusUpdate r t T =
      some (mark.zero.ResetForNewRound r t T) := by
    rw [hfresh]
    simp [mark.consensusUpdate, hlt]
  obtain ⟨schedule1, h1⟩ := MarkConsensusMessage_isSome schedule id s r t T _ hupd
  obtain ⟨m2, hm2, hget⟩ := getMark_MarkConsensusMessage schedule schedule1 id s r t T h1
  rw [hupd] at hm2
  simp only [Option.some.injEq] at hm2
  subst hm2
  have hg : schedule1.getMark (markID id) s = some (mark.zero.ResetForNewRound r t T) := by
    rw [hget]; simp
  refine ⟨schedule1, h1, ?_⟩
  unfold MessageSchedule.isConsensusMessageTimely
  simp only [hg]
  simp [mark.ResetForNewRound, hne]

/-- Witness of C13: the second assertion of `TestMessageSchedule_MarkConsensusMessage`: after
a Prepare of the first round, a Commit of the first round from the same signer is timely. -/
theorem C13_other_types_timely_in_marked_round_witness :
    NewMessageSchedule.getMark (markID [1, 2, 3, 4]) 0 = none ∧ 1 ≤ FirstRound ∧
    CommitMsgType ≠ PrepareMsgType ∧
    ∃ schedule1,
      NewMessageSchedule.MarkConsensusMessage [1, 2, 3, 4] 0 FirstRound PrepareMsgType
        63900000000000000000 = some schedule1 ∧
      schedule1.isConsensusMessageTimely [1, 2, 3, 4] 0 FirstRound CommitMsgType
        63900000000000000000 = true :=
  ⟨by decide, by decide, by decide,
    C13_other_types_timely_in_marked_round NewMessageSchedule [1, 2, 3, 4] 0 FirstRound
      PrepareMsgType CommitMsgType 63900000000000000000 63900000000000000000 (by decide)
      (by decide) (by decide)⟩

theorem consensusUpdate_HighestRound_ge (m m1 : mark) (r : Round) (t : MessageType) (now : Time)
    (h : m.consensusUpdate r t now = some m1) :
    r ≤ m1.HighestRound ∧ m.HighestRound ≤ m1.HighestRound := by
  unfold mark.consensusUpdate at h
  split at h
  · rename_i hlt
    simp only [Option.some.injEq] at h
    subst h
    exact ⟨le_refl _, le_of_lt hlt⟩
  · rename_i hlt
    split at h
    · exact absurd h (by simp)
    · simp only [Option.some.injEq] at h
      subst h
      exact ⟨not_lt.mp hlt, le_refl _⟩

theorem reached_step (id : String) (signer : OperatorID) (r : Round) (op : Op)
    (s s1 : MessageSchedule) (hs : RoundReached r (s.getMark id signer))
    (h : Op.apply op s = some s1) : RoundReached r (s1.getMark id signer) := by
  cases op with
  | consensus id1 signer1 round1 msgType1 now1 =>
    obtain ⟨m1, hm1, hget⟩ := getMark_MarkConsensusMessage s s1 id1 signer1 round1 msgType1 now1 h
    rw [hget]
    by_cases hk : id = markID id1 ∧ signer = signer1
    · simp only [hk, and_self, if_true]
      rw [hk.1, hk.2] at hs
      obtain ⟨m, hm, hle⟩ := hs
      rw [hm] at hm1
      exact ⟨m1, rfl, le_trans hle (consensusUpdate_HighestRound_ge m m1 _ _ _ hm1).2⟩
    · simp only [hk, if_false]
      exact hs
  | decided id1 signers1 height1 now1 =>
    simp only [Op.apply, Option.some.injEq] at h
    subst h
    refine markDecidedMessage_preserves (RoundReached r) id1 signers1 height1 now1 ?_ id signer
      s hs
    rintro o ⟨m, hm, hle⟩
    subst hm
    exact ⟨_, rfl, by simpa using hle⟩

theorem not_timely_of_reached (schedule : MessageSchedule) (id : List Byte)
    (signer : OperatorID) (r r1 : Round) (t1 : MessageType) (now : Time) (hlt : r1 < r)
    (h : RoundReached r (schedule.getMark (markID id) signer)) :
    schedule.isConsensusMessageTimely id signer r1 t1 now = false := by
  obtain ⟨m, hm, hle⟩ := h
  unfold MessageSchedule.isConsensusMessageTimely
  simp only [hm]
  have h1 : r1 < m.HighestRound := lt_of_lt_of_le hlt hle
  have h4 : ¬ m.HighestRound < r1 := not_lt.mpr (le_of_lt h1)
  have h5 : ¬ m.HighestRound = r1 := fun e => absurd h1 (by rw [e]; exact lt_irrefl _)
  simp [h4, h5]

/-- C14: in every reachable schedule state, for rounds `r1 < r`, the call
`MarkConsensusMessage(id, s, r, t)` completes, and afterwards
`isConsensusMessageTimely(id, s, r1, t1)` is false for every type `t1` and every clock
reading, in that state and in every state reached by later schedule operations. -/
theorem C14_past_rounds_never_timely (schedule : MessageSchedule)
    (hreach : Reachable schedule) (id : List Byte) (s : OperatorID) (r r1 : Round)
    (t : MessageType) (T : Time) (hlt : r1 < r) :
    ∃ schedule1, schedule.MarkConsensusMessage id s r t T = some schedule1 ∧
      ∀ (later : List Op) (schedule2 : MessageSchedule),
        runOps later schedule1 = some schedule2 →
        ∀ (t1 : MessageType) (now : Time),
          schedule2.isConsensusMessageTimely id s r1 t1 now = false := by
  have hr : 1 ≤ r := by
    simp only [Round] at *
    omega
  obtain ⟨m1, hm1⟩ := consensusUpdate_isSome_of_allocated schedule
    (typesAllocated_of_reachable schedule hreach) (markID id) s r t T hr
  obtain ⟨schedule1, h1⟩ := MarkConsensusMessage_isSome schedule id s r t T m1 hm1
  refine ⟨schedule1, h1, ?_⟩
  obtain ⟨m2, hm2, hget⟩ := getMark_MarkConsensusMessage schedule schedule1 id s r t T h1
  have hreached : RoundReached r (schedule1.getMark (markID id) s) := by
    rw [hget]
    simp only [and_self, if_true]
    exact ⟨m2, rfl, (consensusUpdate_HighestRound_ge _ _ r t T hm2).1⟩
  intro later schedule2 hrun t1 now
  exact not_timely_of_reached schedule2 id s r r1 t1 now hlt
    (runOps_preserves (fun σ => RoundReached r (σ.getMark (markID id) s))
      (fun op σ σ1 => reached_step (markID id) s r op σ σ1) later schedule1 schedule2
      hreached hrun)

/-- Witness of C14: the sixth scenario of the specification: on the empty schedule signer 0
is marked at round 3; a message of round 2 is then never timely. -/
theorem C14_past_rounds_never_timely_witness :
    Reachable NewMessageSchedule ∧ (2 : Round) < 3 ∧
    ∃ schedule1,
      NewMessageSchedule.MarkConsensusMessage [1, 2, 3, 4] 0 3 PrepareMsgType
        63900000000000000000 = some schedule1 ∧
      ∀ (later : List Op) (schedule2 : MessageSchedule),
        runOps later schedule1 = some schedule2 →
        ∀ (t1 : MessageType) (now : Time),
          schedule2.isConsensusMessageTimely [1, 2, 3, 4] 0 2 t1 now = false :=
  ⟨⟨[], rfl⟩, by decide,
    C14_past_rounds_never_timely NewMessageSchedule ⟨[], rfl⟩ [1, 2, 3, 4] 0 3 2
      PrepareMsgType 63900000000000000000 (by decide)⟩

/-- C15: for every schedule state, identifier and signer without a mark,
`isConsensusMessageTimely(id, s, round, msgType)` is true for every round `≥ 1`, every
message type and every clock reading. -/
theorem C15_first_contact_is_timely (schedule : MessageSchedule) (id : List Byte)
    (s : OperatorID) (round : Round) (msgType : MessageType) (now : Time)
    (hfresh : schedule.getMark (markID id) s = none) (_hr : 1 ≤ round) :
    schedule.isConsensusMessageTimely id s round msgType now = true := by
  unfold MessageSchedule.isConsensusMessageTimely
  simp [hfresh]

/-- Witness of C15: signer 7 has no mark in a schedule that holds marks of signers 0, 1, 2. -/
theorem C15_first_contact_is_timely_witness :
    (NewMessageSchedule.markDecidedMessage [1, 2, 3, 4] [0, 1, 2] 1
      63900000000000000000).getMark (markID [1, 2, 3, 4]) 7 = none ∧
    (1 : Round) ≤ 5 ∧
    (NewMessageSchedule.markDecidedMessage [1, 2, 3, 4] [0, 1, 2] 1
      63900000000000000000).isConsensusMessageTimely [1, 2, 3, 4] 7 5 RoundChangeMsgType
      63900000000000000001 = true :=
  ⟨by decide, by decide,
    C15_first_contact_is_timely _ [1, 2, 3, 4] 7 5 RoundChangeMsgType 63900000000000000001
      (by decide) (by decide)⟩

/-- C16: for every schedule state, every non-empty signer list none of whose signers has a
mark under `id`, every height and every clock reading,
`isTimelyDecidedMessage(id, signers, height)` is true. -/
theorem C16_first_decided_is_timely (schedule : MessageSchedule) (id : List Byte)
    (signers : List OperatorID) (height : Height) (now : Time)
    (hnone : ∀ s ∈ signers, schedule.getMark (markID id) s = none) (hne : signers ≠ []) :
    schedule.isTimelyDecidedMessage id signers height now = true := by
  unfold MessageSchedule.isTimelyDecidedMessage
  rw [isTimelyDecidedLoop_eq]
  have hfind : signers.find?
      (fun signer => loopReturnsAt (schedule.getMark (markID id) signer) height) = none := by
    apply List.find?_eq_none.mpr
    intro x hx
    rw [hnone x hx]
    simp [loopReturnsAt]
  rw [hfind]
  cases signers with
  | nil => exact absurd rfl hne
  | cons a rest => simp

/-- Witness of C16: the first assertion of `TestMessageSchedule_MarkDecidedMessage`. -/
theorem C16_first_decided_is_timely_witness :
    (∀ s ∈ ([0, 1, 2] : List OperatorID),
      NewMessageSchedule.getMark (markID [1, 2, 3, 4]) s = none) ∧
    ([0, 1, 2] : List OperatorID) ≠ [] ∧
    NewMessageSchedule.isTimelyDecidedMessage [1, 2, 3, 4] [0, 1, 2] 1 63900000000000000000
      = true :=
  ⟨by decide, by decide,
    C16_first_decided_is_timely NewMessageSchedule [1, 2, 3, 4] [0, 1, 2] 1
      63900000000000000000 (by decide) (by decide)⟩

/-! ## Verdicts of the pipeline: claims C17 to C20 -/

theorem ValidateSSVMsg_decided_path (c : Collaborators) (msg : SSVMessage) (share : SSVShare)
    (commit : SignedMessage) (schedule : MessageSchedule) (now : Time)
    (h : ReachesDecidedPath c msg share commit) :
    ValidateSSVMsg c msg schedule now = validateDecideMessage c commit schedule share now := by
  obtain ⟨h1, h2, h3, h4, h5, h6⟩ := h
  have h5a : ¬ commit.Signers.length > share.Committee.length := not_lt.mpr h5
  simp [ValidateSSVMsg, h1, h2, h3, validateConsesnsusMsg, h4, h5a, h6]

theorem isTimelyDecidedMessage_first_signer (schedule : MessageSchedule) (id : List Byte)
    (signers : List OperatorID) (height : Height) (now : Time) (hnn : 0 ≤ height)
    (h : schedule.isTimelyDecidedMessage id signers height now = true) :
    ∃ s rest, signers = s :: rest ∧
      ((schedule.getMark (markID id) s).getD mark.zero).HighestDecided ≤ height := by
  unfold MessageSchedule.isTimelyDecidedMessage at h
  cases signers with
  | nil => simp [MessageSchedule.isTimelyDecidedLoop] at h
  | cons s rest =>
    refine ⟨s, rest, rfl, ?_⟩
    cases hg : schedule.getMark (markID id) s with
    | none => simpa [mark.zero] using hnn
    | some m =>
      unfold MessageSchedule.isTimelyDecidedLoop at h
      rw [hg] at h
      simp only at h
      by_cases hgt : m.HighestDecided > height
      · simp [hgt] at h
      · simpa using not_lt.mp hgt

theorem validateDecideMessage_accept (c : Collaborators) (commit : SignedMessage)
    (schedule schedule1 : MessageSchedule) (share : SSVShare) (now : Time)
    (h : validateDecideMessage c commit schedule share now =
      some (ValidationResult.ValidationAccept, schedule1)) :
    schedule.isTimelyDecidedMsg commit now = true ∧
      schedule1 = schedule.markDecidedMsg commit now := by
  unfold validateDecideMessage at h
  split_ifs at h with h1 h2 h3 h4 <;> simp only [Option.some.injEq, Prod.mk.injEq] at h
  · exact absurd h.1 (by decide)
  · exact absurd h.1 (by decide)
  · exact absurd h.1 (by decide)
  · exact absurd h.1 (by decide)
  · exact ⟨by simpa using h2, h.2.symm⟩

/-- C17: for every schedule state, if the pipeline returns Accept for a decided commit for
`id` at a height `h ≥ 0` with signer list `S1`, then in the state it leaves a decided
commit for `id` at the same height with strictly fewer signers gets verdict Ignore (and
leaves the schedule as it is), whatever the clock reads and whatever the collaborators of
the second run, the signature verifier among them, answer. -/
theorem C17_better_commit_supersedes (c1 c2 : Collaborators) (msg1 msg2 : SSVMessage)
    (share1 share2 : SSVShare) (commit1 commit2 : SignedMessage)
    (schedule schedule1 : MessageSchedule) (now1 now2 : Time)
    (hpath1 : ReachesDecidedPath c1 msg1 share1 commit1)
    (hacc : ValidateSSVMsg c1 msg1 schedule now1 =
      some (ValidationResult.ValidationAccept, schedule1))
    (hpath2 : ReachesDecidedPath c2 msg2 share2 commit2)
    (hid : commit2.Message.Identifier = commit1.Message.Identifier)
    (hh : commit2.Message.Height = commit1.Message.Height)
    (hlen : commit2.Signers.length < commit1.Signers.length)
    (hnn : 0 ≤ commit1.Message.Height) :
    ValidateSSVMsg c2 msg2 schedule1 now2 =
      some (ValidationResult.ValidationIgnore, schedule1) := by
  rw [ValidateSSVMsg_decided_path c1 msg1 share1 commit1 schedule now1 hpath1] at hacc
  obtain ⟨htimely, hs1⟩ := validateDecideMessage_accept c1 commit1 schedule schedule1 share1
    now1 hacc
  obtain ⟨s, rest, hS, hle⟩ := isTimelyDecidedMessage_first_signer schedule
    commit1.Message.Identifier commit1.Signers commit1.Message.Height now1 hnn htimely
  obtain ⟨m1, hm1, hq⟩ := markDecided_foldl_mem_from
    (fun o => (o.getD mark.zero).HighestDecided ≤ commit1.Message.Height)
    (fun m => m.HighestDecided = commit1.Message.Height ∧
      (commit1.Signers.length : Int) ≤ m.numOfSignatures)
    commit1.Message.Identifier commit1.Signers commit1.Message.Height now1
    (fun o ho => updateDecidedMark_covers _ _ _ _ ho)
    (fun m hm => updateDecidedMark_covers m _ _ _ (le_of_eq hm.1))
    s commit1.Signers schedule hle (by rw [hS]; exact List.mem_cons_self _ _)
  have hbetter : schedule1.hasBetterMsg commit2 = true := by
    unfold MessageSchedule.hasBetterMsg
    rw [hs1, hid, hh]
    refine (hasBetterMsgAt_iff _ _ _ _).mpr
      ⟨(s, m1), getMark_mem_signerMap _ _ _ _ hm1, hq.1, ?_⟩
    have h3 : (commit2.Signers.length : Int) < (commit1.Signers.length : Int) := by
      exact_mod_cast hlen
    exact lt_of_lt_of_le h3 hq.2
  rw [ValidateSSVMsg_decided_path c2 msg2 share2 commit2 schedule1 now2 hpath2]
  unfold validateDecideMessage
  simp [hbetter]

/-- Witness of C17: the fifth scenario of the specification with the example collaborators:
a commit at height 5 with signers `[1, 2, 3, 4]` is accepted on the empty schedule, and a
commit at height 5 with signers `[1, 2, 3]` is then ignored. -/
theorem C17_better_commit_supersedes_witness :
    ReachesDecidedPath exampleCollaborators
      { MsgType := SSVConsensusMsgType, MsgID := [1, 2, 3, 4], Data := [2, 5, 1, 1, 2, 3, 4] }
      { Committee := [1, 2, 3, 4], Quorum := 3, DomainType := [] }
      { Signature := [], Signers := [1, 2, 3, 4],
        Message := { MsgType := CommitMsgType, Height := 5, Round := 1,
                     Identifier := [1, 2, 3, 4], Data := [] } } ∧
    ReachesDecidedPath exampleCollaborators
      { MsgType := SSVConsensusMsgType, MsgID := [1, 2, 3, 4], Data := [2, 5, 1, 1, 2, 3] }
      { Committee := [1, 2, 3, 4], Quorum := 3, DomainType := [] }
      { Signature := [], Signers := [1, 2, 3],
        Message := { MsgType := CommitMsgType, Height := 5, Round := 1,
                     Identifier := [1, 2, 3, 4], Data := [] } } ∧
    ∃ schedule1 : MessageSchedule,
      ValidateSSVMsg exampleCollaborators
        { MsgType := SSVConsensusMsgType, MsgID := [1, 2, 3, 4], Data := [2, 5, 1, 1, 2, 3, 4] }
        NewMessageSchedule 63900000000000000000 =
        some (ValidationResult.ValidationAccept, schedule1) ∧
      ValidateSSVMsg exampleCollaborators
        { MsgType := SSVConsensusMsgType, MsgID := [1, 2, 3, 4], Data := [2, 5, 1, 1, 2, 3] }
        schedule1 63900000009000000000 =
        some (ValidationResult.ValidationIgnore, schedule1) :=
  ⟨⟨rfl, rfl, rfl, rfl, by decide, rfl⟩, ⟨rfl, rfl, rfl, rfl, by decide, rfl⟩,
    _, rfl,
    C17_better_commit_supersedes exampleCollaborators exampleCollaborators
      { MsgType := SSVConsensusMsgType, MsgID := [1, 2, 3, 4], Data := [2, 5, 1, 1, 2, 3, 4] }
      { MsgType := SSVConsensusMsgType, MsgID := [1, 2, 3, 4], Data := [2, 5, 1, 1, 2, 3] }
      { Committee := [1, 2, 3, 4], Quorum := 3, DomainType := [] }
      { Committee := [1, 2, 3, 4], Quorum := 3, DomainType := [] }
      { Signature := [], Signers := [1, 2, 3, 4],
        Message := { MsgType := CommitMsgType, Height := 5, Round := 1,
                     Identifier := [1, 2, 3, 4], Data := [] } }
      { Signature := [], Signers := [1, 2, 3],
        Message := { MsgType := CommitMsgType, Height := 5, Round := 1,
                     Identifier := [1, 2, 3, 4], Data := [] } }
      NewMessageSchedule _ 63900000000000000000 63900000009000000000
      ⟨rfl, rfl, rfl, rfl, by decide, rfl⟩ rfl ⟨rfl, rfl, rfl, rfl, by decide, rfl⟩
      rfl rfl (by decide) (by decide)⟩

theorem validateUnDecidedMsg_not_ignore (c : Collaborators) (schedule schedule1 : MessageSchedule)
    (signedMsg : SignedMessage) (share : SSVShare) (now : Time) :
    validateUnDecidedMsg c schedule signedMsg share now ≠
      some (ValidationResult.ValidationIgnore, schedule1) := by
  intro h
  unfold validateUnDecidedMsg at h
  split at h
  · exact absurd h (by simp)
  · simp only [Option.some.injEq, Prod.mk.injEq] at h
    exact absurd h.1 (by decide)
  · split at h
    · simp only [Option.some.injEq, Prod.mk.injEq] at h
      exact absurd h.1 (by decide)
    · split at h
      · exact absurd h (by simp)
      · split at h
        · exact absurd h (by simp)
        · simp only [Option.some.injEq, Prod.mk.injEq] at h
          exact absurd h.1 (by decide)

theorem validateDecideMessage_ignore_iff (c : Collaborators) (commit : SignedMessage)
    (schedule schedule1 : MessageSchedule) (share : SSVShare) (now : Time) :
    validateDecideMessage c commit schedule share now =
        some (ValidationResult.ValidationIgnore, schedule1) ↔
      schedule.hasBetterMsg commit = true ∧ schedule1 = schedule := by
  unfold validateDecideMessage
  constructor
  · intro h
    split_ifs at h with h1 h2 h3 h4 <;> simp only [Option.some.injEq, Prod.mk.injEq] at h
    · exact ⟨h1, h.2.symm⟩
    · exact absurd h.1 (by decide)
    · exact absurd h.1 (by decide)
    · exact absurd h.1 (by decide)
    · exact absurd h.1 (by decide)
  · rintro ⟨h1, h2⟩
    simp [h1, h2]

theorem ValidateSSVMsg_ignore_iff (c : Collaborators) (msg : SSVMessage)
    (schedule schedule1 : MessageSchedule) (now : Time) :
    ValidateSSVMsg c msg schedule now = some (ValidationResult.ValidationIgnore, schedule1) ↔
      schedule1 = schedule ∧
        ∃ share commit, ReachesDecidedPath c msg share commit ∧
          schedule.hasBetterMsg commit = true := by
  constructor
  · intro h
    unfold ValidateSSVMsg at h
    split_ifs at h with hcons
    · split at h
      · simp only [Option.some.injEq, Prod.mk.injEq] at h
        exact absurd h.1 (by decide)
      · simp only [Option.some.injEq, Prod.mk.injEq] at h
        exact absurd h.1 (by decide)
      · rename_i share hshare
        split at h
        · simp only [Option.some.injEq, Prod.mk.injEq] at h
          exact absurd h.1 (by decide)
        · rename_i commit hdec
          unfold validateConsesnsusMsg at h
          split_ifs at h with hval hcount hdecided
          · simp only [Option.some.injEq, Prod.mk.injEq] at h
            exact absurd h.1 (by decide)
          · simp only [Option.some.injEq, Prod.mk.injEq] at h
            exact absurd h.1 (by decide)
          · obtain ⟨hb, hs⟩ := (validateDecideMessage_ignore_iff c commit schedule schedule1
              share now).mp h
            exact ⟨hs, share, commit,
              ⟨hcons, hshare, hdec, by simpa using hval, not_lt.mp hcount, hdecided⟩, hb⟩
          · exact absurd h (validateUnDecidedMsg_not_ignore c schedule schedule1 commit share now)
    · simp only [Option.some.injEq, Prod.mk.injEq] at h
      exact absurd h.1 (by decide)
  · rintro ⟨hs, share, commit, hpath, hb⟩
    rw [ValidateSSVMsg_decided_path c msg share commit schedule now hpath]
    exact (validateDecideMessage_ignore_iff c commit schedule schedule1 share now).mpr ⟨hb, hs⟩

/-- C18: for every message, schedule state, clock reading and behaviour of the
collaborators, `ValidateSSVMsg` returns Ignore if and only if the message is a consensus
message that passed the share lookup, the signed-message decode, the syntactic check and the
signer-count bound, is classified as decided, and `hasBetterMsg` holds for it; every other
verdict that is not Accept is Reject. -/
theorem C18_ignore_only_for_better_commit (c : Collaborators) (msg : SSVMessage)
    (schedule : MessageSchedule) (now : Time) :
    ((∃ schedule1, ValidateSSVMsg c msg schedule now =
        some (ValidationResult.ValidationIgnore, schedule1)) ↔
      ∃ share commit, ReachesDecidedPath c msg share commit ∧
        schedule.hasBetterMsg commit = true) ∧
    (∀ v schedule1, ValidateSSVMsg c msg schedule now = some (v, schedule1) →
      v ≠ ValidationResult.ValidationAccept →
      (¬ ∃ share commit, ReachesDecidedPath c msg share commit ∧
        schedule.hasBetterMsg commit = true) →
      v = ValidationResult.ValidationReject) := by
  constructor
  · constructor
    · rintro ⟨schedule1, h⟩
      exact ((ValidateSSVMsg_ignore_iff c msg schedule schedule1 now).mp h).2
    · intro h
      exact ⟨schedule, (ValidateSSVMsg_ignore_iff c msg schedule schedule now).mpr ⟨rfl, h⟩⟩
  · intro v schedule1 h hv hnot
    cases v with
    | ValidationAccept => exact absurd rfl hv
    | ValidationReject => rfl
    | ValidationIgnore =>
      exact absurd ((ValidateSSVMsg_ignore_iff c msg schedule schedule1 now).mp h).2 hnot

/-- Witness of C18: with the example collaborators, after a commit with four signers at
height 5, a commit with three signers at height 5 reaches the decided path with
`hasBetterMsg` true, and the pipeline returns Ignore for it. -/
theorem C18_ignore_only_for_better_commit_witness :
    ∃ schedule1, ValidateSSVMsg exampleCollaborators
      { MsgType := SSVConsensusMsgType, MsgID := [1, 2, 3, 4], Data := [2, 5, 1, 1, 2, 3] }
      (NewMessageSchedule.markDecidedMessage [1, 2, 3, 4] [1, 2, 3, 4] 5 63900000000000000000)
      63900000001000000000 = some (ValidationResult.ValidationIgnore, schedule1) :=
  (C18_ignore_only_for_better_commit exampleCollaborators
    { MsgType := SSVConsensusMsgType, MsgID := [1, 2, 3, 4], Data := [2, 5, 1, 1, 2, 3] }
    (NewMessageSchedule.markDecidedMessage [1, 2, 3, 4] [1, 2, 3, 4] 5 63900000000000000000)
    63900000001000000000).1.mpr
    ⟨{ Committee := [1, 2, 3, 4], Quorum := 3, DomainType := [] },
     { Signature := [], Signers := [1, 2, 3],
       Message := { MsgType := CommitMsgType, Height := 5, Round := 1,
                    Identifier := [1, 2, 3, 4], Data := [] } },
     ⟨rfl, rfl, rfl, rfl, by decide, rfl⟩, by decide⟩

theorem verdict_fixed_before_signature (c : Collaborators) (msg : SSVMessage)
    (schedule : MessageSchedule) (now : Time) (hcons : msg.MsgType = SSVConsensusMsgType)
    (hfail : failsCheapCheck c msg schedule now = true) :
    ∃ v, v ≠ ValidationResult.ValidationAccept ∧
      ∀ verify : SignedMessage → SSVShare → Bool,
        ValidateSSVMsg { c with VerifyByOperators := verify } msg schedule now =
          some (v, schedule) := by
  unfold failsCheapCheck at hfail
  unfold ValidateSSVMsg
  simp only [hcons, if_true]
  rcases hgs : c.GetShare msg.MsgID with ⟨o, b⟩
  cases o with
  | none =>
    cases b with
    | true => exact ⟨ValidationResult.ValidationReject, by decide, fun _ => rfl⟩
    | false => exact ⟨ValidationResult.ValidationReject, by decide, fun _ => rfl⟩
  | some share =>
    cases b with
    | true => exact ⟨ValidationResult.ValidationReject, by decide, fun _ => rfl⟩
    | false =>
      simp only [hgs] at hfail
      cases hd : c.Decode msg.Data with
      | none => exact ⟨ValidationResult.ValidationReject, by decide, fun _ => rfl⟩
      | some sm =>
        simp only [hd] at hfail
        unfold validateConsesnsusMsg
        by_cases hval : c.Validate sm = true
        · by_cases hcount : sm.Signers.length > share.Committee.length
          · exact ⟨ValidationResult.ValidationReject, by decide, fun _ => by simp [hval, hcount]⟩
          · by_cases hdec : c.IsDecidedMsg share sm = true
            · simp only [hval, hcount, hdec, Bool.not_true, decide_False, Bool.false_or,
                if_true, Bool.or_eq_true, Bool.not_eq_true'] at hfail
              unfold validateDecideMessage
              by_cases hb : schedule.hasBetterMsg sm = true
              · exact ⟨ValidationResult.ValidationIgnore, by decide,
                  fun _ => by simp [hval, hcount, hdec, hb]⟩
              · by_cases ht : schedule.isTimelyDecidedMsg sm now = true
                · have hsyn : c.ValidateDecidedSyntactically sm share = false := by
                    rcases hfail with (h | h) | h
                    · exact absurd h hb
                    · rw [ht] at h; exact absurd h (by decide)
                    · exact h
                  exact ⟨ValidationResult.ValidationReject, by decide,
                    fun _ => by simp [hval, hcount, hdec, hb, ht, hsyn]⟩
                · exact ⟨ValidationResult.ValidationReject, by decide,
                    fun _ => by simp [hval, hcount, hdec, hb, ht]⟩
            · have hdec1 : c.IsDecidedMsg share sm = false := by simpa using hdec
              simp only [hval, hcount, hdec1, Bool.not_true, decide_False, Bool.false_or,
                Bool.false_eq_true, if_false, decide_eq_true_eq] at hfail
              unfold validateUnDecidedMsg
              exact ⟨ValidationResult.ValidationReject, by decide,
                fun _ => by simp [hval, hcount, hdec1, hfail]⟩
        · exact ⟨ValidationResult.ValidationReject, by decide, fun _ => by simp [hval]⟩

/-- C19: for every consensus message and schedule state, if the message fails the share
lookup, the signed-message decode, the syntactic check, the signer-count bound or, on the
path the pipeline takes for it, the better-message check, the timeliness check or the
decided syntactic check, then two runs that differ only in the signature verifier return
the same verdict, which is not Accept, and both leave the schedule as it was. -/
theorem C19_cheap_checks_precede_signature (c : Collaborators)
    (verify1 verify2 : SignedMessage → SSVShare → Bool) (msg : SSVMessage)
    (schedule : MessageSchedule) (now : Time) (hcons : msg.MsgType = SSVConsensusMsgType)
    (hfail : failsCheapCheck c msg schedule now = true) :
    ∃ v, v ≠ ValidationResult.ValidationAccept ∧
      ValidateSSVMsg { c with VerifyByOperators := verify1 } msg schedule now =
        some (v, schedule) ∧
      ValidateSSVMsg { c with VerifyByOperators := verify2 } msg schedule now =
        some (v, schedule) := by
  obtain ⟨v, hv, hall⟩ := verdict_fixed_before_signature c msg schedule now hcons hfail
  exact ⟨v, hv, hall verify1, hall verify2⟩

/-- Witness of C19: with the example collaborators and a schedule in which signer 1 has sent
a Prepare of round 1, the same Prepare fails the timeliness check; it is rejected both with
a verifier that accepts every signature and with one that rejects every signature. -/
theorem C19_cheap_checks_precede_signature_witness :
    failsCheapCheck exampleCollaborators
      { MsgType := SSVConsensusMsgType, MsgID := [1, 2, 3, 4], Data := [1, 0, 1, 1] }
      (MessageSchedule.mk [("01020304", [(1,
        { HighestRound := 1, FirstMsgInRound := 63900000000000000000,
          MsgTypesInRound := some [PrepareMsgType], HighestDecided := 0,
          Last2DecidedTimes := (zeroTime, zeroTime), MarkedDecided := 0,
          numOfSignatures := 0 })])])
      63900000001000000000 = true ∧
    ∃ v, v ≠ ValidationResult.ValidationAccept ∧
      ValidateSSVMsg { exampleCollaborators with VerifyByOperators := fun _ _ => true }
        { MsgType := SSVConsensusMsgType, MsgID := [1, 2, 3, 4], Data := [1, 0, 1, 1] }
        (MessageSchedule.mk [("01020304", [(1,
          { HighestRound := 1, FirstMsgInRound := 63900000000000000000,
            MsgTypesInRound := some [PrepareMsgType], HighestDecided := 0,
            Last2DecidedTimes := (zeroTime, zeroTime), MarkedDecided := 0,
            numOfSignatures := 0 })])])
        63900000001000000000 =
        some (v, MessageSchedule.mk [("01020304", [(1,
          { HighestRound := 1, FirstMsgInRound := 63900000000000000000,
            MsgTypesInRound := some [PrepareMsgType], HighestDecided := 0,
            Last2DecidedTimes := (zeroTime, zeroTime), MarkedDecided := 0,
            numOfSignatures := 0 })])]) ∧
      ValidateSSVMsg { exampleCollaborators with VerifyByOperators := fun _ _ => false }
        { MsgType := SSVConsensusMsgType, MsgID := [1, 2, 3, 4], Data := [1, 0, 1, 1] }
        (MessageSchedule.mk [("01020304", [(1,
          { HighestRound := 1, FirstMsgInRound := 63900000000000000000,
            MsgTypesInRound := some [PrepareMsgType], HighestDecided := 0,
            Last2DecidedTimes := (zeroTime, zeroTime), MarkedDecided := 0,
            numOfSignatures := 0 })])])
        63900000001000000000 =
        some (v, MessageSchedule.mk [("01020304", [(1,
          { HighestRound := 1, FirstMsgInRound := 63900000000000000000,
            MsgTypesInRound := some [PrepareMsgType], HighestDecided := 0,
            Last2DecidedTimes := (zeroTime, zeroTime), MarkedDecided := 0,
            numOfSignatures := 0 })])]) :=
  ⟨by decide,
    C19_cheap_checks_precede_signature exampleCollaborators (fun _ _ => true)
      (fun _ _ => false)
      { MsgType := SSVConsensusMsgType, MsgID := [1, 2, 3, 4], Data := [1, 0, 1, 1] }
      (MessageSchedule.mk [("01020304", [(1,
        { HighestRound := 1, FirstMsgInRound := 63900000000000000000,
          MsgTypesInRound := some [PrepareMsgType], HighestDecided := 0,
          Last2DecidedTimes := (zeroTime, zeroTime), MarkedDecided := 0,
          numOfSignatures := 0 })])])
      63900000001000000000 rfl (by decide)⟩

/-- C20: for every envelope whose outer message type is not the Consensus type,
`ValidateSSVMsg` returns Accept and leaves the schedule unchanged, whatever the share store
and the other collaborators answer, whatever the payload bytes and whatever the schedule
state and the clock. -/
theorem C20_other_message_types_accepted (c : Collaborators) (msg : SSVMessage)
    (schedule : MessageSchedule) (now : Time) (h : msg.MsgType ≠ SSVConsensusMsgType) :
    ValidateSSVMsg c msg schedule now = some (ValidationResult.ValidationAccept, schedule) := by
  unfold ValidateSSVMsg
  simp [h]

/-- Witness of C20: a partial-signature message with an empty payload, on a schedule that
holds marks. -/
theorem C20_other_message_types_accepted_witness :
    SSVPartialSignatureMsgType ≠ SSVConsensusMsgType ∧
    ValidateSSVMsg exampleCollaborators
      { MsgType := SSVPartialSignatureMsgType, MsgID := [9, 9], Data := [] }
      (NewMessageSchedule.markDecidedMessage [1, 2, 3, 4] [0, 1, 2] 1 63900000000000000000)
      63900000001000000000 =
      some (ValidationResult.ValidationAccept,
        NewMessageSchedule.markDecidedMessage [1, 2, 3, 4] [0, 1, 2] 1 63900000000000000000) :=
  ⟨by decide,
    C20_other_message_types_accepted exampleCollaborators
      { MsgType := SSVPartialSignatureMsgType, MsgID := [9, 9], Data := [] }
      (NewMessageSchedule.markDecidedMessage [1, 2, 3, 4] [0, 1, 2] 1 63900000000000000000)
      63900000001000000000 (by decide)⟩

/-! ## Marks under decided updates: claims C21, C23, C24 and C27 -/

/-- C21: for every mark with `HighestDecided > height`, every signer list and every clock
reading, `updateDecidedMark(height, signers)` returns the mark as it was: `HighestDecided`,
`MarkedDecided`, `Last2DecidedTimes`, `numOfSignatures` and the round fields are unchanged. -/
theorem C21_stale_decided_update_is_noop (m : mark) (height : Height)
    (signers : List OperatorID) (now : Time) (h : m.HighestDecided > height) :
    m.updateDecidedMark height signers now = m ∧
      (m.updateDecidedMark height signers now).HighestDecided = m.HighestDecided ∧
      (m.updateDecidedMark height signers now).MarkedDecided = m.MarkedDecided ∧
      (m.updateDecidedMark height signers now).Last2DecidedTimes = m.Last2DecidedTimes ∧
      (m.updateDecidedMark height signers now).numOfSignatures = m.numOfSignatures := by
  have he := updateDecidedMark_stale m height signers now h
  rw [he]
  exact ⟨rfl, rfl, rfl, rfl, rfl⟩

/-- Witness of C21: a mark at height 5 with count 2 and three signatures, updated at height 3
with five signers. -/
theorem C21_stale_decided_update_is_noop_witness :
    (5 : Height) > 3 ∧
    (({ HighestRound := 1, FirstMsgInRound := 63900000000000000000,
        MsgTypesInRound := some [PrepareMsgType], HighestDecided := 5,
        Last2DecidedTimes := (63900000000000000000, zeroTime), MarkedDecided := 2,
        numOfSignatures := 3 } : mark).updateDecidedMark 3 [1, 2, 3, 4, 5]
        63900000009000000000 =
      { HighestRound := 1, FirstMsgInRound := 63900000000000000000,
        MsgTypesInRound := some [PrepareMsgType], HighestDecided := 5,
        Last2DecidedTimes := (63900000000000000000, zeroTime), MarkedDecided := 2,
        numOfSignatures := 3 }) :=
  ⟨by decide,
    (C21_stale_decided_update_is_noop
      { HighestRound := 1, FirstMsgInRound := 63900000000000000000,
        MsgTypesInRound := some [PrepareMsgType], HighestDecided := 5,
        Last2DecidedTimes := (63900000000000000000, zeroTime), MarkedDecided := 2,
        numOfSignatures := 3 } 3 [1, 2, 3, 4, 5] 63900000009000000000 (by decide)).1⟩

/-- C27: the key of the outer map is injective on identifiers: for all byte sequences `a`
and `b`, `markID(a) = markID(b)` if and only if `a = b`. -/
theorem C27_markID_injective (a b : List Byte) : markID a = markID b ↔ a = b :=
  ⟨markID_eq_imp a b, fun h => by rw [h]⟩

theorem updateDecidedMark_advance (m : mark) (height : Height) (signers : List OperatorID)
    (now : Time) (hlt : m.HighestDecided < height) :
    (m.updateDecidedMark height signers now).HighestDecided = height ∧
      (m.updateDecidedMark height signers now).MarkedDecided = 2 ∧
      (m.updateDecidedMark height signers now).Last2DecidedTimes =
        (now, m.Last2DecidedTimes.1) := by
  have h1 : ¬ m.HighestDecided > height := not_lt.mpr (le_of_lt hlt)
  unfold mark.updateDecidedMark mark.AddDecidedMark
  simp only [h1, hlt, if_true, if_false]
  split_ifs <;> exact ⟨rfl, rfl, rfl⟩

/-- C23: the times of decided messages carry over a height advance. On a schedule with no
marks for the identifier, after `markDecidedMessage(id, S, h1)` at time `T1` and
`markDecidedMessage(id, S, h2)` at time `T2 ≥ T1` with `1 ≤ h1 < h2` and a non-empty signer
set `S` (a list that names no signer twice), for every height `h3 ≥ h2` the check
`isTimelyDecidedMessage(id, S, h3)` at time `now` is true if and only if
`now - T1 ≥ DecidedBeatDuration`. -/
theorem C23_decided_times_carry_over_height_advance (schedule : MessageSchedule)
    (id : List Byte) (S : List OperatorID) (h1 h2 h3 : Height) (T1 T2 now : Time)
    (hnone : mapGet (markID id) schedule.Marks = none) (_hT : T1 ≤ T2) (hh1 : 1 ≤ h1)
    (hh : h1 < h2) (hS : S ≠ []) (hnd : S.Nodup) (hh3 : h2 ≤ h3) :
    (((schedule.markDecidedMessage id S h1 T1).markDecidedMessage id S h2 T2).isTimelyDecidedMessage
        id S h3 now = true ↔ now - T1 ≥ DecidedBeatDuration) := by
  cases S with
  | nil => exact absurd rfl hS
  | cons s rest =>
    have hg0 : schedule.getMark (markID id) s = none := by
      simp [MessageSchedule.getMark, hnone]
    have hm1 := markDecided_foldl_nodup id (s :: rest) h1 T1 s (s :: rest) schedule hnd
      (List.mem_cons_self _ _)
    rw [hg0] at hm1
    simp only [Option.getD_none] at hm1
    have hm2 := markDecided_foldl_nodup id (s :: rest) h2 T2 s (s :: rest)
      (schedule.markDecidedMessage id (s :: rest) h1 T1) hnd (List.mem_cons_self _ _)
    unfold MessageSchedule.markDecidedMessage at hm2 ⊢
    rw [hm1] at hm2
    simp only [Option.getD_some] at hm2
    have hz : (mark.zero).HighestDecided < h1 := by
      show (0 : Int) < h1
      exact lt_of_lt_of_le (by decide) hh1
    obtain ⟨a1, _, a3⟩ := updateDecidedMark_advance mark.zero h1 (s :: rest) T1 hz
    have hlt2 : ((mark.zero).updateDecidedMark h1 (s :: rest) T1).HighestDecided < h2 := by
      rw [a1]; exact hh
    obtain ⟨b1, b2, b3⟩ := updateDecidedMark_advance
      ((mark.zero).updateDecidedMark h1 (s :: rest) T1) h2 (s :: rest) T2 hlt2
    rw [a3] at b3
    unfold MessageSchedule.isTimelyDecidedMessage MessageSchedule.isTimelyDecidedLoop
    rw [hm2]
    have hgt : ¬ (((mark.zero).updateDecidedMark h1 (s :: rest) T1).updateDecidedMark h2
        (s :: rest) T2).HighestDecided > h3 := by
      rw [b1]; exact not_lt.mpr hh3
    have hthr : (((mark.zero).updateDecidedMark h1 (s :: rest) T1).updateDecidedMark h2
        (s :: rest) T2).MarkedDecided ≥ DecidedCountThreshold := by
      rw [b2]; decide
    simp only [hgt, hthr, if_false, if_true, mark.DurationFromLast2Decided, b3,
      decide_eq_true_eq]
    exact timeSub_ge_beat now T1

/-- Witness of C23: lines 29 to 38 of `TestMessageSchedule_MarkDecidedMessage`: marks at
heights 1 and 2 at the same instant `T`, and the check for height 3 two seconds later. -/
theorem C23_decided_times_carry_over_height_advance_witness :
    mapGet (markID [1, 2, 3, 4]) NewMessageSchedule.Marks = none ∧
    (63900000000000000000 : Time) ≤ 63900000000000000000 ∧ (1 : Height) ≤ 1 ∧
    (1 : Height) < 2 ∧ ([0, 1, 2] : List OperatorID) ≠ [] ∧
    ([0, 1, 2] : List OperatorID).Nodup ∧ (2 : Height) ≤ 3 ∧
    (((NewMessageSchedule.markDecidedMessage [1, 2, 3, 4] [0, 1, 2] 1
        63900000000000000000).markDecidedMessage [1, 2, 3, 4] [0, 1, 2] 2
        63900000000000000000).isTimelyDecidedMessage [1, 2, 3, 4] [0, 1, 2] 3
        63900000002000000000 = true ↔
      (63900000002000000000 : Time) - 63900000000000000000 ≥ DecidedBeatDuration) :=
  ⟨by decide, by decide, by decide, by decide, by decide, by decide, by decide,
    C23_decided_times_carry_over_height_advance NewMessageSchedule [1, 2, 3, 4] [0, 1, 2]
      1 2 3 63900000000000000000 63900000000000000000 63900000002000000000 (by decide)
      (by decide) (by decide) (by decide) (by decide) (by decide) (by decide)⟩

theorem consensusUpdate_decided_fields (m m1 : mark) (round : Round) (msgType : MessageType)
    (now : Time) (h : m.consensusUpdate round msgType now = some m1) :
    m1.HighestDecided = m.HighestDecided ∧ m1.Last2DecidedTimes = m.Last2DecidedTimes ∧
      m1.numOfSignatures = m.numOfSignatures := by
  unfold mark.consensusUpdate at h
  split at h
  · simp only [Option.some.injEq] at h
    subst h
    exact ⟨rfl, rfl, rfl⟩
  · split at h
    · exact absurd h (by simp)
    · simp only [Option.some.injEq] at h
      subst h
      exact ⟨rfl, rfl, rfl⟩

/-- C24: for every schedule operation that completes, every mark that existed before it
still exists and its `HighestDecided` is greater than or equal to its value before; and after
`markDecidedMessage(id, S, h)` every signer of `S` has a mark with `HighestDecided ≥ h`. -/
theorem C24_highest_decided_monotone (op : Op) (schedule schedule1 : MessageSchedule)
    (hop : Op.apply op schedule = some schedule1) :
    (∀ key signer m, schedule.getMark key signer = some m →
      ∃ m1, schedule1.getMark key signer = some m1 ∧
        m.HighestDecided ≤ m1.HighestDecided) ∧
    (∀ id S h T, op = Op.decided id S h T → ∀ s ∈ S,
      ∃ m, schedule1.getMark (markID id) s = some m ∧ h ≤ m.HighestDecided) := by
  constructor
  · intro key signer m hm
    cases op with
    | consensus id1 signer1 round1 msgType1 now1 =>
      obtain ⟨m1, hm1, hget⟩ :=
        getMark_MarkConsensusMessage schedule schedule1 id1 signer1 round1 msgType1 now1 hop
      rw [hget]
      by_cases hk : key = markID id1 ∧ signer = signer1
      · simp only [hk, and_self, if_true]
        rw [hk.1, hk.2] at hm
        rw [hm] at hm1
        exact ⟨m1, rfl, le_of_eq (consensusUpdate_decided_fields m m1 _ _ _ hm1).1.symm⟩
      · simp only [hk, if_false]
        exact ⟨m, hm, le_refl _⟩
    | decided id1 signers1 height1 now1 =>
      simp only [Op.apply, Option.some.injEq] at hop
      subst hop
      refine markDecidedMessage_preserves
        (fun o => ∃ m1, o = some m1 ∧ m.HighestDecided ≤ m1.HighestDecided)
        id1 signers1 height1 now1 ?_ key signer schedule ⟨m, hm, le_refl _⟩
      rintro o ⟨m0, hm0, hle⟩
      subst hm0
      exact ⟨_, rfl, le_trans hle
        (updateDecidedMark_HighestDecided_ge m0 height1 signers1 now1).2⟩
  · intro id S h T hdec s hs
    subst hdec
    simp only [Op.apply, Option.some.injEq] at hop
    subst hop
    exact markDecided_foldl_mem (fun m => h ≤ m.HighestDecided) id S h T
      (fun m => (updateDecidedMark_HighestDecided_ge m h S T).1) s S schedule hs

/-- Witness of C24: a mark at height 5, then `markDecidedMessage` at height 3 for signers
`[0, 1]`: signer 0 stays at height 5 and both signers are at or above height 3. -/
theorem C24_highest_decided_monotone_witness :
    (∀ key signer m,
      (NewMessageSchedule.markDecidedMessage [1, 2, 3, 4] [0] 5
        63900000000000000000).getMark key signer = some m →
      ∃ m1, ((NewMessageSchedule.markDecidedMessage [1, 2, 3, 4] [0] 5
          63900000000000000000).markDecidedMessage [1, 2, 3, 4] [0, 1] 3
          63900000001000000000).getMark key signer = some m1 ∧
        m.HighestDecided ≤ m1.HighestDecided) ∧
    (∀ s ∈ ([0, 1] : List OperatorID),
      ∃ m, ((NewMessageSchedule.markDecidedMessage [1, 2, 3, 4] [0] 5
          63900000000000000000).markDecidedMessage [1, 2, 3, 4] [0, 1] 3
          63900000001000000000).getMark (markID [1, 2, 3, 4]) s = some m ∧
        (3 : Height) ≤ m.HighestDecided) :=
  ⟨(C24_highest_decided_monotone (Op.decided [1, 2, 3, 4] [0, 1] 3 63900000001000000000)
      (NewMessageSchedule.markDecidedMessage [1, 2, 3, 4] [0] 5 63900000000000000000) _ rfl).1,
   (C24_highest_decided_monotone (Op.decided [1, 2, 3, 4] [0, 1] 3 63900000001000000000)
      (NewMessageSchedule.markDecidedMessage [1, 2, 3, 4] [0] 5 63900000000000000000) _ rfl).2
      [1, 2, 3, 4] [0, 1] 3 63900000001000000000 rfl⟩

/-! ## Invariants of reachable states: claims C25, C26 and C29 -/

theorem runOps_total (ops : List Op) :
    ∀ schedule : MessageSchedule, TypesAllocated schedule → RoundsPositive ops →
      ∃ schedule1, runOps ops schedule = some schedule1 ∧ TypesAllocated schedule1 := by
  induction ops with
  | nil => intro schedule h _; exact ⟨schedule, rfl, h⟩
  | cons op rest ih =>
    intro schedule h hpos
    have hrest : RoundsPositive rest := fun o ho => hpos o (List.mem_cons_of_mem _ ho)
    have hop := hpos op (List.mem_cons_self _ _)
    have hstep : ∃ s1, Op.apply op schedule = some s1 := by
      cases op with
      | consensus id signer round msgType now =>
        have hr : 1 ≤ round := by simpa [Op.roundPositive] using hop
        obtain ⟨m1, hm1⟩ := consensusUpdate_isSome_of_allocated schedule h (markID id) signer
          round msgType now hr
        exact MarkConsensusMessage_isSome schedule id signer round msgType now m1 hm1
      | decided id signers height now => exact ⟨_, rfl⟩
    obtain ⟨s1, hs1⟩ := hstep
    obtain ⟨s2, hs2, hall⟩ := ih s1 (typesAllocated_step op schedule s1 h hs1) hrest
    exact ⟨s2, by simp [runOps, hs1, hs2], hall⟩

/-- C29: when every round passed to `MarkConsensusMessage` is at least one, every call of a
run from the empty schedule completes, and in the state reached a further
`MarkConsensusMessage` with a round of at least one completes too: whenever it takes the
same-or-lower-round branch, the type set of the mark is allocated. -/
theorem C29_no_write_to_unallocated_type_set (ops : List Op) (hpos : RoundsPositive ops) :
    ∃ schedule, runOps ops NewMessageSchedule = some schedule ∧
      ∀ (id : List Byte) (s : OperatorID) (r : Round) (t : MessageType) (now : Time),
        1 ≤ r →
        (¬ ((schedule.getMark (markID id) s).getD mark.zero).HighestRound < r →
          ((schedule.getMark (markID id) s).getD mark.zero).MsgTypesInRound ≠ none) ∧
        ∃ schedule1, schedule.MarkConsensusMessage id s r t now = some schedule1 := by
  have h0 : TypesAllocated NewMessageSchedule := by
    intro id signer m hm
    simp [NewMessageSchedule, MessageSchedule.getMark, mapGet] at hm
  obtain ⟨schedule, hrun, hall⟩ := runOps_total ops NewMessageSchedule h0 hpos
  refine ⟨schedule, hrun, ?_⟩
  intro id s r t now hr
  obtain ⟨m1, hm1⟩ := consensusUpdate_isSome_of_allocated schedule hall (markID id) s r t now hr
  refine ⟨?_, MarkConsensusMessage_isSome schedule id s r t now m1 hm1⟩
  intro hnlt hnone
  unfold mark.consensusUpdate at hm1
  simp [hnlt, hnone] at hm1

/-- Witness of C29: signer 0 gets its mark from `markDecidedMessage`, with a nil type set,
and is then marked at round 2; a later call at round 1 takes the lower-round branch and
completes. -/
theorem C29_no_write_to_unallocated_type_set_witness :
    RoundsPositive [Op.decided [1, 2, 3, 4] [0, 1, 2] 1 63900000000000000000,
      Op.consensus [1, 2, 3, 4] 0 2 PrepareMsgType 63900000001000000000] ∧
    ∃ schedule,
      runOps [Op.decided [1, 2, 3, 4] [0, 1, 2] 1 63900000000000000000,
        Op.consensus [1, 2, 3, 4] 0 2 PrepareMsgType 63900000001000000000]
        NewMessageSchedule = some schedule ∧
      ∃ schedule1, schedule.MarkConsensusMessage [1, 2, 3, 4] 0 1 CommitMsgType
        63900000002000000000 = some schedule1 :=
  ⟨by unfold RoundsPositive; decide,
    (C29_no_write_to_unallocated_type_set
      [Op.decided [1, 2, 3, 4] [0, 1, 2] 1 63900000000000000000,
        Op.consensus [1, 2, 3, 4] 0 2 PrepareMsgType 63900000001000000000]
      (by unfold RoundsPositive; decide)).elim
      fun schedule hs =>
        ⟨schedule, hs.1,
          (hs.2 [1, 2, 3, 4] 0 1 CommitMsgType 63900000002000000000 (by decide)).2⟩⟩

theorem updateDecidedMark_times (m : mark) (height : Height) (signers : List OperatorID)
    (now : Time) (h : ¬ m.HighestDecided > height) :
    (m.updateDecidedMark height signers now).Last2DecidedTimes =
      (now, m.Last2DecidedTimes.1) := by
  unfold mark.updateDecidedMark mark.AddDecidedMark
  simp only [h, if_false]
  split_ifs <;> rfl

theorem timesOrdered_step (op : Op) (bound : Time) (s s1 : MessageSchedule)
    (hb : zeroTime ≤ bound) (hnow : bound ≤ op.now) (hs : TimesOrdered bound s)
    (h : Op.apply op s = some s1) : TimesOrdered op.now s1 := by
  have hz : zeroTime ≤ op.now := le_trans hb hnow
  cases op with
  | consensus id signer round msgType now =>
    obtain ⟨m1, hm1, hget⟩ := getMark_MarkConsensusMessage s s1 id signer round msgType now h
    intro id1 signer1 m hm
    rw [hget] at hm
    by_cases hk : id1 = markID id ∧ signer1 = signer
    · simp only [hk, and_self, if_true, Option.some.injEq] at hm
      subst hm
      rw [(consensusUpdate_decided_fields _ _ _ _ _ hm1).2.1]
      cases hg : s.getMark (markID id) signer with
      | none => exact ⟨le_refl _, hz⟩
      | some m0 =>
        have := hs _ _ m0 hg
        exact ⟨this.1, le_trans this.2 hnow⟩
    · simp only [hk, if_false] at hm
      have := hs id1 signer1 m hm
      exact ⟨this.1, le_trans this.2 hnow⟩
  | decided id signers height now =>
    simp only [Op.apply, Option.some.injEq] at h
    subst h
    intro id1 signer1
    have hnow1 : bound ≤ now := hnow
    have hz1 : zeroTime ≤ now := hz
    refine markDecidedMessage_preserves
      (fun o => ∀ m, o = some m →
        m.Last2DecidedTimes.2 ≤ m.Last2DecidedTimes.1 ∧ m.Last2DecidedTimes.1 ≤ now)
      id signers height now ?_ id1 signer1 s ?_
    · intro o ho m hm
      simp only [Option.some.injEq] at hm
      subst hm
      have hold : ((o.getD mark.zero).Last2DecidedTimes.2 ≤ (o.getD mark.zero).Last2DecidedTimes.1) ∧
          (o.getD mark.zero).Last2DecidedTimes.1 ≤ now := by
        cases o with
        | none => exact ⟨le_refl _, hz1⟩
        | some m0 => exact ho m0 rfl
      by_cases hst : (o.getD mark.zero).HighestDecided > height
      · rw [updateDecidedMark_stale _ _ _ _ hst]
        exact hold
      · rw [updateDecidedMark_times _ _ _ _ hst]
        exact ⟨hold.2, le_refl _⟩
    · intro m hm
      have := hs id1 signer1 m hm
      exact ⟨this.1, le_trans this.2 hnow1⟩

theorem timesOrdered_run (ops : List Op) :
    ∀ (bound : Time) (s s1 : MessageSchedule), zeroTime ≤ bound → TimesOrdered bound s →
      clockNonDecreasing bound ops = true →
      runOps ops s = some s1 → ∃ bound1, TimesOrdered bound1 s1 := by
  induction ops with
  | nil =>
    intro bound s s1 _ hs _ hrun
    simp only [runOps, Option.some.injEq] at hrun
    exact ⟨bound, hrun ▸ hs⟩
  | cons op rest ih =>
    intro bound s s1 hb hs hchain hrun
    simp only [clockNonDecreasing, Bool.and_eq_true, decide_eq_true_eq] at hchain
    simp only [runOps] at hrun
    cases hop : Op.apply op s with
    | none => simp [hop] at hrun
    | some s2 =>
      simp only [hop] at hrun
      exact ih op.now s2 s1 (le_trans hb hchain.1)
        (timesOrdered_step op bound s s2 hb hchain.1 hs hop) hchain.2 hrun

/-- C26: under a non-decreasing clock that never reads before the zero time, in every
schedule state reached from the empty schedule every mark has
`Last2DecidedTimes[0] ≥ Last2DecidedTimes[1]`; and after every `updateDecidedMark` that is
not stale, index 1 holds the previous value of index 0 and index 0 holds the time of the
update. -/
theorem C26_decided_times_ordered (ops : List Op) (schedule : MessageSchedule)
    (hclock : MonotoneClock ops) (hrun : runOps ops NewMessageSchedule = some schedule) :
    (∀ id signer m, schedule.getMark id signer = some m →
      m.Last2DecidedTimes.1 ≥ m.Last2DecidedTimes.2) ∧
    (∀ (m : mark) (height : Height) (signers : List OperatorID) (now : Time),
      ¬ m.HighestDecided > height →
      (m.updateDecidedMark height signers now).Last2DecidedTimes =
        (now, m.Last2DecidedTimes.1)) := by
  constructor
  · have h0 : TimesOrdered zeroTime NewMessageSchedule := by
      intro id signer m hm
      simp [NewMessageSchedule, MessageSchedule.getMark, mapGet] at hm
    obtain ⟨bound1, hb1⟩ := timesOrdered_run ops zeroTime NewMessageSchedule schedule
      (le_refl _) h0 hclock hrun
    intro id signer m hm
    exact (hb1 id signer m hm).1
  · intro m height signers now h
    exact updateDecidedMark_times m height signers now h

/-- Witness of C26: three `markDecidedMessage` calls at rising times, the last one stale for
signer 0. -/
theorem C26_decided_times_ordered_witness :
    MonotoneClock [Op.decided [1, 2, 3, 4] [0, 1, 2] 5 63900000000000000000,
      Op.decided [1, 2, 3, 4] [0, 1] 5 63900000001000000000,
      Op.decided [1, 2, 3, 4] [0, 3] 2 63900000004000000000] ∧
    ((NewMessageSchedule.markDecidedMessage [1, 2, 3, 4] [0, 1, 2] 5
        63900000000000000000).markDecidedMessage [1, 2, 3, 4] [0, 1] 5
        63900000001000000000).markDecidedMessage [1, 2, 3, 4] [0, 3] 2
        63900000004000000000 =
      (MessageSchedule.mk [("01020304",
        [(0, { HighestRound := 0, FirstMsgInRound := zeroTime, MsgTypesInRound := none,
               HighestDecided := 5,
               Last2DecidedTimes := (63900000001000000000, 63900000000000000000),
               MarkedDecided := 3, numOfSignatures := 3 }),
         (1, { HighestRound := 0, FirstMsgInRound := zeroTime, MsgTypesInRound := none,
               HighestDecided := 5,
               Last2DecidedTimes := (63900000001000000000, 63900000000000000000),
               MarkedDecided := 3, numOfSignatures := 3 }),
         (2, { HighestRound := 0, FirstMsgInRound := zeroTime, MsgTypesInRound := none,
               HighestDecided := 5,
               Last2DecidedTimes := (63900000000000000000, zeroTime),
               MarkedDecided := 2, numOfSignatures := 3 }),
         (3, { HighestRound := 0, FirstMsgInRound := zeroTime, MsgTypesInRound := none,
               HighestDecided := 2,
               Last2DecidedTimes := (63900000004000000000, zeroTime),
               MarkedDecided := 2, numOfSignatures := 2 })])]) ∧
    (∀ id signer m,
      (((NewMessageSchedule.markDecidedMessage [1, 2, 3, 4] [0, 1, 2] 5
        63900000000000000000).markDecidedMessage [1, 2, 3, 4] [0, 1] 5
        63900000001000000000).markDecidedMessage [1, 2, 3, 4] [0, 3] 2
        63900000004000000000).getMark id signer = some m →
      m.Last2DecidedTimes.1 ≥ m.Last2DecidedTimes.2) :=
  ⟨by unfold MonotoneClock; decide, by decide,
    (C26_decided_times_ordered
      [Op.decided [1, 2, 3, 4] [0, 1, 2] 5 63900000000000000000,
        Op.decided [1, 2, 3, 4] [0, 1] 5 63900000001000000000,
        Op.decided [1, 2, 3, 4] [0, 3] 2 63900000004000000000]
      _ (by unfold MonotoneClock; decide) rfl).1⟩

theorem openerRecorded_update (g : Option (Round × MessageType)) (o : Option mark)
    (height : Height) (signers : List OperatorID) (now : Time) (h : OpenerRecorded g o) :
    OpenerRecorded g (some ((o.getD mark.zero).updateDecidedMark height signers now)) := by
  cases g with
  | none =>
    intro m hm
    simp only [Option.some.injEq] at hm
    subst hm
    rw [updateDecidedMark_HighestRound]
    cases o with
    | none => rfl
    | some m0 => exact h m0 rfl
  | some p =>
    obtain ⟨r, t⟩ := p
    obtain ⟨m, types, hm, h1, h2, h3, h4⟩ := h
    subst hm
    exact ⟨_, types, rfl, by simpa using h1, h2, by simpa using h3, h4⟩

theorem openerRecorded_consensus (g : Option (Round × MessageType)) (o : Option mark)
    (m1 : mark) (r : Round) (t : MessageType) (now : Time) (h : OpenerRecorded g o)
    (hupd : (o.getD mark.zero).consensusUpdate r t now = some m1) :
    OpenerRecorded (if (g.map Prod.fst).getD 0 < r then some (r, t) else g) (some m1) := by
  cases g with
  | none =>
    have hz : (o.getD mark.zero).HighestRound = 0 := by
      cases o with
      | none => rfl
      | some m0 => exact h m0 rfl
    simp only [Option.map_none', Option.getD_none]
    unfold mark.consensusUpdate at hupd
    rw [hz] at hupd
    by_cases hlt : 0 < r
    · simp only [hlt, if_true, Option.some.injEq] at hupd ⊢
      subst hupd
      exact ⟨_, [t], rfl, rfl, hlt, rfl, by simp⟩
    · simp only [hlt, if_false] at hupd ⊢
      split at hupd
      · exact absurd hupd (by simp)
      · simp only [Option.some.injEq] at hupd
        subst hupd
        intro m hm
        simp only [Option.some.injEq] at hm
        subst hm
        rfl
  | some p =>
    obtain ⟨r0, t0⟩ := p
    obtain ⟨m, types, hm, h1, h2, h3, h4⟩ := h
    subst hm
    simp only [Option.map_some', Option.getD_some] at hupd ⊢
    unfold mark.consensusUpdate at hupd
    rw [h1] at hupd
    by_cases hlt : r0 < r
    · simp only [hlt, if_true, Option.some.injEq] at hupd ⊢
      subst hupd
      exact ⟨_, [t], rfl, rfl, le_trans h2 (le_of_lt hlt), rfl, by simp⟩
    · simp only [hlt, if_false, h3, Option.some.injEq] at hupd ⊢
      subst hupd
      exact ⟨_, types.insert t, rfl, rfl, h2, rfl, by simp [h4]⟩

theorem openerRecorded_run (key : String) (signer : OperatorID) (ops : List Op) :
    ∀ (s s1 : MessageSchedule) (g : Option (Round × MessageType)),
      OpenerRecorded g (s.getMark key signer) → runOps ops s = some s1 →
      OpenerRecorded (ops.foldl (openerStep key signer) g) (s1.getMark key signer) := by
  induction ops with
  | nil =>
    intro s s1 g hg hrun
    simp only [runOps, Option.some.injEq] at hrun
    subst hrun
    exact hg
  | cons op rest ih =>
    intro s s1 g hg hrun
    simp only [runOps] at hrun
    cases hop : Op.apply op s with
    | none => simp [hop] at hrun
    | some s2 =>
      simp only [hop] at hrun
      rw [List.foldl_cons]
      refine ih s2 s1 _ ?_ hrun
      cases op with
      | consensus id1 signer1 round1 msgType1 now1 =>
        obtain ⟨m1, hm1, hget⟩ :=
          getMark_MarkConsensusMessage s s2 id1 signer1 round1 msgType1 now1 hop
        rw [hget]
        by_cases hk : key = markID id1 ∧ signer = signer1
        · have hk1 : markID id1 = key ∧ signer1 = signer := ⟨hk.1.symm, hk.2.symm⟩
          have hstep : openerStep key signer g
              (Op.consensus id1 signer1 round1 msgType1 now1) =
              (if (g.map Prod.fst).getD 0 < round1 then some (round1, msgType1) else g) := by
            unfold openerStep
            exact if_pos hk1
          rw [hstep, if_pos hk]
          rw [hk.1, hk.2] at hg
          exact openerRecorded_consensus g _ m1 round1 msgType1 now1 hg hm1
        · have hk1 : ¬ (markID id1 = key ∧ signer1 = signer) :=
            fun h => hk ⟨h.1.symm, h.2.symm⟩
          have hstep : openerStep key signer g
              (Op.consensus id1 signer1 round1 msgType1 now1) = g := by
            unfold openerStep
            exact if_neg hk1
          rw [hstep, if_neg hk]
          exact hg
      | decided id1 signers1 height1 now1 =>
        simp only [Op.apply, Option.some.injEq] at hop
        subst hop
        simp only [openerStep]
        exact markDecidedMessage_preserves (OpenerRecorded g) id1 signers1 height1 now1
          (fun o ho => openerRecorded_update g o height1 signers1 now1 ho) key signer s hg

/-- C25: in every schedule state reached from the empty schedule by `MarkConsensusMessage`
and `markDecidedMessage` calls (in particular by calls with rounds `≥ 1`), every mark with
`HighestRound ≥ 1` has an allocated, non-empty set of message types, the round it is in is
the round that the calls opened last for its pair, and the set contains the type of the
message that opened that round. -/
theorem C25_types_in_round_contain_opener (ops : List Op) (schedule : MessageSchedule)
    (hrun : runOps ops NewMessageSchedule = some schedule) (key : String) (signer : OperatorID)
    (m : mark) (hm : schedule.getMark key signer = some m) (hr : 1 ≤ m.HighestRound) :
    ∃ types t, m.MsgTypesInRound = some types ∧ types ≠ [] ∧
      roundOpener ops key signer = some (m.HighestRound, t) ∧ t ∈ types := by
  have h0 : OpenerRecorded none (NewMessageSchedule.getMark key signer) := by
    intro m0 hm0
    simp [NewMessageSchedule, MessageSchedule.getMark, mapGet] at hm0
  have h1 := openerRecorded_run key signer ops NewMessageSchedule schedule none h0 hrun
  unfold roundOpener
  cases hg : ops.foldl (openerStep key signer) none with
  | none =>
    rw [hg] at h1
    have h2 := h1 m hm
    rw [h2] at hr
    exact absurd hr (by decide)
  | some p =>
    obtain ⟨r, t⟩ := p
    rw [hg] at h1
    obtain ⟨m2, types, hm2, k1, _, k3, k4⟩ := h1
    rw [hm] at hm2
    simp only [Option.some.injEq] at hm2
    subst hm2
    refine ⟨types, t, k3, ?_, by rw [k1], k4⟩
    intro he
    rw [he] at k4
    exact absurd k4 (List.not_mem_nil _)

/-- Witness of C25: signer 0 gets its mark from `markDecidedMessage`, sends a Prepare and a
Commit in round 1, opens round 2 with a RoundChange and then sends a Proposal in round 2 and
a stale Commit of round 1: the type set of round 2 contains the RoundChange. -/
theorem C25_types_in_round_contain_opener_witness :
    runOps [Op.decided [1, 2, 3, 4] [0, 1, 2] 1 63900000000000000000,
        Op.consensus [1, 2, 3, 4] 0 1 PrepareMsgType 63900000001000000000,
        Op.consensus [1, 2, 3, 4] 0 1 CommitMsgType 63900000002000000000,
        Op.consensus [1, 2, 3, 4] 0 2 RoundChangeMsgType 63900000004000000000,
        Op.consensus [1, 2, 3, 4] 0 2 ProposalMsgType 63900000005000000000]
      NewMessageSchedule =
      some (MessageSchedule.mk [("01020304",
        [(0, { HighestRound := 2, FirstMsgInRound := 63900000004000000000,
               MsgTypesInRound := some [ProposalMsgType, RoundChangeMsgType],
               HighestDecided := 1,
               Last2DecidedTimes := (63900000000000000000, zeroTime),
               MarkedDecided := 2, numOfSignatures := 3 }),
         (1, { HighestRound := 0, FirstMsgInRound := zeroTime, MsgTypesInRound := none,
               HighestDecided := 1,
               Last2DecidedTimes := (63900000000000000000, zeroTime),
               MarkedDecided := 2, numOfSignatures := 3 }),
         (2, { HighestRound := 0, FirstMsgInRound := zeroTime, MsgTypesInRound := none,
               HighestDecided := 1,
               Last2DecidedTimes := (63900000000000000000, zeroTime),
               MarkedDecided := 2, numOfSignatures := 3 })])]) ∧
    ∃ types t, some [ProposalMsgType, RoundChangeMsgType] = some types ∧ types ≠ [] ∧
      roundOpener [Op.decided [1, 2, 3, 4] [0, 1, 2] 1 63900000000000000000,
        Op.consensus [1, 2, 3, 4] 0 1 PrepareMsgType 63900000001000000000,
        Op.consensus [1, 2, 3, 4] 0 1 CommitMsgType 63900000002000000000,
        Op.consensus [1, 2, 3, 4] 0 2 RoundChangeMsgType 63900000004000000000,
        Op.consensus [1, 2, 3, 4] 0 2 ProposalMsgType 63900000005000000000]
        "01020304" 0 = some (2, t) ∧ t ∈ types :=
  ⟨by decide,
    C25_types_in_round_contain_opener
      [Op.decided [1, 2, 3, 4] [0, 1, 2] 1 63900000000000000000,
        Op.consensus [1, 2, 3, 4] 0 1 PrepareMsgType 63900000001000000000,
        Op.consensus [1, 2, 3, 4] 0 1 CommitMsgType 63900000002000000000,
        Op.consensus [1, 2, 3, 4] 0 2 RoundChangeMsgType 63900000004000000000,
        Op.consensus [1, 2, 3, 4] 0 2 ProposalMsgType 63900000005000000000]
      (MessageSchedule.mk [("01020304",
        [(0, { HighestRound := 2, FirstMsgInRound := 63900000004000000000,
               MsgTypesInRound := some [ProposalMsgType, RoundChangeMsgType],
               HighestDecided := 1,
               Last2DecidedTimes := (63900000000000000000, zeroTime),
               MarkedDecided := 2, numOfSignatures := 3 }),
         (1, { HighestRound := 0, FirstMsgInRound := zeroTime, MsgTypesInRound := none,
               HighestDecided := 1,
               Last2DecidedTimes := (63900000000000000000, zeroTime),
               MarkedDecided := 2, numOfSignatures := 3 }),
         (2, { HighestRound := 0, FirstMsgInRound := zeroTime, MsgTypesInRound := none,
               HighestDecided := 1,
               Last2DecidedTimes := (63900000000000000000, zeroTime),
               MarkedDecided := 2, numOfSignatures := 3 })])])
      (by decide) "01020304" 0
      { HighestRound := 2, FirstMsgInRound := 63900000004000000000,
        MsgTypesInRound := some [ProposalMsgType, RoundChangeMsgType],
        HighestDecided := 1,
        Last2DecidedTimes := (63900000000000000000, zeroTime),
        MarkedDecided := 2, numOfSignatures := 3 }
      (by decide) (by decide)⟩

/-! ## Marks that a call does not address: claim C28 -/

theorem signerMap_setMark_ne (schedule : MessageSchedule) (id : String) (signer : OperatorID)
    (m : mark) (id1 : String) (hne : id1 ≠ id) :
    (schedule.setMark id signer m).signerMap id1 = schedule.signerMap id1 := by
  unfold MessageSchedule.setMark MessageSchedule.signerMap
  cases hg : mapGet id schedule.Marks <;> simp [mapGet_mapSet_ne _ _ _ _ hne]

theorem signerMap_MarkConsensusMessage_ne (schedule schedule1 : MessageSchedule)
    (id : List Byte) (signer : OperatorID) (round : Round) (msgType : MessageType) (now : Time)
    (id1 : String) (hne : id1 ≠ markID id)
    (h : schedule.MarkConsensusMessage id signer round msgType now = some schedule1) :
    schedule1.signerMap id1 = schedule.signerMap id1 := by
  unfold MessageSchedule.MarkConsensusMessage at h
  simp only at h
  split at h
  · simp only [Option.some.injEq] at h
    subst h
    rw [signerMap_setMark_ne _ _ _ _ _ hne]
    split
    · rfl
    · rw [signerMap_setMark_ne _ _ _ _ _ hne]
  · split at h
    · exact absurd h (by simp)
    · simp only [Option.some.injEq] at h
      subst h
      rw [signerMap_setMark_ne _ _ _ _ _ hne]
      split
      · rfl
      · rw [signerMap_setMark_ne _ _ _ _ _ hne]

theorem hasBetterMsgAt_eq_any (schedule : MessageSchedule) (id : List Byte) (height : Height)
    (signers : List OperatorID) :
    schedule.hasBetterMsgAt id height signers =
      (schedule.signerMap (markID id)).any fun e =>
        decide (e.2.HighestDecided = height) &&
          decide ((signers.length : Int) < e.2.numOfSignatures) := by
  unfold MessageSchedule.hasBetterMsgAt MessageSchedule.signerMap
  cases hg : mapGet (markID id) schedule.Marks <;> simp [hg]

theorem isTimelyDecidedLoop_congr (s s1 : MessageSchedule) (id : String) (height : Height)
    (now : Time) :
    ∀ (l : List OperatorID) (ret : Bool),
      (∀ signer ∈ l, s1.getMark id signer = s.getMark id signer) →
      s1.isTimelyDecidedLoop id height now l ret = s.isTimelyDecidedLoop id height now l ret := by
  intro l
  induction l with
  | nil => intro ret _; rfl
  | cons a rest ih =>
    intro ret h
    have ha := h a (List.mem_cons_self _ _)
    have hrest : ∀ signer ∈ rest, s1.getMark id signer = s.getMark id signer :=
      fun x hx => h x (List.mem_cons_of_mem _ hx)
    unfold MessageSchedule.isTimelyDecidedLoop
    rw [ha]
    cases s.getMark id a with
    | none => exact ih true hrest
    | some m =>
      simp only
      split_ifs
      · rfl
      · rfl
      · exact ih true hrest

theorem getMark_frame (op : Op) (s s1 : MessageSchedule) (h : Op.apply op s = some s1)
    (id1 : List Byte) (signer1 : OperatorID) (hna : op.addresses id1 signer1 = false) :
    s1.getMark (markID id1) signer1 = s.getMark (markID id1) signer1 := by
  cases op with
  | consensus id signer round msgType now =>
    obtain ⟨m1, _, hget⟩ := getMark_MarkConsensusMessage s s1 id signer round msgType now h
    rw [hget]
    have hk : ¬ (markID id1 = markID id ∧ signer1 = signer) := by
      rintro ⟨h1, h2⟩
      have h3 := markID_eq_imp _ _ h1
      simp [Op.addresses, h2, h3] at hna
    simp [hk]
  | decided id signers height now =>
    simp only [Op.apply, Option.some.injEq] at h
    subst h
    unfold MessageSchedule.markDecidedMessage
    apply markDecided_foldl_frame
    by_cases h1 : markID id1 = markID id
    · right
      have h3 := markID_eq_imp _ _ h1
      intro hmem
      simp [Op.addresses, h3, hmem] at hna
    · exact Or.inl h1

theorem signerMap_frame (op : Op) (s s1 : MessageSchedule) (h : Op.apply op s = some s1)
    (id1 : List Byte) (hne : id1 ≠ op.identifier) :
    s1.signerMap (markID id1) = s.signerMap (markID id1) := by
  cases op with
  | consensus id signer round msgType now =>
    have hk : markID id1 ≠ markID id := fun e => hne (markID_eq_imp _ _ e)
    exact signerMap_MarkConsensusMessage_ne s s1 id signer round msgType now _ hk h
  | decided id signers height now =>
    simp only [Op.apply, Option.some.injEq] at h
    subst h
    have hk : markID id1 ≠ markID id := fun e => hne (markID_eq_imp _ _ e)
    exact signerMap_markDecided_ne s id signers height now _ hk

/-- C28: a call of `MarkConsensusMessage(id, s, ...)` that completes changes no mark other
than that of `(id, s)`, and `markDecidedMessage(id, S, h)` changes no mark of another
identifier and no mark of a signer outside `S`. Hence for every pair that the call does not
address the mark and the answers of `isConsensusMessageTimely` are as before, for every
signer list none of whose signers is addressed the answer of `isTimelyDecidedMessage` is as
before, and for every other identifier the answer of `hasBetterMsg` is as before. -/
theorem C28_mutators_touch_only_addressed_marks (op : Op) (schedule schedule1 : MessageSchedule)
    (hop : Op.apply op schedule = some schedule1) :
    (∀ (id1 : List Byte) (s1 : OperatorID), op.addresses id1 s1 = false →
      schedule1.getMark (markID id1) s1 = schedule.getMark (markID id1) s1 ∧
      ∀ (round : Round) (msgType : MessageType) (now : Time),
        schedule1.isConsensusMessageTimely id1 s1 round msgType now =
          schedule.isConsensusMessageTimely id1 s1 round msgType now) ∧
    (∀ (id1 : List Byte) (L : List OperatorID), (∀ s1 ∈ L, op.addresses id1 s1 = false) →
      ∀ (height : Height) (now : Time),
        schedule1.isTimelyDecidedMessage id1 L height now =
          schedule.isTimelyDecidedMessage id1 L height now) ∧
    (∀ commit : SignedMessage, commit.Message.Identifier ≠ op.identifier →
      schedule1.hasBetterMsg commit = schedule.hasBetterMsg commit) := by
  refine ⟨?_, ?_, ?_⟩
  · intro id1 s1 hna
    have hg := getMark_frame op schedule schedule1 hop id1 s1 hna
    refine ⟨hg, ?_⟩
    intro round msgType now
    unfold MessageSchedule.isConsensusMessageTimely
    simp only [hg]
  · intro id1 L hL height now
    unfold MessageSchedule.isTimelyDecidedMessage
    exact isTimelyDecidedLoop_congr schedule schedule1 (markID id1) height now L false
      (fun s1 hs1 => getMark_frame op schedule schedule1 hop id1 s1 (hL s1 hs1))
  · intro commit hne
    unfold MessageSchedule.hasBetterMsg
    rw [hasBetterMsgAt_eq_any, hasBetterMsgAt_eq_any,
      signerMap_frame op schedule schedule1 hop _ hne]

/-- Witness of C28: on a schedule with marks for signers 0, 1, 2 of `[1, 2, 3, 4]` and for
signer 0 of `[9]`, `markDecidedMessage([1, 2, 3, 4], [0, 1], 7)` leaves the mark of
signer 2 and the marks of `[9]` as they were. -/
theorem C28_mutators_touch_only_addressed_marks_witness :
    (Op.decided [1, 2, 3, 4] [0, 1] 7 63900000005000000000).addresses [1, 2, 3, 4] 2 = false ∧
    (Op.decided [1, 2, 3, 4] [0, 1] 7 63900000005000000000).addresses [9] 0 = false ∧
    (((NewMessageSchedule.markDecidedMessage [1, 2, 3, 4] [0, 1, 2] 5
        63900000000000000000).markDecidedMessage [9] [0] 5
        63900000001000000000).markDecidedMessage [1, 2, 3, 4] [0, 1] 7
        63900000005000000000).getMark (markID [1, 2, 3, 4]) 2 =
      ((NewMessageSchedule.markDecidedMessage [1, 2, 3, 4] [0, 1, 2] 5
        63900000000000000000).markDecidedMessage [9] [0] 5
        63900000001000000000).getMark (markID [1, 2, 3, 4]) 2 ∧
    (((NewMessageSchedule.markDecidedMessage [1, 2, 3, 4] [0, 1, 2] 5
        63900000000000000000).markDecidedMessage [9] [0] 5
        63900000001000000000).markDecidedMessage [1, 2, 3, 4] [0, 1] 7
        63900000005000000000).getMark (markID [9]) 0 =
      ((NewMessageSchedule.markDecidedMessage [1, 2, 3, 4] [0, 1, 2] 5
        63900000000000000000).markDecidedMessage [9] [0] 5
        63900000001000000000).getMark (markID [9]) 0 ∧
    ((NewMessageSchedule.markDecidedMessage [1, 2, 3, 4] [0, 1, 2] 5
        63900000000000000000).markDecidedMessage [9] [0] 5
        63900000001000000000).getMark (markID [1, 2, 3, 4]) 0 ≠
      (((NewMessageSchedule.markDecidedMessage [1, 2, 3, 4] [0, 1, 2] 5
        63900000000000000000).markDecidedMessage [9] [0] 5
        63900000001000000000).markDecidedMessage [1, 2, 3, 4] [0, 1] 7
        63900000005000000000).getMark (markID [1, 2, 3, 4]) 0 :=
  ⟨by decide, by decide,
    ((C28_mutators_touch_only_addressed_marks
      (Op.decided [1, 2, 3, 4] [0, 1] 7 63900000005000000000)
      ((NewMessageSchedule.markDecidedMessage [1, 2, 3, 4] [0, 1, 2] 5
        63900000000000000000).markDecidedMessage [9] [0] 5 63900000001000000000)
      _ rfl).1 [1, 2, 3, 4] 2 (by decide)).1,
    ((C28_mutators_touch_only_addressed_marks
      (Op.decided [1, 2, 3, 4] [0, 1] 7 63900000005000000000)
      ((NewMessageSchedule.markDecidedMessage [1, 2, 3, 4] [0, 1, 2] 5
        63900000000000000000).markDecidedMessage [9] [0] 5 63900000001000000000)
      _ rfl).1 [9] 0 (by decide)).1,
    by decide⟩

end Topics
